import Mathlib

/-! # HDR+ burst alignment: a shallow embedding of `src/align.cpp`

The development embeds the tile-distance kernels, the alignment upsampler, the
level aligner and the burst driver of `hdrplus::align`, together with
`applyScaling_` of `src/finish.cpp`, and proves (or refutes) properties of them.

Modelling conventions.

* A C++ `int` that holds a size, an index, a displacement or a configuration
  value is an `Int`.  C++ integer division truncates toward zero and is written
  `cdiv`.
* Pixel arithmetic keeps its machine widths: a sample is a `uint16_t`
  (`Fin 65536`), the promoted difference is an `int`, the store into a
  `uint16_t` reduces modulo `2^16`, a product of two promoted values is a 32-bit
  `int`, and the accumulator is an `unsigned long long` (arithmetic modulo
  `2^64`).  C++ leaves the overflow of an `int` product undefined; the model
  gives it the two's-complement value (`wrap_int32`) that the usual targets
  compute, sign-extended when it is added to the accumulator.
* The upsampler multiplies a displacement by the pyramid ratio in an `int`
  (`align_i.first *= ...`): that product is 32-bit as well (`wrap_int32`).  The
  sums of a tile origin, a displacement and a search index are written
  unwrapped.
* A `cv::Mat` is its height, its width and its sample at (row, column); the row
  stride only serves to address that sample.
* A function that can throw, or that can hit undefined behaviour of the
  library (an unchecked access out of bounds, a call through a null function
  pointer, a division by zero), returns `Except Fault _`.
* A `std::vector` passed by reference to be filled is an argument (its content
  at entry) and the function's result (its content at exit).
* The `double` values of `applyScaling_` are exact rationals; rounding is left
  out.
-/

namespace hdrplus

/-! ## Faults -/

/-- The ways in which a call can fail to return normally. -/
inductive Fault where
  /-- Thrown by `throw std::runtime_error(msg)` -/
  | runtime_error (msg : String)
  /-- Exception `std::length_error`: a `std::vector` asked for a negative number of elements -/
  | length_error
  /-- Exception `std::out_of_range` thrown by `std::vector::at` -/
  | out_of_range
  /-- A `cv::Exception` raised by an OpenCV precondition -/
  | cv_error
  /-- A call through a function pointer that is still `nullptr` -/
  | null_call
  /-- Unchecked `operator[]` outside the vector -/
  | out_of_bounds
  /-- Integer division by zero -/
  | div_by_zero
  deriving DecidableEq, Repr

/-! ## Integers -/

/-- C++ `int / int`: truncation toward zero. -/
def cdiv (a b : Int) : Int := Int.tdiv a b

/-- Value of a 32-bit `int` operation whose mathematical result is `x`
(two's-complement wrap-around). -/
def wrap_int32 (x : Int) : Int := (x + 2 ^ 31) % 2 ^ 32 - 2 ^ 31

/-- The constant `ULONG_LONG_MAX`. -/
def ULONG_LONG_MAX : Nat := 2 ^ 64 - 1

/-- Conversion of an `int` to `unsigned long long` followed by `sum += x`. -/
def ull_add (sum : Nat) (x : Int) : Nat := (((sum : Int) + x) % 2 ^ 64).toNat

/-! ## Images -/

/-- A 16-bit single-channel `cv::Mat`. -/
structure Mat where
  /-- The value of `size().height` -/
  height : Nat
  /-- The value of `size().width` -/
  width : Nat
  /-- The sample stored at (row, column). -/
  px : Int → Int → Fin 65536

/-- The macro `CUSTOME_ABS( x )`, which expands to `( x ) > 0 ? ( x ) : - ( x )`. -/
def CUSTOME_ABS (x : Int) : Int := if x > 0 then x else -x

/-- The statement `data_type l1 = CUSTOME_ABS( img1_ptr_row_i[ col_i ] - img2_ptr_row_i[ col_i ] );`
with `data_type = uint16_t`: the operands are promoted to `int`, the result is
stored in a `uint16_t`. -/
def abs_diff_u16 (a b : Fin 65536) : Nat :=
  (CUSTOME_ABS ((a.val : Int) - (b.val : Int)) % 65536).toNat

/-! ## Distance kernels -/

/-- The four range checks shared by `l1_distance` and `l2_distance`
(lines 142-161 and 202-221). -/
def range_check (tile_size : Nat) (img1 img2 : Mat)
    (img1_tile_row_start_idx img1_tile_col_start_idx
     img2_tile_row_start_idx img2_tile_col_start_idx : Int) : Except Fault Unit :=
  if img1_tile_row_start_idx < 0 ∨ img1_tile_row_start_idx > (img1.height : Int) - tile_size then
    .error (.runtime_error "l1 distance img1_tile_row_start_idx out of valid range")
  else if img1_tile_col_start_idx < 0 ∨ img1_tile_col_start_idx > (img1.width : Int) - tile_size then
    .error (.runtime_error "l1 distance img1_tile_col_start_idx out of valid range")
  else if img2_tile_row_start_idx < 0 ∨ img2_tile_row_start_idx > (img2.height : Int) - tile_size then
    .error (.runtime_error "l1 distance img2_tile_row_start_idx out of valid range")
  else if img2_tile_col_start_idx < 0 ∨ img2_tile_col_start_idx > (img2.width : Int) - tile_size then
    .error (.runtime_error "l1 distance img2_tile_col_start_idx out of valid range")
  else .ok ()

/-- The accumulation loops of `l1_distance` (lines 163-175): `sum += l1`. -/
def l1_sum (tile_size : Nat) (img1 img2 : Mat) (r1 c1 r2 c2 : Int) : Nat :=
  (List.range tile_size).foldl (fun (sum : Nat) (row_i : Nat) =>
    (List.range tile_size).foldl (fun (sum : Nat) (col_i : Nat) =>
      let l1 := abs_diff_u16 (img1.px (r1 + row_i) (c1 + col_i)) (img2.px (r2 + row_i) (c2 + col_i))
      ull_add sum (l1 : Int)) sum) 0

/-- The accumulation loops of `l2_distance` (lines 228-240): `sum += ( l1 * l1 )`,
where `l1 * l1` is a product of two promoted `uint16_t`, that is, an `int`. -/
def l2_sum (tile_size : Nat) (img1 img2 : Mat) (r1 c1 r2 c2 : Int) : Nat :=
  (List.range tile_size).foldl (fun (sum : Nat) (row_i : Nat) =>
    (List.range tile_size).foldl (fun (sum : Nat) (col_i : Nat) =>
      let l1 := abs_diff_u16 (img1.px (r1 + row_i) (c1 + col_i)) (img2.px (r2 + row_i) (c2 + col_i))
      ull_add sum (wrap_int32 ((l1 : Int) * (l1 : Int)))) sum) 0

/-- The kernel `l1_distance<uint16_t, unsigned long long, tile_size>`. -/
def l1_distance (tile_size : Nat) (img1 img2 : Mat)
    (img1_tile_row_start_idx img1_tile_col_start_idx
     img2_tile_row_start_idx img2_tile_col_start_idx : Int) : Except Fault Nat :=
  match range_check tile_size img1 img2 img1_tile_row_start_idx img1_tile_col_start_idx
      img2_tile_row_start_idx img2_tile_col_start_idx with
  | .error e => .error e
  | .ok () => .ok (l1_sum tile_size img1 img2 img1_tile_row_start_idx img1_tile_col_start_idx
      img2_tile_row_start_idx img2_tile_col_start_idx)

/-- The kernel `l2_distance<uint16_t, unsigned long long, tile_size>`. -/
def l2_distance (tile_size : Nat) (img1 img2 : Mat)
    (img1_tile_row_start_idx img1_tile_col_start_idx
     img2_tile_row_start_idx img2_tile_col_start_idx : Int) : Except Fault Nat :=
  match range_check tile_size img1 img2 img1_tile_row_start_idx img1_tile_col_start_idx
      img2_tile_row_start_idx img2_tile_col_start_idx with
  | .error e => .error e
  | .ok () => .ok (l2_sum tile_size img1 img2 img1_tile_row_start_idx img1_tile_col_start_idx
      img2_tile_row_start_idx img2_tile_col_start_idx)

/-! ## Alignment grids -/

/-- The type `std::vector<std::vector<std::pair<int, int>>>`: rows of (first, second) pairs. -/
abbrev Alignment := List (List (Int × Int))

/-- The constructor `std::vector<T>( n, value )` with an `int` count: a negative
count converts to a size beyond `max_size()`. -/
def vector_fill {α : Type} (n : Int) (value : α) : Except Fault (List α) :=
  if n < 0 then .error .length_error else .ok (List.replicate n.toNat value)

/-- The call `v.resize( n, value )` with an `int` count: the first `n` elements are
kept, missing ones are copies of `value`. -/
def vector_resize {α : Type} (v : List α) (n : Int) (value : α) : Except Fault (List α) :=
  if n < 0 then .error .length_error
  else .ok (v.take n.toNat ++ List.replicate (n.toNat - v.length) value)

/-- The call `v.clear()`. -/
def vector_clear {α : Type} (_v : List α) : List α := []

/-- The call `v.resize( rows, std::vector<...>( cols, std::pair<int, int>(0, 0) ) )`;
the row of zeros is built first. -/
def resize_zero (v : Alignment) (rows cols : Int) : Except Fault Alignment :=
  match vector_fill cols ((0, 0) : Int × Int) with
  | .error e => .error e
  | .ok row => vector_resize v rows row

/-- Reading `g[ r ][ c ]` (fault `oob` outside the vectors: `out_of_bounds` for
`operator[]`, `out_of_range` for `at`). -/
def read_cell (oob : Fault) (g : Alignment) (r c : Nat) : Except Fault (Int × Int) :=
  match g[r]? with
  | none => .error oob
  | some row =>
    match row[c]? with
    | none => .error oob
    | some v => .ok v

/-- Writing `g[ r ][ c ] = v` (fault `oob` outside the vectors). -/
def write_cell (oob : Fault) (g : Alignment) (r c : Nat) (v : Int × Int) : Except Fault Alignment :=
  match g[r]? with
  | none => .error oob
  | some row => if c < row.length then .ok (g.set r (row.set c v)) else .error oob

/-- The entry of a grid at (r, c), when there is one. -/
def cell (g : Alignment) (r c : Nat) : Option (Int × Int) :=
  match g[r]? with
  | none => none
  | some row => row[c]?

/-! ## Alignment upsampler -/

/-- The innermost loop of the upsampler (lines 112-115), for one `repeat_row_i`:
`dst_alignment[ row_i * repeat_factor + repeat_row_i ][ col_i * repeat_factor + repeat_col_i ] = align_i`.
The loop only runs when `repeat_factor` is positive, where the index is the
natural number written here with `rep = repeat_factor`. -/
def upsample_repeat_cols (rep row_i col_i repeat_row_i : Nat) (align_i : Int × Int)
    (dst : Alignment) : Except Fault Alignment :=
  (List.range rep).foldlM (fun dst repeat_col_i =>
    write_cell .out_of_bounds dst (row_i * rep + repeat_row_i) (col_i * rep + repeat_col_i) align_i) dst

/-- The loop over `repeat_row_i` (lines 110-116). -/
def upsample_repeat_rows (rep row_i col_i : Nat) (align_i : Int × Int)
    (dst : Alignment) : Except Fault Alignment :=
  (List.range rep).foldlM (fun dst repeat_row_i =>
    upsample_repeat_cols rep row_i col_i repeat_row_i align_i dst) dst

/-- The body of the loop over `col_i` (lines 104-116): read the coarse entry, scale
it by the pyramid ratio, replicate it.  The statements
`align_i.first *= pyramid_scale_factor_prev_curr` and
`align_i.second *= pyramid_scale_factor_prev_curr` multiply two `int`s: each
product is a 32-bit `int` (`wrap_int32`). -/
def upsample_cell (pyramid_scale_factor_prev_curr : Int) (rep : Nat) (src : Alignment)
    (row_i col_i : Nat) (dst : Alignment) : Except Fault Alignment :=
  match read_cell .out_of_bounds src row_i col_i with
  | .error e => .error e
  | .ok align_i =>
    upsample_repeat_rows rep row_i col_i
      (wrap_int32 (align_i.1 * pyramid_scale_factor_prev_curr),
       wrap_int32 (align_i.2 * pyramid_scale_factor_prev_curr)) dst

/-- The loop over `col_i` (lines 102-117) for one `row_i`. -/
def upsample_row (pyramid_scale_factor_prev_curr : Int) (rep : Nat) (src : Alignment)
    (src_width row_i : Nat) (dst : Alignment) : Except Fault Alignment :=
  (List.range src_width).foldlM (fun dst col_i =>
    upsample_cell pyramid_scale_factor_prev_curr rep src row_i col_i dst) dst

/-- The function `build_upsampled_prev_aligement< pyramid_scale_factor_prev_curr, tilesize_scale_factor_prev_curr >`.
`dst_alignment` is the content of the output vector at entry; the result is its
content at exit. -/
def build_upsampled_prev_aligement
    (pyramid_scale_factor_prev_curr tilesize_scale_factor_prev_curr : Int)
    (src_alignment dst_alignment : Alignment) (num_tiles_h num_tiles_w : Int) :
    Except Fault Alignment :=
  let src_height : Int := src_alignment.length
  match src_alignment[0]? with
  | none => .error .out_of_bounds
  | some row0 =>
    let src_width : Int := row0.length
    let repeat_factor : Int := cdiv pyramid_scale_factor_prev_curr tilesize_scale_factor_prev_curr
    let dst_height := src_height * repeat_factor
    let dst_width := src_width * repeat_factor
    if dst_height > num_tiles_h ∨ dst_width > num_tiles_w then
      .error (.runtime_error "current level number of tiles smaller than upsampled tiles")
    else
      match resize_zero dst_alignment num_tiles_h num_tiles_w with
      | .error e => .error e
      | .ok dst =>
        (List.range src_alignment.length).foldlM (fun dst row_i =>
          upsample_row pyramid_scale_factor_prev_curr repeat_factor.toNat src_alignment
            row0.length row_i dst) dst

/-! ## Level aligner -/

/-- Type of the distance kernels behind `distance_func_ptr`. -/
abbrev DistanceFn := Mat → Mat → Int → Int → Int → Int → Except Fault Nat

/-- Selection of `distance_func_ptr` (lines 261-284); `none` is `nullptr`. -/
def distance_func_ptr (distance_type curr_tile_size : Int) : Option DistanceFn :=
  if distance_type = 1 then
    if curr_tile_size = 8 then some (l1_distance 8)
    else if curr_tile_size = 16 then some (l1_distance 16)
    else none
  else if distance_type = 2 then
    if curr_tile_size = 8 then some (l2_distance 8)
    else if curr_tile_size = 16 then some (l2_distance 16)
    else none
  else none

/-- Selection of `upsample_alignment_func_ptr` (lines 287-317): the template
arguments of the instance of `build_upsampled_prev_aligement` taken, `none` for
`nullptr`.  The tile ratio examined is `curr_tile_size / prev_tile_size`. -/
def upsample_alignment_func_ptr (scale_factor_prev_curr curr_tile_size prev_tile_size : Int) :
    Except Fault (Option (Int × Int)) :=
  if scale_factor_prev_curr = 2 then
    if prev_tile_size = 0 then .error .div_by_zero
    else if cdiv curr_tile_size prev_tile_size = 2 then .ok (some (2, 2))
    else if cdiv curr_tile_size prev_tile_size = 1 then .ok (some (2, 1))
    else .error (.runtime_error "Something wrong with upsampling function setting")
  else if scale_factor_prev_curr = 4 then
    if prev_tile_size = 0 then .error .div_by_zero
    else if cdiv curr_tile_size prev_tile_size = 2 then .ok (some (4, 2))
    else if cdiv curr_tile_size prev_tile_size = 1 then .ok (some (4, 1))
    else .error (.runtime_error "Something wrong with upsampling function setting")
  else .ok none

/-- The call `cv::copyMakeBorder( src, dst, top, bottom, left, right, cv::BORDER_CONSTANT, value )`:
the source is copied at offset (top, left) and the border holds `value`; OpenCV
rejects a negative border width. -/
def copyMakeBorder (src : Mat) (top bottom left right : Int) (value : Fin 65536) :
    Except Fault Mat :=
  if top < 0 ∨ bottom < 0 ∨ left < 0 ∨ right < 0 then .error .cv_error
  else .ok {
    height := src.height + top.toNat + bottom.toNat
    width := src.width + left.toNat + right.toNat
    px := fun y x =>
      if top ≤ y ∧ y < top + src.height ∧ left ≤ x ∧ x < left + src.width then
        src.px (y - top) (x - left)
      else value }

/-- The constant `UINT_LEAST16_MAX`. -/
def UINT_LEAST16_MAX : Fin 65536 := 65535

/-- The running minimum of the search: `min_distance_i`, `min_distance_row_i`,
`min_distance_col_i`. -/
structure SearchState where
  min_distance_i : Nat
  min_distance_row_i : Int
  min_distance_col_i : Int
  deriving DecidableEq, Repr

/-- The body of the inner search loop (lines 443-456): one candidate. -/
def search_step (dist : Option DistanceFn) (ref_img alt_img_pad : Mat)
    (ref_tile_row_start_idx_i ref_tile_col_start_idx_i
     alt_tile_row_start_idx_i alt_tile_col_start_idx_i : Int)
    (search_row_j search_col_j : Nat) (st : SearchState) : Except Fault SearchState :=
  match dist with
  | none => .error .null_call
  | some f =>
    match f ref_img alt_img_pad ref_tile_row_start_idx_i ref_tile_col_start_idx_i
        (alt_tile_row_start_idx_i + search_row_j) (alt_tile_col_start_idx_i + search_col_j) with
    | .error e => .error e
    | .ok distance_j =>
      if distance_j < st.min_distance_i then .ok ⟨distance_j, search_row_j, search_col_j⟩
      else .ok st

/-- The inner search loop (lines 437-478) for one `search_row_j`. -/
def search_row (dist : Option DistanceFn) (ref_img alt_img_pad : Mat)
    (ref_r ref_c alt_r alt_c search_radiou : Int) (search_row_j : Nat) (st : SearchState) :
    Except Fault SearchState :=
  (List.range (search_radiou * 2 + 1).toNat).foldlM (fun st search_col_j =>
    search_step dist ref_img alt_img_pad ref_r ref_c alt_r alt_c search_row_j search_col_j st) st

/-- The search of one tile (lines 432-479). -/
def search_tile (dist : Option DistanceFn) (ref_img alt_img_pad : Mat)
    (ref_r ref_c alt_r alt_c search_radiou : Int) : Except Fault SearchState :=
  (List.range (search_radiou * 2 + 1).toNat).foldlM (fun st search_row_j =>
    search_row dist ref_img alt_img_pad ref_r ref_c alt_r alt_c search_radiou search_row_j st)
    ⟨ULONG_LONG_MAX, -1, -1⟩

/-- The clamp of lines 407-422 on one coordinate: first `if ( x < 0 ) x = 0`, then
`if ( x > max ) x = max`. -/
def clamp_start (x idx_max : Int) : Int :=
  let x := if x < 0 then 0 else x
  if x > idx_max then idx_max else x

/-- The body of the tile loops up to the entry computed (lines 388-487). -/
def align_tile (dist : Option DistanceFn) (ref_img alt_img_pad : Mat)
    (upsampled_prev_aligement : Alignment) (curr_tile_size search_radiou : Int)
    (ref_tile_row_i ref_tile_col_i : Nat) : Except Fault (Int × Int) :=
  let alt_tile_row_idx_max : Int := (alt_img_pad.height : Int) - (curr_tile_size + 2 * search_radiou)
  let alt_tile_col_idx_max : Int := (alt_img_pad.width : Int) - (curr_tile_size + 2 * search_radiou)
  let ref_tile_row_start_idx_i := cdiv (ref_tile_row_i * curr_tile_size) 2
  let ref_tile_col_start_idx_i := cdiv (ref_tile_col_i * curr_tile_size) 2
  match read_cell .out_of_range upsampled_prev_aligement ref_tile_row_i ref_tile_col_i with
  | .error e => .error e
  | .ok prev =>
    let prev_alignment_row_i := prev.1
    let prev_alignment_col_i := prev.2
    let alt_tile_row_start_idx_i :=
      clamp_start (ref_tile_row_start_idx_i + prev_alignment_row_i) alt_tile_row_idx_max
    let alt_tile_col_start_idx_i :=
      clamp_start (ref_tile_col_start_idx_i + prev_alignment_col_i) alt_tile_col_idx_max
    match search_tile dist ref_img alt_img_pad ref_tile_row_start_idx_i ref_tile_col_start_idx_i
        alt_tile_row_start_idx_i alt_tile_col_start_idx_i search_radiou with
    | .error e => .error e
    | .ok st =>
      .ok (prev_alignment_row_i + st.min_distance_row_i - search_radiou,
           prev_alignment_col_i + st.min_distance_col_i - search_radiou)

/-- The body of the loop over `ref_tile_col_i` (lines 386-492): compute the entry
and store it with `curr_alignment.at( ref_tile_row_i ).at( ref_tile_col_i ) = alignment_i`. -/
def align_cell (dist : Option DistanceFn) (ref_img alt_img_pad : Mat)
    (upsampled_prev_aligement : Alignment) (curr_tile_size search_radiou : Int)
    (ref_tile_row_i ref_tile_col_i : Nat) (curr : Alignment) : Except Fault Alignment :=
  match align_tile dist ref_img alt_img_pad upsampled_prev_aligement curr_tile_size search_radiou
      ref_tile_row_i ref_tile_col_i with
  | .error e => .error e
  | .ok alignment_i => write_cell .out_of_range curr ref_tile_row_i ref_tile_col_i alignment_i

/-- The loop over `ref_tile_col_i` for one `ref_tile_row_i`. -/
def align_row (dist : Option DistanceFn) (ref_img alt_img_pad : Mat)
    (upsampled_prev_aligement : Alignment) (curr_tile_size search_radiou : Int)
    (num_tiles_w : Int) (ref_tile_row_i : Nat) (curr : Alignment) : Except Fault Alignment :=
  (List.range num_tiles_w.toNat).foldlM (fun curr ref_tile_col_i =>
    align_cell dist ref_img alt_img_pad upsampled_prev_aligement curr_tile_size search_radiou
      ref_tile_row_i ref_tile_col_i curr) curr

/-- The upsampled prior of lines 322-348: zeros at the coarsest level
(`prev_tile_size == -1`), otherwise the call through `upsample_alignment_func_ptr`
on the fresh local vector `upsampled_prev_aligement`. -/
def upsampled_prior (upsample : Option (Int × Int)) (prev_aligement : Alignment)
    (prev_tile_size num_tiles_h num_tiles_w : Int) : Except Fault Alignment :=
  if prev_tile_size = -1 then resize_zero [] num_tiles_h num_tiles_w
  else
    match upsample with
    | none => .error .null_call
    | some (p, t) => build_upsampled_prev_aligement p t prev_aligement [] num_tiles_h num_tiles_w

/-- The function `align_image_level`.  `curr_alignment` is the content of the output vector at
entry, the result its content at exit.  The local vector `distances` (debug
only, same shape as the grid) is left out. -/
def align_image_level (ref_img alt_img : Mat) (prev_aligement curr_alignment : Alignment)
    (scale_factor_prev_curr curr_tile_size prev_tile_size search_radiou distance_type : Int) :
    Except Fault Alignment :=
  let dist := distance_func_ptr distance_type curr_tile_size
  match upsample_alignment_func_ptr scale_factor_prev_curr curr_tile_size prev_tile_size with
  | .error e => .error e
  | .ok upsample =>
    if cdiv curr_tile_size 2 = 0 then .error .div_by_zero
    else
      let num_tiles_h := cdiv ref_img.height (cdiv curr_tile_size 2) - 1
      let num_tiles_w := cdiv ref_img.width (cdiv curr_tile_size 2) - 1
      match upsampled_prior upsample prev_aligement prev_tile_size num_tiles_h num_tiles_w with
      | .error e => .error e
      | .ok upsampled_prev_aligement =>
        match resize_zero curr_alignment num_tiles_h num_tiles_w with
        | .error e => .error e
        | .ok curr =>
          match copyMakeBorder alt_img search_radiou search_radiou search_radiou search_radiou
              UINT_LEAST16_MAX with
          | .error e => .error e
          | .ok alt_img_pad =>
            (List.range num_tiles_h.toNat).foldlM (fun curr ref_tile_row_i =>
              align_row dist ref_img alt_img_pad upsampled_prev_aligement curr_tile_size
                search_radiou num_tiles_w ref_tile_row_i curr) curr

/-! ## Pyramid builder -/

/-- An empty `cv::Mat`, the element `images_pyramid.resize( n )` appends. -/
def empty_mat : Mat := ⟨0, 0, fun _ _ => 0⟩

/-- The message of the exception thrown at line 66 for the factor `f`. -/
def invalid_factor_message (f : Int) : String :=
  "inv scale factor " ++ toString f ++ "invalid"

/-- One iteration of the loop of `build_per_grayimg_pyramid` (lines 35-67).
`GaussianBlur src f` stands for `cv::GaussianBlur( src, dst, cv::Size(0, 0), f * 0.5 )`,
a floating-point filter of the library, and `downsample_nearest_neighbour f`
for the template `downsample_nearest_neighbour<uint16_t, f>` of
`hdrplus/utility.h`; both are parameters.  In the cases 2 and 4 the previous
level is read with `images_pyramid.at( i-1 )`, whose index wraps around to the
largest `size_t` when `i` is 0. -/
def pyramid_step (GaussianBlur : Mat → Int → Mat) (downsample_nearest_neighbour : Int → Mat → Mat)
    (src_image : Mat) (inv_scale_factors : List Int) (images_pyramid : List Mat) (i : Nat) :
    Except Fault (List Mat) :=
  match inv_scale_factors[i]? with
  | none => .error .out_of_bounds
  | some f =>
    if f = 1 then
      if i < images_pyramid.length then .ok (images_pyramid.set i src_image)
      else .error .out_of_bounds
    else if f = 2 ∨ f = 4 then
      if i = 0 then .error .out_of_range
      else
        match images_pyramid[i - 1]? with
        | none => .error .out_of_range
        | some prev =>
          let blur_image := GaussianBlur prev f
          let downsample_image := downsample_nearest_neighbour f blur_image
          if i < images_pyramid.length then .ok (images_pyramid.set i downsample_image)
          else .error .out_of_range
    else .error (.runtime_error (invalid_factor_message f))

/-- The function `build_per_grayimg_pyramid`.  `images_pyramid` is the content of
the output vector at entry, the result its content at exit. -/
def build_per_grayimg_pyramid (GaussianBlur : Mat → Int → Mat)
    (downsample_nearest_neighbour : Int → Mat → Mat)
    (images_pyramid : List Mat) (src_image : Mat) (inv_scale_factors : List Int) :
    Except Fault (List Mat) :=
  match vector_resize images_pyramid inv_scale_factors.length empty_mat with
  | .error e => .error e
  | .ok pyramid =>
    (List.range inv_scale_factors.length).foldlM
      (pyramid_step GaussianBlur downsample_nearest_neighbour src_image inv_scale_factors) pyramid

/-- Modelled from the spec: `downsample_nearest_neighbour<uint16_t, f>` of
`hdrplus/utility.h`, nearest-neighbour decimation taking the samples at
positions `(i*f, j*f)` (section 4.2); width and height are integer-divided by
the factor (section 3). -/
def decimate (f : Int) (src : Mat) : Mat :=
  ⟨src.height / f.toNat, src.width / f.toNat, fun y x => src.px (y * f) (x * f)⟩

/-! ## Burst aligner -/

/-- Modelled from the spec: `num_levels`, a member of class `align` declared in
the header `hdrplus/align.h` (section 6, `num_levels`: 4). -/
def num_levels : Nat := 4

/-- Modelled from the spec: the member `inv_scale_factors` of class `align`
(section 6, `inv_scale_factors`: `[1, 2, 4, 4]`). -/
def inv_scale_factors : List Int := [1, 2, 4, 4]

/-- Modelled from the spec: the member `grayimg_tile_sizes` of class `align`
(section 6, `tile_sizes`: `[16, 16, 16, 8]`). -/
def grayimg_tile_sizes : List Int := [16, 16, 16, 8]

/-- Modelled from the spec: the member `grayimg_search_radious` of class `align`
(section 6, `search_radii`: `[1, 4, 4, 1]`). -/
def grayimg_search_radious : List Int := [1, 4, 4, 1]

/-- Modelled from the spec: the member `distances` of class `align`
(section 6, `distance_metrics`: `[L2, L2, L2, L1]`, with 1 for L1 and 2 for L2). -/
def distances : List Int := [2, 2, 2, 1]

/-- The last five arguments of the call of `align_image_level` at `level_i`
(lines 628-632). -/
structure LevelArgs where
  scale_factor_prev_curr : Int
  curr_tile_size : Int
  prev_tile_size : Int
  search_radiou : Int
  distance_type : Int
  deriving DecidableEq, Repr

/-- The arguments passed at `level_i` (lines 628-632). -/
def level_args (level_i : Nat) : LevelArgs where
  scale_factor_prev_curr := if level_i = num_levels - 1 then -1 else inv_scale_factors.getD (level_i + 1) 0
  curr_tile_size := grayimg_tile_sizes.getD level_i 0
  prev_tile_size := if level_i = num_levels - 1 then -1 else grayimg_tile_sizes.getD (level_i + 1) 0
  search_radiou := grayimg_search_radious.getD level_i 0
  distance_type := distances.getD level_i 0

/-- One iteration of the level loop (lines 618-632): `prev_alignment.swap( curr_alignment )`,
`curr_alignment.clear()`, then the call of `align_image_level`.  The state is
the pair (`curr_alignment`, `prev_alignment`). -/
def level_step (ref_grayimg_pyramid alt_grayimg_pyramid : List Mat)
    (state : Alignment × Alignment) (level_i : Nat) : Except Fault (Alignment × Alignment) :=
  let prev_alignment := state.1
  match ref_grayimg_pyramid[level_i]?, alt_grayimg_pyramid[level_i]? with
  | some ref_img, some alt_img =>
    let a := level_args level_i
    match align_image_level ref_img alt_img prev_alignment [] a.scale_factor_prev_curr
        a.curr_tile_size a.prev_tile_size a.search_radiou a.distance_type with
    | .error e => .error e
    | .ok curr_alignment => .ok (curr_alignment, prev_alignment)
  | _, _ => .error .out_of_bounds

/-- The level loop for one alternate frame (lines 614-640), levels
`num_levels - 1` down to 0; the result is the final `curr_alignment`. -/
def align_levels (ref_grayimg_pyramid alt_grayimg_pyramid : List Mat) : Except Fault Alignment :=
  match (List.range num_levels).reverse.foldlM
      (level_step ref_grayimg_pyramid alt_grayimg_pyramid) (([], []) : Alignment × Alignment) with
  | .error e => .error e
  | .ok state => .ok state.1

/-- The levels the level loop of `align::process` has gone through once it has
finished level `L`: `num_levels - 1` down to `L`. -/
def levels_down_to (L : Nat) : List Nat :=
  ((List.range num_levels).reverse).take (num_levels - L)

/-- The state (`curr_alignment`, `prev_alignment`) of the level loop of
`align::process` (lines 614-640) once it has finished level `L`; its first
component is the grid of level `L`. -/
def level_state (ref_grayimg_pyramid alt_grayimg_pyramid : List Mat) (L : Nat) :
    Except Fault (Alignment × Alignment) :=
  (levels_down_to L).foldlM (level_step ref_grayimg_pyramid alt_grayimg_pyramid)
    (([], []) : Alignment × Alignment)

/-- The pyramid loop of `align::process` (lines 573-581): `per_grayimg_pyramid` is
resized to `num_images` empty pyramids and the pyramid of frame `img_idx` is
built from `grayscale_images_pad.at( img_idx )` with the factors of the class. -/
def build_pyramids (GaussianBlur : Mat → Int → Mat)
    (downsample_nearest_neighbour : Int → Mat → Mat)
    (grayscale_images_pad : List Mat) (num_images : Nat) : Except Fault (List (List Mat)) :=
  (List.range num_images).foldlM (fun (per_grayimg_pyramid : List (List Mat)) (img_idx : Nat) =>
    match grayscale_images_pad[img_idx]? with
    | none => .error .out_of_range
    | some src_image =>
      match build_per_grayimg_pyramid GaussianBlur downsample_nearest_neighbour []
          src_image inv_scale_factors with
      | .error e => .error e
      | .ok pyramid => .ok (per_grayimg_pyramid.set img_idx pyramid))
    (List.replicate num_images [])

/-- The frame loop of `align::process` (lines 602-656): the reference frame is
skipped, every other frame goes through the level loop and its final grid is
swapped into `images_alignment.at( img_idx )`. -/
def align_frames (per_grayimg_pyramid : List (List Mat)) (num_images reference_image_idx : Nat)
    (images_alignment : List Alignment) : Except Fault (List Alignment) :=
  match per_grayimg_pyramid[reference_image_idx]? with
  | none => .error .out_of_bounds
  | some ref_grayimg_pyramid =>
    (List.range num_images).foldlM (fun (images_alignment : List Alignment) (img_idx : Nat) =>
      if img_idx = reference_image_idx then .ok images_alignment
      else
        match per_grayimg_pyramid[img_idx]? with
        | none => .error .out_of_bounds
        | some alt_grayimg_pyramid =>
          match align_levels ref_grayimg_pyramid alt_grayimg_pyramid with
          | .error e => .error e
          | .ok curr_alignment =>
            if img_idx < images_alignment.length then
              .ok (images_alignment.set img_idx curr_alignment)
            else .error .out_of_range)
      images_alignment

/-- The function `align::process` on a burst of `num_images` frames with the padded
grayscale planes `grayscale_images_pad` and the reference `reference_image_idx`
(the members of `hdrplus::burst` it reads).  `images_alignment` is the content
of the output vector at entry, which is cleared and resized to one empty grid
per frame (lines 559-560); the result is its content at exit. -/
def process (GaussianBlur : Mat → Int → Mat) (downsample_nearest_neighbour : Int → Mat → Mat)
    (grayscale_images_pad : List Mat) (num_images reference_image_idx : Nat)
    (images_alignment : List Alignment) : Except Fault (List Alignment) :=
  match vector_resize (vector_clear images_alignment) (num_images : Int) ([] : Alignment) with
  | .error e => .error e
  | .ok images_alignment =>
    match build_pyramids GaussianBlur downsample_nearest_neighbour grayscale_images_pad
        num_images with
    | .error e => .error e
    | .ok per_grayimg_pyramid =>
      align_frames per_grayimg_pyramid num_images reference_image_idx images_alignment

/-! ## Reference tile-start table -/

/-- The loop over `tile_row_j` of `build_per_pyramid_reftiles_start` (lines 542-546) for one
`tile_col_i`: `table.at( level_i ).at( tile_col_i ).at( tile_row_j ) =
std::make_pair( tile_col_i * level_i_tile_size, tile_row_j * level_i_tile_size )`.
The products stay below twice the plane dimension and are written unwrapped. -/
def reftiles_row (level_i_tile_size num_tiles_w : Int) (tile_col_i : Nat) (grid : Alignment) :
    Except Fault Alignment :=
  (List.range num_tiles_w.toNat).foldlM (fun grid (tile_row_j : Nat) =>
    write_cell .out_of_range grid tile_col_i tile_row_j
      ((tile_col_i : Int) * level_i_tile_size, (tile_row_j : Int) * level_i_tile_size)) grid

/-- The body of the level loop of `build_per_pyramid_reftiles_start` (lines 529-547) on the
grid of one level: the resize of line 538, then the two tile loops. -/
def reftiles_level (level_i_img_h level_i_img_w : Nat) (level_i_tile_size : Int)
    (grid : Alignment) : Except Fault Alignment :=
  if cdiv level_i_tile_size 2 = 0 then .error .div_by_zero
  else
    let num_tiles_h := cdiv level_i_img_h (cdiv level_i_tile_size 2) - 1
    let num_tiles_w := cdiv level_i_img_w (cdiv level_i_tile_size 2) - 1
    match resize_zero grid num_tiles_h num_tiles_w with
    | .error e => .error e
    | .ok grid =>
      (List.range num_tiles_h.toNat).foldlM (fun grid (tile_col_i : Nat) =>
        reftiles_row level_i_tile_size num_tiles_w tile_col_i grid) grid

/-- The function `build_per_pyramid_reftiles_start`.  `per_pyramid_reftiles_start` is the
content of the output vector at entry, the result its content at exit. -/
def build_per_pyramid_reftiles_start (per_pyramid_reftiles_start : List Alignment)
    (per_grayimg_pyramid : List (List Mat)) (grayimg_tile_sizes : List Int) :
    Except Fault (List Alignment) :=
  match per_grayimg_pyramid[0]? with
  | none => .error .out_of_range
  | some pyramid =>
    match vector_resize per_pyramid_reftiles_start (pyramid.length : Int) ([] : Alignment) with
    | .error e => .error e
    | .ok table =>
      (List.range pyramid.length).foldlM (fun (table : List Alignment) (level_i : Nat) =>
        match pyramid[level_i]?, grayimg_tile_sizes[level_i]?, table[level_i]? with
        | some img, some level_i_tile_size, some grid =>
          match reftiles_level img.height img.width level_i_tile_size grid with
          | .error e => .error e
          | .ok grid => .ok (table.set level_i grid)
        | _, _, _ => .error .out_of_range) table

/-! ## Finish: scaling of the channels -/

/-- The constant `USHRT_MAX`. -/
def USHRT_MAX : Nat := 65535

/-- A pixel of a `CV_16UC3` image (`cv::Vec3w`). -/
abbrev Vec3w := Fin 65536 × Fin 65536 × Fin 65536

/-- The body of the channel loop of `applyScaling_` (lines 303-311): `tmp = (*it)[c] * s`,
clamped to `[0, USHRT_MAX]` and converted to `uint16_t` (truncation).  The `double`
values are written as exact rationals: rounding is left out, and the quotients
and products evaluated in the theorems below are exact in `double`. -/
def scale_channel (v : Fin 65536) (s : ℚ) : Fin 65536 :=
  let tmp : ℚ := (v.val : ℚ) * s
  if tmp < 0 then 0
  else if tmp > (USHRT_MAX : ℚ) then 65535
  else Fin.ofNat (Rat.floor tmp).toNat

/-- The function `applyScaling_` (lines 290-315) on the pixels of `mergedImage` in iteration
order and the data of `shortGray` and `fusedGray`.  The index `count` is
initialised to 0 (line 294) and no statement of the loop changes it. -/
def applyScaling_ (mergedImage : List Vec3w) (shortGray fusedGray : List (Fin 65536)) :
    Except Fault (List Vec3w) :=
  let count : Nat := 0
  mergedImage.mapM (fun (px : Vec3w) =>
    match shortGray[count]? with
    | none => .error .out_of_bounds
    | some sg =>
      if sg ≠ 0 then
        match fusedGray[count]? with
        | none => .error .out_of_bounds
        | some fg =>
          let s : ℚ := (fg.val : ℚ) / (sg.val : ℚ)
          .ok (scale_channel px.1 s, scale_channel px.2.1 s, scale_channel px.2.2 s)
      else
        let s : ℚ := 1
        .ok (scale_channel px.1 s, scale_channel px.2.1 s, scale_channel px.2.2 s))

/-! ## Predicates on grids used in the statements and proofs -/

/-- Two grids have the same number of rows and, row by row, the same width. -/
structure SameShape (g g' : Alignment) : Prop where
  len : g'.length = g.length
  width : ∀ r : Nat, (g'[r]?).map List.length = (g[r]?).map List.length

/-- State of an output grid while nested loops fill it: same shape as at the
start (`g0`), the cells of `S` hold their final value `val`, the others are
untouched. -/
structure GridInv (g0 g : Alignment) (val : Nat → Nat → Option (Int × Int))
    (S : Nat → Nat → Prop) : Prop where
  shape : SameShape g0 g
  written : ∀ r c : Nat, S r c → cell g r c = val r c ∧ val r c ≠ none
  untouched : ∀ r c : Nat, ¬ S r c → cell g r c = cell g0 r c

/-- The entry the upsampler assigns to fine cell (r, c): the coarse entry of cell
(r / rep, c / rep), each component multiplied by the pyramid ratio in a 32-bit
`int`. -/
def upsampled_value (p : Int) (rep : Nat) (src : Alignment) (r c : Nat) : Option (Int × Int) :=
  (cell src (r / rep) (c / rep)).map (fun v => (wrap_int32 (v.1 * p), wrap_int32 (v.2 * p)))

/-- The entry `align_tile` computes for tile (r, c), when it returns. -/
def tile_entry (dist : Option DistanceFn) (ref_img alt_img_pad : Mat)
    (upsampled_prev_aligement : Alignment) (curr_tile_size search_radiou : Int)
    (r c : Nat) : Option (Int × Int) :=
  match align_tile dist ref_img alt_img_pad upsampled_prev_aligement curr_tile_size
      search_radiou r c with
  | .ok v => some v
  | .error _ => none

/-- The distance the search computes for candidate offset (a, b) of a tile
(line 443): the kernel applied at the clamped alternate origin plus (a, b). -/
def candidate_distance (dist : Option DistanceFn) (ref_img alt_img_pad : Mat)
    (ref_r ref_c alt_r alt_c : Int) (a b : Nat) : Except Fault Nat :=
  match dist with
  | none => .error .null_call
  | some f => f ref_img alt_img_pad ref_r ref_c (alt_r + a) (alt_c + b)

/-- Candidate (a', b') of a search window of width `N` is scanned before the
loops reach (a, b): row-major order, `a` outer, `b` inner. -/
def Scanned (N a b a' b' : Nat) : Prop := b' < N ∧ (a' < a ∨ (a' = a ∧ b' < b))

/-- State of the running minimum when the loops reach candidate (a, b): every
candidate scanned so far returned a distance, none is below the minimum held,
and the indices held are either still the initial `-1` (with the minimum still
`ULONG_LONG_MAX`) or those of a scanned candidate that attains the minimum and
is strictly better than everything scanned before it. -/
structure SearchInv (d : Nat → Nat → Except Fault Nat) (N a b : Nat) (st : SearchState) : Prop where
  all_ok : ∀ a' b' : Nat, Scanned N a b a' b' → ∃ v, d a' b' = .ok v
  lower : ∀ (a' b' : Nat) (v : Nat), Scanned N a b a' b' → d a' b' = .ok v → st.min_distance_i ≤ v
  chosen :
    (st = ⟨ULONG_LONG_MAX, -1, -1⟩) ∨
    (∃ a' b' : Nat, Scanned N a b a' b' ∧ st = ⟨st.min_distance_i, a', b'⟩ ∧
      d a' b' = .ok st.min_distance_i ∧
      ∀ (a'' b'' : Nat) (v : Nat), Scanned N a' b' a'' b'' → d a'' b'' = .ok v →
        st.min_distance_i < v)

/-- The distance of candidate offset (a, b) for the tile of grid cell (i, j) whose
upsampled prior is `prior`: reference origin `(i*T/2, j*T/2)`, alternate origin
the clamped `(i*T/2 + dy0, j*T/2 + dx0)` in the padded plane (lines 388-445). -/
def tile_distance (dist : Option DistanceFn) (ref_img alt_img_pad : Mat)
    (curr_tile_size search_radiou : Int) (prior : Int × Int) (i j a b : Nat) : Except Fault Nat :=
  candidate_distance dist ref_img alt_img_pad
    (cdiv (i * curr_tile_size) 2) (cdiv (j * curr_tile_size) 2)
    (clamp_start (cdiv (i * curr_tile_size) 2 + prior.1)
      ((alt_img_pad.height : Int) - (curr_tile_size + 2 * search_radiou)))
    (clamp_start (cdiv (j * curr_tile_size) 2 + prior.2)
      ((alt_img_pad.width : Int) - (curr_tile_size + 2 * search_radiou)))
    a b

/-- The compound search envelope of the specification at level `L`: the sum over
the levels `i >= L` of `search_radii[i]` times the product of `inv_scale_factors[j]`
over the levels `j > i`. -/
def search_envelope (L : Nat) : Int :=
  (((List.range num_levels).filter (fun i => L ≤ i)).map (fun i =>
    grayimg_search_radious.getD i 0 *
      (((List.range num_levels).filter (fun j => i < j)).map
        (fun j => inv_scale_factors.getD j 0)).prod)).sum

/-- Every entry of the grid is at most `B` in absolute value, in each component. -/
def EntriesWithin (B : Int) (g : Alignment) : Prop :=
  ∀ (i j : Nat) (v : Int × Int), cell g i j = some v → |v.1| ≤ B ∧ |v.2| ≤ B

/-- Every sample of the plane is zero. -/
def ZeroPlane (m : Mat) : Prop :=
  ∀ y x : Int, 0 ≤ y → y < m.height → 0 ≤ x → x < m.width → m.px y x = 0

/-! ## Concrete inputs -/

deriving instance DecidableEq for Except

/-- The plane of the given size whose every sample is `v`. -/
def const_plane (h w : Nat) (v : Fin 65536) : Mat := ⟨h, w, fun _ _ => v⟩

/-- The sum the kernel of the metric `dt` accumulates for the reference tile of grid
cell (i, j) against a tile of zeros. -/
def zero_tile_sum (dt T : Int) (ref_img : Mat) (i j : Nat) : Nat :=
  if dt = 1 then
    l1_sum T.toNat ref_img (const_plane T.toNat T.toNat 0) (i * (T / 2)) (j * (T / 2)) 0 0
  else l2_sum T.toNat ref_img (const_plane T.toNat T.toNat 0) (i * (T / 2)) (j * (T / 2)) 0 0

/-- The four samples 65535, 362, 5 and 1 at row 8, columns 8 to 11, zero elsewhere.
The squares of the last three add up to 131070, one less than what the 32-bit
product `65535 * 65535` lacks to `2^32`. -/
def sentinel_px (r c : Int) : Fin 65536 :=
  if r = 8 then
    if c = 8 then 65535 else if c = 9 then 362 else if c = 10 then 5 else if c = 11 then 1 else 0
  else 0

/-- A 26 x 26 reference plane with the samples of `sentinel_px`. -/
def sentinel_ref_26 : Mat := ⟨26, 26, sentinel_px⟩

/-- A 32 x 32 reference plane with the samples of `sentinel_px`. -/
def sentinel_ref_32 : Mat := ⟨32, 32, sentinel_px⟩

/-- A 27 x 27 reference plane with the samples of `sentinel_px`. -/
def sentinel_ref_27 : Mat := ⟨27, 27, sentinel_px⟩

/-- A plane without repeated content: sample (y, x) is `37 * y + 101 * x` (modulo 65536). -/
def ramp_plane (h w : Nat) : Mat := ⟨h, w, fun y x => Fin.ofNat (y * 37 + x * 101).toNat⟩

/-- The plane `src` translated by (sy, sx): sample (y + sy, x + sx) of the result is
sample (y, x) of `src`. -/
def translated (src : Mat) (sy sx : Int) : Mat :=
  ⟨src.height, src.width, fun y x => src.px (y - sy) (x - sx)⟩

/-- A 512 x 512 frame, zero except the samples 65535, 362, 5 and 1 at row 128, columns
128 to 131: the four samples lie in the level-0 tile of grid cell (16, 16), which
covers the rows and columns 128 to 143. -/
def wrap_frame : Mat :=
  ⟨512, 512, fun y x =>
    if y = 128 then
      if x = 128 then 65535 else if x = 129 then 362 else if x = 130 then 5
      else if x = 131 then 1 else 0
    else 0⟩

/-- A stand-in for the decimation in a run on thin planes: the rows are decimated
by the factor and, for the factor 4, four columns are dropped. -/
def thin_down (f : Int) (src : Mat) : Mat :=
  ⟨src.height / f.toNat, src.width - (f.toNat - 2) * 2, fun y x => src.px (y * f) x⟩

/-! # Theorems -/

/-! ## Pixel arithmetic -/

theorem CUSTOME_ABS_eq (x : Int) : CUSTOME_ABS x = |x| := by
  unfold CUSTOME_ABS
  split
  · rw [abs_of_pos]; assumption
  · rw [abs_of_nonpos]; omega

theorem abs_diff_u16_eq (a b : Fin 65536) :
    abs_diff_u16 a b = Int.natAbs ((a.val : Int) - (b.val : Int)) := by
  unfold abs_diff_u16 CUSTOME_ABS
  have ha := a.isLt
  have hb := b.isLt
  split <;> omega

theorem abs_diff_u16_le (a b : Fin 65536) : abs_diff_u16 a b ≤ 65535 := by
  rw [abs_diff_u16_eq]
  have ha := a.isLt
  have hb := b.isLt
  omega

theorem ull_add_exact (s : Nat) (x : Nat) (h : s + x ≤ 2 ^ 64 - 1) : ull_add s (x : Int) = s + x := by
  unfold ull_add
  have : ((s : Int) + x) % 2 ^ 64 = (s : Int) + x := by
    apply Int.emod_eq_of_lt <;> omega
  rw [this]
  omega

theorem wrap_int32_small (x : Int) (h0 : 0 ≤ x) (h1 : x < 2 ^ 31) : wrap_int32 x = x := by
  unfold wrap_int32
  omega

/-- A value that fits a 32-bit `int` is left unchanged. -/
theorem wrap_int32_of_range (x : Int) (h0 : -2 ^ 31 ≤ x) (h1 : x < 2 ^ 31) : wrap_int32 x = x := by
  unfold wrap_int32
  omega

/-- A product bounded in absolute value by a bound below `2^31` is left unchanged. -/
theorem wrap_int32_mul_of_abs_le {x p B : Int} (hp : 0 ≤ p) (hx : |x| ≤ B) (hB : p * B < 2 ^ 31) :
    wrap_int32 (x * p) = x * p := by
  have h : |x * p| ≤ p * B := by
    rw [abs_mul, abs_of_nonneg hp, mul_comm p B]
    exact mul_le_mul_of_nonneg_right hx hp
  rw [abs_le] at h
  exact wrap_int32_of_range _ (by omega) (by omega)

theorem foldl_range_sum (F : Nat → Nat → Nat) (a : Nat → Nat) (B M : Nat) :
    ∀ (n : Nat) (s : Nat), (∀ i, i < n → a i ≤ B) →
      (∀ i s, i < n → s + B ≤ M → F s i = s + a i) → s + n * B ≤ M →
      (List.range n).foldl F s = s + ∑ i ∈ Finset.range n, a i := by
  intro n
  induction n with
  | zero => intro s _ _ _; simp
  | succ n ih =>
    intro s ha hF hs
    have hsum : ∑ i ∈ Finset.range n, a i ≤ n * B := by
      calc ∑ i ∈ Finset.range n, a i ≤ ∑ _i ∈ Finset.range n, B :=
            Finset.sum_le_sum (fun i hi => ha i (by simp at hi; omega))
        _ = n * B := by simp
    have hsB : s + n * B + B ≤ M := by
      have : (n + 1) * B = n * B + B := by ring
      omega
    rw [List.range_succ, List.foldl_append, ih s (fun i hi => ha i (by omega))
      (fun i s hi hs => hF i s (by omega) hs) (by omega)]
    simp only [List.foldl_cons, List.foldl_nil]
    rw [hF n _ (by omega) (by omega), Finset.sum_range_succ]
    omega

/-! ## Distance kernels -/

theorem range_check_ok_iff (T : Nat) (img1 img2 : Mat) (r1 c1 r2 c2 : Int) :
    range_check T img1 img2 r1 c1 r2 c2 = .ok () ↔
      (0 ≤ r1 ∧ r1 ≤ (img1.height : Int) - T) ∧ (0 ≤ c1 ∧ c1 ≤ (img1.width : Int) - T) ∧
      (0 ≤ r2 ∧ r2 ≤ (img2.height : Int) - T) ∧ (0 ≤ c2 ∧ c2 ≤ (img2.width : Int) - T) := by
  unfold range_check
  constructor
  · intro h
    split at h
    · cases h
    · split at h
      · cases h
      · split at h
        · cases h
        · split at h
          · cases h
          · omega
  · intro h
    rw [if_neg (by omega), if_neg (by omega), if_neg (by omega), if_neg (by omega)]

theorem range_check_cases (T : Nat) (img1 img2 : Mat) (r1 c1 r2 c2 : Int) :
    range_check T img1 img2 r1 c1 r2 c2 = .ok () ∨
      ∃ msg, range_check T img1 img2 r1 c1 r2 c2 = .error (.runtime_error msg) := by
  unfold range_check
  split
  · exact Or.inr ⟨_, rfl⟩
  · split
    · exact Or.inr ⟨_, rfl⟩
    · split
      · exact Or.inr ⟨_, rfl⟩
      · split
        · exact Or.inr ⟨_, rfl⟩
        · exact Or.inl rfl

theorem l1_distance_of_in_range (T : Nat) (img1 img2 : Mat) (r1 c1 r2 c2 : Int)
    (h : range_check T img1 img2 r1 c1 r2 c2 = .ok ()) :
    l1_distance T img1 img2 r1 c1 r2 c2 = .ok (l1_sum T img1 img2 r1 c1 r2 c2) := by
  unfold l1_distance; rw [h]

theorem l2_distance_of_in_range (T : Nat) (img1 img2 : Mat) (r1 c1 r2 c2 : Int)
    (h : range_check T img1 img2 r1 c1 r2 c2 = .ok ()) :
    l2_distance T img1 img2 r1 c1 r2 c2 = .ok (l2_sum T img1 img2 r1 c1 r2 c2) := by
  unfold l2_distance; rw [h]

theorem l1_distance_of_out_of_range (T : Nat) (img1 img2 : Mat) (r1 c1 r2 c2 : Int) (e : Fault)
    (h : range_check T img1 img2 r1 c1 r2 c2 = .error e) :
    l1_distance T img1 img2 r1 c1 r2 c2 = .error e := by
  unfold l1_distance; rw [h]

theorem l2_distance_of_out_of_range (T : Nat) (img1 img2 : Mat) (r1 c1 r2 c2 : Int) (e : Fault)
    (h : range_check T img1 img2 r1 c1 r2 c2 = .error e) :
    l2_distance T img1 img2 r1 c1 r2 c2 = .error e := by
  unfold l2_distance; rw [h]

/-- C6: `l1_distance` and `l2_distance` fail exactly when some tile origin violates
`0 <= row <= height - T` or `0 <= col <= width - T` for its own plane, and they
return a value exactly when the four constraints hold. -/
theorem distance_fails_iff_out_of_range (T : Nat) (img1 img2 : Mat) (r1 c1 r2 c2 : Int) :
    ((∃ e, l1_distance T img1 img2 r1 c1 r2 c2 = .error e) ↔
      ¬ ((0 ≤ r1 ∧ r1 ≤ (img1.height : Int) - T) ∧ (0 ≤ c1 ∧ c1 ≤ (img1.width : Int) - T) ∧
         (0 ≤ r2 ∧ r2 ≤ (img2.height : Int) - T) ∧ (0 ≤ c2 ∧ c2 ≤ (img2.width : Int) - T))) ∧
    ((∃ e, l2_distance T img1 img2 r1 c1 r2 c2 = .error e) ↔
      ¬ ((0 ≤ r1 ∧ r1 ≤ (img1.height : Int) - T) ∧ (0 ≤ c1 ∧ c1 ≤ (img1.width : Int) - T) ∧
         (0 ≤ r2 ∧ r2 ≤ (img2.height : Int) - T) ∧ (0 ≤ c2 ∧ c2 ≤ (img2.width : Int) - T))) ∧
    ((∃ v, l1_distance T img1 img2 r1 c1 r2 c2 = .ok v) ↔
      ((0 ≤ r1 ∧ r1 ≤ (img1.height : Int) - T) ∧ (0 ≤ c1 ∧ c1 ≤ (img1.width : Int) - T) ∧
       (0 ≤ r2 ∧ r2 ≤ (img2.height : Int) - T) ∧ (0 ≤ c2 ∧ c2 ≤ (img2.width : Int) - T))) ∧
    ((∃ v, l2_distance T img1 img2 r1 c1 r2 c2 = .ok v) ↔
      ((0 ≤ r1 ∧ r1 ≤ (img1.height : Int) - T) ∧ (0 ≤ c1 ∧ c1 ≤ (img1.width : Int) - T) ∧
       (0 ≤ r2 ∧ r2 ≤ (img2.height : Int) - T) ∧ (0 ≤ c2 ∧ c2 ≤ (img2.width : Int) - T))) := by
  rw [← range_check_ok_iff]
  rcases range_check_cases T img1 img2 r1 c1 r2 c2 with h | ⟨msg, h⟩
  · simp [l1_distance_of_in_range _ _ _ _ _ _ _ h, l2_distance_of_in_range _ _ _ _ _ _ _ h, h]
  · simp [l1_distance_of_out_of_range _ _ _ _ _ _ _ _ h, l2_distance_of_out_of_range _ _ _ _ _ _ _ _ h, h]

theorem l1_sum_exact (T : Nat) (hT : T ≤ 65536) (img1 img2 : Mat) (r1 c1 r2 c2 : Int) :
    l1_sum T img1 img2 r1 c1 r2 c2 =
      ∑ i ∈ Finset.range T, ∑ j ∈ Finset.range T,
        Int.natAbs (((img1.px (r1 + i) (c1 + j)).val : Int) - ((img2.px (r2 + i) (c2 + j)).val : Int)) := by
  unfold l1_sum
  have hTT : T * T ≤ 65536 * 65536 := Nat.mul_le_mul hT hT
  have hinner : ∀ (i s : Nat), i < T → s + T * 65535 ≤ 2 ^ 64 - 1 →
      (List.range T).foldl (fun (sum : Nat) (col_i : Nat) =>
        ull_add sum ((abs_diff_u16 (img1.px (r1 + i) (c1 + col_i)) (img2.px (r2 + i) (c2 + col_i)) : Nat) : Int)) s
      = s + ∑ j ∈ Finset.range T,
          Int.natAbs (((img1.px (r1 + i) (c1 + j)).val : Int) - ((img2.px (r2 + i) (c2 + j)).val : Int)) := by
    intro i s _ hs
    apply foldl_range_sum _ _ 65535 (2 ^ 64 - 1)
    · intro j _; rw [← abs_diff_u16_eq]; exact abs_diff_u16_le _ _
    · intro j s' _ hs'
      have hle := abs_diff_u16_le (img1.px (r1 + i) (c1 + j)) (img2.px (r2 + i) (c2 + j))
      rw [ull_add_exact _ _ (by omega), abs_diff_u16_eq]
    · exact hs
  have := foldl_range_sum
    (fun sum row_i => (List.range T).foldl (fun (sum : Nat) (col_i : Nat) =>
        ull_add sum ((abs_diff_u16 (img1.px (r1 + row_i) (c1 + col_i)) (img2.px (r2 + row_i) (c2 + col_i)) : Nat) : Int)) sum)
    (fun i => ∑ j ∈ Finset.range T,
          Int.natAbs (((img1.px (r1 + i) (c1 + j)).val : Int) - ((img2.px (r2 + i) (c2 + j)).val : Int)))
    (T * 65535) (2 ^ 64 - 1) T 0
    (by
      intro i _
      calc _ ≤ ∑ _j ∈ Finset.range T, 65535 := Finset.sum_le_sum (fun j _ => by
              rw [← abs_diff_u16_eq]; exact abs_diff_u16_le _ _)
        _ = T * 65535 := by simp)
    (fun i s hi hs => hinner i s hi hs)
    (by
      have : T * (T * 65535) = T * T * 65535 := by ring
      omega)
  simpa using this

theorem l1_sum_le (T : Nat) (hT : T ≤ 65536) (img1 img2 : Mat) (r1 c1 r2 c2 : Int) :
    l1_sum T img1 img2 r1 c1 r2 c2 ≤ T * T * 65535 := by
  rw [l1_sum_exact T hT]
  calc _ ≤ ∑ _i ∈ Finset.range T, ∑ _j ∈ Finset.range T, 65535 :=
        Finset.sum_le_sum (fun i _ => Finset.sum_le_sum (fun j _ => by
          rw [← abs_diff_u16_eq]; exact abs_diff_u16_le _ _))
    _ = T * T * 65535 := by simp [Nat.mul_assoc]

theorem l1_distance_le (T : Nat) (hT : T ≤ 65536) (img1 img2 : Mat) (r1 c1 r2 c2 : Int) (v : Nat)
    (h : l1_distance T img1 img2 r1 c1 r2 c2 = .ok v) : v ≤ T * T * 65535 := by
  rcases range_check_cases T img1 img2 r1 c1 r2 c2 with hr | ⟨msg, hr⟩
  · rw [l1_distance_of_in_range _ _ _ _ _ _ _ hr] at h
    cases h
    exact l1_sum_le T hT _ _ _ _ _ _
  · rw [l1_distance_of_out_of_range _ _ _ _ _ _ _ _ hr] at h
    cases h

/-- C5: for in-range tile origins, `l1_distance` returns exactly the sum over the
`T x T` tile of `|a - b|` of the corresponding samples; neither the 16-bit
intermediate nor the 64-bit accumulator truncates it. -/
theorem l1_distance_exact (T : Nat) (hT : T ≤ 65536) (img1 img2 : Mat) (r1 c1 r2 c2 : Int)
    (h1r : 0 ≤ r1 ∧ r1 ≤ (img1.height : Int) - T) (h1c : 0 ≤ c1 ∧ c1 ≤ (img1.width : Int) - T)
    (h2r : 0 ≤ r2 ∧ r2 ≤ (img2.height : Int) - T) (h2c : 0 ≤ c2 ∧ c2 ≤ (img2.width : Int) - T) :
    l1_distance T img1 img2 r1 c1 r2 c2 =
      .ok (∑ i ∈ Finset.range T, ∑ j ∈ Finset.range T,
        Int.natAbs (((img1.px (r1 + i) (c1 + j)).val : Int) - ((img2.px (r2 + i) (c2 + j)).val : Int))) := by
  rw [l1_distance_of_in_range T img1 img2 r1 c1 r2 c2
    ((range_check_ok_iff T img1 img2 r1 c1 r2 c2).2 ⟨h1r, h1c, h2r, h2c⟩),
    l1_sum_exact T hT]

theorem l1_distance_exact_witness :
    l1_distance 8 (const_plane 8 8 65535) (const_plane 8 8 0) 0 0 0 0 =
      .ok (∑ i ∈ Finset.range 8, ∑ j ∈ Finset.range 8,
        Int.natAbs ((((const_plane 8 8 65535).px (0 + i) (0 + j)).val : Int) -
          (((const_plane 8 8 0).px (0 + i) (0 + j)).val : Int))) :=
  l1_distance_exact 8 (by decide) (const_plane 8 8 65535) (const_plane 8 8 0) 0 0 0 0
    (by decide) (by decide) (by decide) (by decide)

theorem l2_sum_exact_of_small (T : Nat) (hT : T ≤ 65536) (img1 img2 : Mat) (r1 c1 r2 c2 : Int)
    (hsmall : ∀ i j : Nat, i < T → j < T →
      Int.natAbs (((img1.px (r1 + i) (c1 + j)).val : Int) - ((img2.px (r2 + i) (c2 + j)).val : Int)) ≤ 46340) :
    l2_sum T img1 img2 r1 c1 r2 c2 =
      ∑ i ∈ Finset.range T, ∑ j ∈ Finset.range T,
        Int.natAbs (((img1.px (r1 + i) (c1 + j)).val : Int) - ((img2.px (r2 + i) (c2 + j)).val : Int)) ^ 2 := by
  unfold l2_sum
  have hTT : T * T ≤ 65536 * 65536 := Nat.mul_le_mul hT hT
  have hsq : ∀ i j : Nat, i < T → j < T →
      Int.natAbs (((img1.px (r1 + i) (c1 + j)).val : Int) - ((img2.px (r2 + i) (c2 + j)).val : Int)) ^ 2
        ≤ 46340 * 46340 := by
    intro i j hi hj
    rw [pow_two]
    exact Nat.mul_le_mul (hsmall i j hi hj) (hsmall i j hi hj)
  have hinner : ∀ (i s : Nat), i < T → s + T * (46340 * 46340) ≤ 2 ^ 64 - 1 →
      (List.range T).foldl (fun (sum : Nat) (col_i : Nat) =>
        ull_add sum (wrap_int32
          (((abs_diff_u16 (img1.px (r1 + i) (c1 + col_i)) (img2.px (r2 + i) (c2 + col_i)) : Nat) : Int) *
           ((abs_diff_u16 (img1.px (r1 + i) (c1 + col_i)) (img2.px (r2 + i) (c2 + col_i)) : Nat) : Int)))) s
      = s + ∑ j ∈ Finset.range T,
          Int.natAbs (((img1.px (r1 + i) (c1 + j)).val : Int) - ((img2.px (r2 + i) (c2 + j)).val : Int)) ^ 2 := by
    intro i s hi hs
    apply foldl_range_sum _ _ (46340 * 46340) (2 ^ 64 - 1)
    · intro j hj; exact hsq i j hi hj
    · intro j s' hj hs'
      have hle := hsq i j hi hj
      rw [abs_diff_u16_eq]
      have hcast : ((Int.natAbs (((img1.px (r1 + i) (c1 + j)).val : Int) - ((img2.px (r2 + i) (c2 + j)).val : Int)) : Nat) : Int) *
          ((Int.natAbs (((img1.px (r1 + i) (c1 + j)).val : Int) - ((img2.px (r2 + i) (c2 + j)).val : Int)) : Nat) : Int)
          = ((Int.natAbs (((img1.px (r1 + i) (c1 + j)).val : Int) - ((img2.px (r2 + i) (c2 + j)).val : Int)) ^ 2 : Nat) : Int) := by
        push_cast; ring
      rw [hcast, wrap_int32_small _ (by positivity) (by omega), ull_add_exact _ _ (by omega)]
    · exact hs
  have := foldl_range_sum
    (fun (sum : Nat) (row_i : Nat) => (List.range T).foldl (fun (sum : Nat) (col_i : Nat) =>
        ull_add sum (wrap_int32
          (((abs_diff_u16 (img1.px (r1 + row_i) (c1 + col_i)) (img2.px (r2 + row_i) (c2 + col_i)) : Nat) : Int) *
           ((abs_diff_u16 (img1.px (r1 + row_i) (c1 + col_i)) (img2.px (r2 + row_i) (c2 + col_i)) : Nat) : Int)))) sum)
    (fun i => ∑ j ∈ Finset.range T,
          Int.natAbs (((img1.px (r1 + i) (c1 + j)).val : Int) - ((img2.px (r2 + i) (c2 + j)).val : Int)) ^ 2)
    (T * (46340 * 46340)) (2 ^ 64 - 1) T 0
    (by
      intro i hi
      calc _ ≤ ∑ _j ∈ Finset.range T, 46340 * 46340 :=
              Finset.sum_le_sum (fun j hj => hsq i j hi (by simpa using hj))
        _ = T * (46340 * 46340) := by simp)
    (fun i s hi hs => hinner i s hi hs)
    (by
      have : T * (T * (46340 * 46340)) = T * T * (46340 * 46340) := by ring
      omega)
  simpa using this

/-- For in-range tile origins, `l2_distance` returns exactly the sum over the
`T x T` tile of `(a - b)^2` as long as no pair of corresponding samples differs
by more than 46340, the largest difference whose square fits a 32-bit `int`. -/
theorem l2_distance_exact_of_small (T : Nat) (hT : T ≤ 65536) (img1 img2 : Mat)
    (r1 c1 r2 c2 : Int)
    (h1r : 0 ≤ r1 ∧ r1 ≤ (img1.height : Int) - T) (h1c : 0 ≤ c1 ∧ c1 ≤ (img1.width : Int) - T)
    (h2r : 0 ≤ r2 ∧ r2 ≤ (img2.height : Int) - T) (h2c : 0 ≤ c2 ∧ c2 ≤ (img2.width : Int) - T)
    (hsmall : ∀ i j : Nat, i < T → j < T →
      Int.natAbs (((img1.px (r1 + i) (c1 + j)).val : Int) - ((img2.px (r2 + i) (c2 + j)).val : Int))
        ≤ 46340) :
    l2_distance T img1 img2 r1 c1 r2 c2 =
      .ok (∑ i ∈ Finset.range T, ∑ j ∈ Finset.range T,
        Int.natAbs (((img1.px (r1 + i) (c1 + j)).val : Int) -
          ((img2.px (r2 + i) (c2 + j)).val : Int)) ^ 2) := by
  rw [l2_distance_of_in_range T img1 img2 r1 c1 r2 c2
    ((range_check_ok_iff T img1 img2 r1 c1 r2 c2).2 ⟨h1r, h1c, h2r, h2c⟩),
    l2_sum_exact_of_small T hT _ _ _ _ _ _ hsmall]

theorem l2_distance_exact_of_small_witness :
    l2_distance 16 (const_plane 16 16 46340) (const_plane 16 16 0) 0 0 0 0 =
      .ok (∑ i ∈ Finset.range 16, ∑ j ∈ Finset.range 16,
        Int.natAbs ((((const_plane 16 16 46340).px (0 + i) (0 + j)).val : Int) -
          (((const_plane 16 16 0).px (0 + i) (0 + j)).val : Int)) ^ 2) :=
  l2_distance_exact_of_small 16 (by decide) (const_plane 16 16 46340) (const_plane 16 16 0)
    0 0 0 0 (by decide) (by decide) (by decide) (by decide)
    (fun _ _ _ _ => by simp only [const_plane]; decide)

/-- C4 (failing input): on a 16 x 16 tile whose samples differ by 65535 everywhere
(an all-0xFFFF plane against an all-zero plane) `l2_distance` returns
`2^64 - 256 * 131071`, not `256 * 65535^2`: each product `l1 * l1` is formed in a
32-bit `int`, wraps to `-131071` and is added to the 64-bit accumulator as such.
The value returned exceeds the bound `256 * 65535^2`, and `2^40`. -/
theorem l2_distance_wraps_on_saturated_tile :
    l2_distance 16 (const_plane 16 16 65535) (const_plane 16 16 0) 0 0 0 0
      = .ok (2 ^ 64 - 256 * 131071) ∧
    (∑ _i ∈ Finset.range 16, ∑ _j ∈ Finset.range 16, (65535 - 0) ^ 2) = 256 * 65535 ^ 2 ∧
    256 * 65535 ^ 2 < 2 ^ 64 - 256 * 131071 ∧ 2 ^ 40 < 2 ^ 64 - 256 * 131071 := by
  refine ⟨by decide!, by decide!, by decide, by decide⟩

/-! ## Counted loops -/

theorem foldlM_range_succ {σ : Type} (f : σ → Nat → Except Fault σ) (n : Nat) (s0 : σ) :
    (List.range (n + 1)).foldlM f s0 =
      match (List.range n).foldlM f s0 with
      | .error e => .error e
      | .ok s => f s n := by
  rw [List.range_succ, List.foldlM_append]
  cases h : List.foldlM f s0 (List.range n) with
  | error e => rfl
  | ok s =>
    show (List.foldlM f s [n]) = f s n
    rw [List.foldlM_cons]
    cases f s n <;> rfl

/-- Partial correctness of a counted loop: an invariant kept by every step that
returns holds of the state the loop returns. -/
theorem foldlM_range_inv {σ : Type} (f : σ → Nat → Except Fault σ) (P : Nat → σ → Prop) :
    ∀ (n : Nat) (s0 s : σ), P 0 s0 →
      (∀ k a b, k < n → P k a → f a k = .ok b → P (k + 1) b) →
      (List.range n).foldlM f s0 = .ok s → P n s := by
  intro n
  induction n with
  | zero =>
    intro s0 s h0 _ h
    simp only [List.range_zero, List.foldlM_nil] at h
    cases h
    exact h0
  | succ n ih =>
    intro s0 s h0 hstep h
    rw [foldlM_range_succ] at h
    cases hm : List.foldlM f s0 (List.range n) with
    | error e => rw [hm] at h; cases h
    | ok m =>
      rw [hm] at h
      exact hstep n m s (by omega) (ih s0 m h0 (fun k a b hk => hstep k a b (by omega)) hm) h

/-- Total correctness of a counted loop: when every step taken from a state that
satisfies the invariant returns and keeps it, the loop returns. -/
theorem foldlM_range_ok {σ : Type} (f : σ → Nat → Except Fault σ) (P : Nat → σ → Prop) :
    ∀ (n : Nat) (s0 : σ), P 0 s0 →
      (∀ k a, k < n → P k a → ∃ b, f a k = .ok b ∧ P (k + 1) b) →
      ∃ s, (List.range n).foldlM f s0 = .ok s ∧ P n s := by
  intro n
  induction n with
  | zero =>
    intro s0 h0 _
    exact ⟨s0, rfl, h0⟩
  | succ n ih =>
    intro s0 h0 hstep
    obtain ⟨m, hm, hPm⟩ := ih s0 h0 (fun k a hk => hstep k a (by omega))
    obtain ⟨b, hb, hPb⟩ := hstep n m (by omega) hPm
    exact ⟨b, by rw [foldlM_range_succ, hm]; exact hb, hPb⟩

/-! ## Grids -/

theorem SameShape.refl (g : Alignment) : SameShape g g := ⟨rfl, fun _ => rfl⟩

theorem SameShape.trans {a b c : Alignment} (h1 : SameShape a b) (h2 : SameShape b c) :
    SameShape a c := ⟨h2.len.trans h1.len, fun r => (h2.width r).trans (h1.width r)⟩

theorem write_cell_ok {oob : Fault} {g g' : Alignment} {r c : Nat} {v : Int × Int}
    (h : write_cell oob g r c v = .ok g') :
    SameShape g g' ∧ cell g r c ≠ none ∧
      ∀ r' c', cell g' r' c' = if r' = r ∧ c' = c then some v else cell g r' c' := by
  unfold write_cell at h
  cases hr : g[r]? with
  | none => rw [hr] at h; cases h
  | some row =>
    rw [hr] at h
    simp only at h
    split at h
    · rename_i hc
      cases h
      have hrlt : r < g.length := by
        rcases List.getElem?_eq_some_iff.1 hr with ⟨hlt, _⟩
        exact hlt
      refine ⟨⟨by simp, ?_⟩, ?_, ?_⟩
      · intro r'
        rw [List.getElem?_set]
        by_cases hrr : r = r'
        · subst hrr; simp [hrlt, hr]
        · simp [hrr]
      · unfold cell; rw [hr]; simp; omega
      · intro r' c'
        unfold cell
        rw [List.getElem?_set]
        by_cases hrr : r = r'
        · subst hrr
          simp only [hrlt, if_true, hr, true_and]
          rw [List.getElem?_set]
          by_cases hcc : c = c'
          · subst hcc; simp [hc]
          · have : ¬ c' = c := fun h => hcc h.symm
            simp [hcc, this]
        · have : ¬ r' = r := fun h => hrr h.symm
          simp [hrr, this]
    · cases h

theorem write_cell_total (oob : Fault) (g : Alignment) (r c : Nat) (v : Int × Int)
    (h : cell g r c ≠ none) : ∃ g', write_cell oob g r c v = .ok g' := by
  unfold cell at h
  unfold write_cell
  cases hr : g[r]? with
  | none => rw [hr] at h; exact absurd rfl h
  | some row =>
    rw [hr] at h
    simp only at h ⊢
    have hc : c < row.length := by
      by_contra hcon
      exact h (List.getElem?_eq_none (by omega))
    rw [if_pos hc]
    exact ⟨_, rfl⟩

theorem read_cell_eq (oob : Fault) (g : Alignment) (r c : Nat) :
    read_cell oob g r c = match cell g r c with
      | none => .error oob
      | some v => .ok v := by
  unfold read_cell cell
  cases g[r]? with
  | none => rfl
  | some row => cases row[c]? <;> rfl

theorem SameShape.cell_ne_none {g g' : Alignment} (h : SameShape g g') (r c : Nat) :
    cell g' r c ≠ none ↔ cell g r c ≠ none := by
  have h2 := h.width r
  unfold cell
  cases h1 : g'[r]? with
  | none =>
    rw [h1] at h2
    cases h3 : g[r]? with
    | none => simp
    | some row => rw [h3] at h2; simp at h2
  | some row' =>
    rw [h1] at h2
    cases h3 : g[r]? with
    | none => rw [h3] at h2; simp at h2
    | some row =>
      rw [h3] at h2
      simp only [Option.map_some', Option.some.injEq] at h2
      simp only [ne_eq]
      rw [List.getElem?_eq_none_iff, List.getElem?_eq_none_iff, h2]

theorem cell_lt_length {g : Alignment} {r c : Nat} (h : cell g r c ≠ none) : r < g.length := by
  unfold cell at h
  by_contra hcon
  rw [List.getElem?_eq_none (by omega)] at h
  exact h rfl

theorem resize_zero_nil (rows cols : Int) (g : Alignment) (h : resize_zero [] rows cols = .ok g) :
    0 ≤ rows ∧ 0 ≤ cols ∧ g = List.replicate rows.toNat (List.replicate cols.toNat (0, 0)) := by
  unfold resize_zero vector_fill vector_resize at h
  by_cases hc : cols < 0
  · simp [hc] at h
  · by_cases hr : rows < 0
    · simp [hc, hr] at h
    · simp [hc, hr] at h
      exact ⟨by omega, by omega, h.symm⟩

theorem resize_zero_nil_ok (rows cols : Int) (hr : 0 ≤ rows) (hc : 0 ≤ cols) :
    resize_zero [] rows cols = .ok (List.replicate rows.toNat (List.replicate cols.toNat (0, 0))) := by
  unfold resize_zero vector_fill vector_resize
  have h1 : ¬ cols < 0 := by omega
  have h2 : ¬ rows < 0 := by omega
  simp [h1, h2]

theorem cell_replicate (rows cols : Nat) (v : Int × Int) (r c : Nat) :
    cell (List.replicate rows (List.replicate cols v)) r c =
      if r < rows ∧ c < cols then some v else none := by
  unfold cell
  rw [List.getElem?_replicate]
  by_cases hr : r < rows
  · simp only [hr, if_true, true_and]
    rw [List.getElem?_replicate]
  · simp [hr]

theorem SameShape.replicate {rows cols : Nat} {v : Int × Int} {g : Alignment}
    (h : SameShape (List.replicate rows (List.replicate cols v)) g) :
    g.length = rows ∧ ∀ row ∈ g, row.length = cols := by
  refine ⟨by simpa using h.len, ?_⟩
  intro row hrow
  obtain ⟨r, hr, hget⟩ := List.getElem_of_mem hrow
  have h2 := h.width r
  have hr' : r < rows := by have := h.len; simp at this; omega
  rw [List.getElem?_eq_getElem hr, List.getElem?_replicate, if_pos hr'] at h2
  simp at h2
  rw [← hget]; exact h2

theorem GridInv.congr {g0 g : Alignment} {val : Nat → Nat → Option (Int × Int)}
    {S S' : Nat → Nat → Prop} (h : GridInv g0 g val S) (hS : ∀ r c, S' r c ↔ S r c) :
    GridInv g0 g val S' :=
  ⟨h.shape, fun r c hs => h.written r c ((hS r c).1 hs),
    fun r c hs => h.untouched r c (fun hs' => hs ((hS r c).2 hs'))⟩

theorem GridInv.write {g0 g g' : Alignment} {val : Nat → Nat → Option (Int × Int)}
    {S : Nat → Nat → Prop} {oob : Fault} {r c : Nat} {v : Int × Int}
    (h : GridInv g0 g val S) (hw : write_cell oob g r c v = .ok g') (hv : val r c = some v) :
    GridInv g0 g' val (fun r' c' => S r' c' ∨ (r' = r ∧ c' = c)) := by
  obtain ⟨hshape, _, hcell⟩ := write_cell_ok hw
  refine ⟨h.shape.trans hshape, ?_, ?_⟩
  · intro r' c' hs
    rw [hcell]
    by_cases hrc : r' = r ∧ c' = c
    · rw [if_pos hrc, hrc.1, hrc.2, hv]; simp
    · rw [if_neg hrc]
      rcases hs with hs | hs
      · exact h.written r' c' hs
      · exact absurd hs hrc
  · intro r' c' hs
    rw [hcell]
    have hrc : ¬ (r' = r ∧ c' = c) := fun hrc => hs (Or.inr hrc)
    rw [if_neg hrc]
    exact h.untouched r' c' (fun hs' => hs (Or.inl hs'))

/-! ## Alignment upsampler: what a returned grid holds -/

theorem block_div (rep i a : Nat) (ha : a < rep) : (i * rep + a) / rep = i :=
  Nat.div_eq_of_lt_le (by omega) (by rw [Nat.add_mul]; omega)

theorem block_lt (rep i n a : Nat) (hi : i < n) (ha : a < rep) : i * rep + a < n * rep := by
  have h1 : (i + 1) * rep ≤ n * rep := Nat.mul_le_mul_right rep hi
  rw [Nat.add_mul] at h1
  omega

theorem upsample_repeat_cols_inv {g0 g g' : Alignment} {val : Nat → Nat → Option (Int × Int)}
    {S : Nat → Nat → Prop} {rep i j a : Nat} {v : Int × Int}
    (h : GridInv g0 g val S) (hrun : upsample_repeat_cols rep i j a v g = .ok g')
    (hv : ∀ b, b < rep → val (i * rep + a) (j * rep + b) = some v) :
    GridInv g0 g' val (fun r c => S r c ∨ (r = i * rep + a ∧ j * rep ≤ c ∧ c < j * rep + rep)) := by
  unfold upsample_repeat_cols at hrun
  refine foldlM_range_inv _
    (fun b g => GridInv g0 g val (fun r c => S r c ∨ (r = i * rep + a ∧ j * rep ≤ c ∧ c < j * rep + b)))
    rep g g' ?_ ?_ hrun
  · exact h.congr (fun r c => by constructor <;> intro hh <;> [rcases hh with hh | hh; left] <;> first | exact hh | omega)
  · intro b x y hb hx hstep
    exact (hx.write hstep (hv b hb)).congr (fun r c => by
      constructor
      · rintro (hh | hh)
        · exact Or.inl (Or.inl hh)
        · by_cases hc : c = j * rep + b
          · exact Or.inr ⟨hh.1, hc⟩
          · exact Or.inl (Or.inr ⟨hh.1, hh.2.1, by omega⟩)
      · rintro ((hh | hh) | hh)
        · exact Or.inl hh
        · exact Or.inr ⟨hh.1, hh.2.1, by omega⟩
        · exact Or.inr ⟨hh.1, by omega, by omega⟩)

theorem upsample_repeat_rows_inv {g0 g g' : Alignment} {val : Nat → Nat → Option (Int × Int)}
    {S : Nat → Nat → Prop} {rep i j : Nat} {v : Int × Int}
    (h : GridInv g0 g val S) (hrun : upsample_repeat_rows rep i j v g = .ok g')
    (hv : ∀ a b, a < rep → b < rep → val (i * rep + a) (j * rep + b) = some v) :
    GridInv g0 g' val (fun r c => S r c ∨
      (i * rep ≤ r ∧ r < i * rep + rep ∧ j * rep ≤ c ∧ c < j * rep + rep)) := by
  unfold upsample_repeat_rows at hrun
  refine foldlM_range_inv _
    (fun a g => GridInv g0 g val (fun r c => S r c ∨
      (i * rep ≤ r ∧ r < i * rep + a ∧ j * rep ≤ c ∧ c < j * rep + rep)))
    rep g g' ?_ ?_ hrun
  · exact h.congr (fun r c => by
      constructor
      · rintro (hh | hh)
        · exact hh
        · omega
      · intro hh; exact Or.inl hh)
  · intro a x y ha hx hstep
    exact (upsample_repeat_cols_inv hx hstep (fun b hb => hv a b ha hb)).congr (fun r c => by
      constructor
      · rintro (hh | hh)
        · exact Or.inl (Or.inl hh)
        · by_cases hr : r = i * rep + a
          · exact Or.inr ⟨hr, hh.2.2.1, hh.2.2.2⟩
          · exact Or.inl (Or.inr ⟨hh.1, by omega, hh.2.2.1, hh.2.2.2⟩)
      · rintro ((hh | hh) | hh)
        · exact Or.inl hh
        · exact Or.inr ⟨hh.1, by omega, hh.2.2.1, hh.2.2.2⟩
        · exact Or.inr ⟨by omega, by omega, hh.2.1, hh.2.2⟩)

theorem upsample_cell_inv {g0 g g' src : Alignment} {p : Int} {S : Nat → Nat → Prop}
    {rep i j : Nat} (h : GridInv g0 g (upsampled_value p rep src) S)
    (hrun : upsample_cell p rep src i j g = .ok g') :
    GridInv g0 g' (upsampled_value p rep src) (fun r c => S r c ∨
      (i * rep ≤ r ∧ r < i * rep + rep ∧ j * rep ≤ c ∧ c < j * rep + rep)) := by
  unfold upsample_cell at hrun
  rw [read_cell_eq] at hrun
  cases hsrc : cell src i j with
  | none => rw [hsrc] at hrun; cases hrun
  | some v0 =>
    rw [hsrc] at hrun
    refine upsample_repeat_rows_inv h hrun ?_
    intro a b ha hb
    unfold upsampled_value
    rw [block_div rep i a ha, block_div rep j b hb, hsrc]
    rfl

theorem upsample_row_inv {g0 g g' src : Alignment} {p : Int} {S : Nat → Nat → Prop}
    {rep w i : Nat} (h : GridInv g0 g (upsampled_value p rep src) S)
    (hrun : upsample_row p rep src w i g = .ok g') :
    GridInv g0 g' (upsampled_value p rep src) (fun r c => S r c ∨
      (i * rep ≤ r ∧ r < i * rep + rep ∧ c < w * rep)) := by
  unfold upsample_row at hrun
  refine foldlM_range_inv _
    (fun j g => GridInv g0 g (upsampled_value p rep src) (fun r c => S r c ∨
      (i * rep ≤ r ∧ r < i * rep + rep ∧ c < j * rep)))
    w g g' ?_ ?_ hrun
  · exact h.congr (fun r c => by
      constructor
      · rintro (hh | hh)
        · exact hh
        · omega
      · intro hh; exact Or.inl hh)
  · intro j x y hj hx hstep
    have hmul : (j + 1) * rep = j * rep + rep := by rw [Nat.add_mul]; omega
    exact (upsample_cell_inv hx hstep).congr (fun r c => by
      rw [hmul]
      constructor
      · rintro (hh | hh)
        · exact Or.inl (Or.inl hh)
        · by_cases hc : c < j * rep
          · exact Or.inl (Or.inr ⟨hh.1, hh.2.1, hc⟩)
          · exact Or.inr ⟨hh.1, hh.2.1, by omega, hh.2.2⟩
      · rintro ((hh | hh) | hh)
        · exact Or.inl hh
        · exact Or.inr ⟨hh.1, hh.2.1, by omega⟩
        · exact Or.inr ⟨hh.1, hh.2.1, by omega⟩)

theorem upsample_rows_inv {g0 g' src : Alignment} {p : Int} {rep w n : Nat}
    (hrun : (List.range n).foldlM (fun dst row_i => upsample_row p rep src w row_i dst) g0 = .ok g') :
    GridInv g0 g' (upsampled_value p rep src) (fun r c => r < n * rep ∧ c < w * rep) := by
  refine foldlM_range_inv _
    (fun i g => GridInv g0 g (upsampled_value p rep src) (fun r c => r < i * rep ∧ c < w * rep))
    n g0 g' ?_ ?_ hrun
  · exact ⟨SameShape.refl g0, fun r c hh => by omega, fun _ _ _ => rfl⟩
  · intro i x y hi hx hstep
    have hmul : (i + 1) * rep = i * rep + rep := by rw [Nat.add_mul]; omega
    exact (upsample_row_inv hx hstep).congr (fun r c => by
      rw [hmul]
      constructor
      · rintro ⟨h1, h2⟩
        by_cases hr : r < i * rep
        · exact Or.inl ⟨hr, h2⟩
        · exact Or.inr ⟨by omega, h1, h2⟩
      · rintro (hh | hh)
        · exact ⟨by omega, hh.2⟩
        · exact ⟨hh.2.1, hh.2.2⟩)

/-- What a successful run of the upsampler on a fresh output vector establishes. -/
theorem build_upsampled_prev_aligement_ok {p t : Int} {row0 : List (Int × Int)}
    {rest out : Alignment} {H W : Int}
    (h : build_upsampled_prev_aligement p t (row0 :: rest) [] H W = .ok out) :
    0 ≤ H ∧ 0 ≤ W ∧
    ((rest.length + 1 : Nat) : Int) * cdiv p t ≤ H ∧ (row0.length : Int) * cdiv p t ≤ W ∧
    GridInv (List.replicate H.toNat (List.replicate W.toNat (0, 0))) out
      (upsampled_value p (cdiv p t).toNat (row0 :: rest))
      (fun r c => r < (rest.length + 1) * (cdiv p t).toNat ∧ c < row0.length * (cdiv p t).toNat) := by
  unfold build_upsampled_prev_aligement at h
  simp only [List.getElem?_cons_zero, List.length_cons] at h
  split at h
  · cases h
  · rename_i hov
    cases hz : resize_zero [] H W with
    | error e => rw [hz] at h; cases h
    | ok g0 =>
      rw [hz] at h
      obtain ⟨hH, hW, hg0⟩ := resize_zero_nil H W g0 hz
      subst hg0
      refine ⟨hH, hW, by push_cast at hov ⊢; omega, by omega, upsample_rows_inv h⟩

/-- C7 (counterexample): the instance `<4, 1>` accepts the one-cell grid holding
(1073741824, -536870913) for a 4 x 4 target.  The products 4294967296 and
-2147483652 do not fit the 32-bit `int` in which the code forms them, and the
output cells hold (0, 2147483644), not (dy * 4, dx * 4). -/
theorem upsample_scaling_wraps_at_32_bits :
    build_upsampled_prev_aligement 4 1 [[(1073741824, -536870913)]] [] 4 4 =
      .ok (List.replicate 4 (List.replicate 4 (0, 2147483644))) ∧
    cell [[((1073741824 : Int), (-536870913 : Int))]] 0 0 = some (1073741824, -536870913) ∧
    cell (List.replicate 4 (List.replicate 4 ((0 : Int), (2147483644 : Int))))
        (0 * (cdiv 4 1).toNat + 0) (0 * (cdiv 4 1).toNat + 0) ≠
      some (1073741824 * 4, -536870913 * 4) := by
  decide

/-- C7 (amended): on every accepted input, with `repeat = pyramid_ratio / tile_ratio`,
every coarse cell (i, j) holding (dy, dx) is copied to the output cells
(i*repeat + a, j*repeat + b) for 0 <= a, b < repeat with each component multiplied
by the pyramid ratio in a 32-bit `int`; the cells hold `(dy * p, dx * p)` whenever
both products lie between `-2^31` and `2^31 - 1`. -/
theorem upsample_replicates_scaled (p t : Int) (row0 : List (Int × Int)) (rest out : Alignment)
    (H W : Int) (h : build_upsampled_prev_aligement p t (row0 :: rest) [] H W = .ok out)
    (i j a b : Nat) (dy dx : Int) (hcell : cell (row0 :: rest) i j = some (dy, dx))
    (hj : j < row0.length) (ha : (a : Int) < cdiv p t) (hb : (b : Int) < cdiv p t) :
    cell out (i * (cdiv p t).toNat + a) (j * (cdiv p t).toNat + b) =
      some (wrap_int32 (dy * p), wrap_int32 (dx * p)) ∧
    (-2 ^ 31 ≤ dy * p ∧ dy * p < 2 ^ 31 ∧ -2 ^ 31 ≤ dx * p ∧ dx * p < 2 ^ 31 →
      cell out (i * (cdiv p t).toNat + a) (j * (cdiv p t).toNat + b) = some (dy * p, dx * p)) := by
  obtain ⟨_, _, _, _, hinv⟩ := build_upsampled_prev_aligement_ok h
  have hi : i < rest.length + 1 := by
    have := cell_lt_length (g := row0 :: rest) (r := i) (c := j) (by rw [hcell]; simp)
    simpa using this
  have ha' : a < (cdiv p t).toNat := by omega
  have hb' : b < (cdiv p t).toNat := by omega
  obtain ⟨hw, _⟩ := hinv.written (i * (cdiv p t).toNat + a) (j * (cdiv p t).toNat + b)
    ⟨block_lt _ _ _ _ hi ha', block_lt _ _ _ _ hj hb'⟩
  have hval : cell out (i * (cdiv p t).toNat + a) (j * (cdiv p t).toNat + b) =
      some (wrap_int32 (dy * p), wrap_int32 (dx * p)) := by
    rw [hw]
    unfold upsampled_value
    rw [block_div _ i a ha', block_div _ j b hb', hcell]
    rfl
  refine ⟨hval, ?_⟩
  rintro ⟨h1, h2, h3, h4⟩
  rw [hval, wrap_int32_of_range _ h1 h2, wrap_int32_of_range _ h3 h4]

theorem upsample_replicates_scaled_witness :
    cell [[(4, 8), (4, 8), (12, 16), (12, 16), (0, 0)],
          [(4, 8), (4, 8), (12, 16), (12, 16), (0, 0)],
          [(0, 0), (0, 0), (0, 0), (0, 0), (0, 0)]]
        (0 * (cdiv 4 2).toNat + 1) (1 * (cdiv 4 2).toNat + 0) =
      some (wrap_int32 (3 * 4), wrap_int32 (4 * 4)) ∧
    (-2 ^ 31 ≤ (3 : Int) * 4 ∧ (3 : Int) * 4 < 2 ^ 31 ∧
        -2 ^ 31 ≤ (4 : Int) * 4 ∧ (4 : Int) * 4 < 2 ^ 31 →
      cell [[(4, 8), (4, 8), (12, 16), (12, 16), (0, 0)],
            [(4, 8), (4, 8), (12, 16), (12, 16), (0, 0)],
            [(0, 0), (0, 0), (0, 0), (0, 0), (0, 0)]]
        (0 * (cdiv 4 2).toNat + 1) (1 * (cdiv 4 2).toNat + 0) = some (3 * 4, 4 * 4)) :=
  upsample_replicates_scaled 4 2 [(1, 2), (3, 4)] [] _ 3 5 (by decide) 0 1 1 0 3 4
    (by decide) (by decide) (by decide) (by decide)

/-- C8: on every accepted input the grid returned has the target shape, and every
cell whose row index is at least `src_height * repeat` or whose column index is
at least `src_width * repeat` holds (0, 0). -/
theorem upsample_shape_and_zero_fill (p t : Int) (row0 : List (Int × Int)) (rest out : Alignment)
    (H W : Int) (h : build_upsampled_prev_aligement p t (row0 :: rest) [] H W = .ok out) :
    (out.length : Int) = H ∧ (∀ row ∈ out, (row.length : Int) = W) ∧
    ∀ r c : Nat, (r : Int) < H → (c : Int) < W →
      (((row0 :: rest).length : Int) * cdiv p t ≤ r ∨ (row0.length : Int) * cdiv p t ≤ c) →
      cell out r c = some (0, 0) := by
  obtain ⟨hH, hW, _, _, hinv⟩ := build_upsampled_prev_aligement_ok h
  obtain ⟨hlen, hrows⟩ := hinv.shape.replicate
  refine ⟨by omega, fun row hrow => by have := hrows row hrow; omega, ?_⟩
  intro r c hr hc hout
  rw [hinv.untouched r c, cell_replicate, if_pos ⟨by omega, by omega⟩]
  rintro ⟨h1, h2⟩
  simp only [List.length_cons] at hout
  by_cases hrep : 0 ≤ cdiv p t
  · have e : (((cdiv p t).toNat : Nat) : Int) = cdiv p t := Int.toNat_of_nonneg hrep
    have h1' : ((r : Nat) : Int) < ((rest.length + 1 : Nat) : Int) * cdiv p t := by
      rw [← e]; exact_mod_cast h1
    have h2' : ((c : Nat) : Int) < (row0.length : Int) * cdiv p t := by
      rw [← e]; exact_mod_cast h2
    rcases hout with hout | hout <;> omega
  · have e : (cdiv p t).toNat = 0 := by omega
    rw [e] at h1
    omega

theorem upsample_shape_and_zero_fill_witness :
    (([[(4, 8), (4, 8), (12, 16), (12, 16), (0, 0)],
       [(4, 8), (4, 8), (12, 16), (12, 16), (0, 0)],
       [(0, 0), (0, 0), (0, 0), (0, 0), (0, 0)]] : Alignment).length : Int) = 3 ∧
    (∀ row ∈ ([[(4, 8), (4, 8), (12, 16), (12, 16), (0, 0)],
       [(4, 8), (4, 8), (12, 16), (12, 16), (0, 0)],
       [(0, 0), (0, 0), (0, 0), (0, 0), (0, 0)]] : Alignment), (row.length : Int) = 5) ∧
    ∀ r c : Nat, (r : Int) < 3 → (c : Int) < 5 →
      ((([(1, 2), (3, 4)] :: ([] : Alignment)).length : Int) * cdiv 4 2 ≤ r ∨
        (([(1, 2), (3, 4)] : List (Int × Int)).length : Int) * cdiv 4 2 ≤ c) →
      cell [[(4, 8), (4, 8), (12, 16), (12, 16), (0, 0)],
            [(4, 8), (4, 8), (12, 16), (12, 16), (0, 0)],
            [(0, 0), (0, 0), (0, 0), (0, 0), (0, 0)]] r c = some (0, 0) :=
  upsample_shape_and_zero_fill 4 2 [(1, 2), (3, 4)] [] _ 3 5 (by decide)

/-! ## Alignment upsampler: when it fails -/

theorem upsample_repeat_cols_total {g0 g : Alignment} {rep i j a : Nat} (v : Int × Int)
    (h : SameShape g0 g) (hin : ∀ b, b < rep → cell g0 (i * rep + a) (j * rep + b) ≠ none) :
    ∃ g', upsample_repeat_cols rep i j a v g = .ok g' ∧ SameShape g0 g' := by
  unfold upsample_repeat_cols
  refine foldlM_range_ok _ (fun _ g => SameShape g0 g) rep g h ?_
  intro b x hb hx
  obtain ⟨y, hy⟩ := write_cell_total .out_of_bounds x (i * rep + a) (j * rep + b) v
    ((hx.cell_ne_none _ _).2 (hin b hb))
  exact ⟨y, hy, hx.trans (write_cell_ok hy).1⟩

theorem upsample_repeat_rows_total {g0 g : Alignment} {rep i j : Nat} (v : Int × Int)
    (h : SameShape g0 g)
    (hin : ∀ a b, a < rep → b < rep → cell g0 (i * rep + a) (j * rep + b) ≠ none) :
    ∃ g', upsample_repeat_rows rep i j v g = .ok g' ∧ SameShape g0 g' := by
  unfold upsample_repeat_rows
  refine foldlM_range_ok _ (fun _ g => SameShape g0 g) rep g h ?_
  intro a x ha hx
  exact upsample_repeat_cols_total v hx (fun b hb => hin a b ha hb)

theorem upsample_row_total {g0 g src : Alignment} {p : Int} {rep w n i : Nat}
    (h : SameShape g0 g) (hi : i < n)
    (hsrc : ∀ j, j < w → cell src i j ≠ none)
    (hin : ∀ r c, r < n * rep → c < w * rep → cell g0 r c ≠ none) :
    ∃ g', upsample_row p rep src w i g = .ok g' ∧ SameShape g0 g' := by
  unfold upsample_row
  refine foldlM_range_ok _ (fun _ g => SameShape g0 g) w g h ?_
  intro j x hj hx
  unfold upsample_cell
  rw [read_cell_eq]
  cases hc : cell src i j with
  | none => exact absurd hc (hsrc j hj)
  | some v0 =>
    exact upsample_repeat_rows_total _ hx
      (fun a b ha hb => hin _ _ (block_lt _ _ _ _ hi ha) (block_lt _ _ _ _ hj hb))

theorem cell_rect {row0 : List (Int × Int)} {rest : Alignment}
    (hrect : ∀ row ∈ rest, row.length = row0.length) (i j : Nat)
    (hi : i < rest.length + 1) (hj : j < row0.length) : cell (row0 :: rest) i j ≠ none := by
  unfold cell
  have hlt : i < (row0 :: rest).length := by simpa using hi
  rw [List.getElem?_eq_getElem hlt]
  simp only
  have hmem : (row0 :: rest)[i] ∈ row0 :: rest := List.getElem_mem hlt
  have hlen : ((row0 :: rest)[i]).length = row0.length := by
    rcases List.mem_cons.1 hmem with h | h
    · rw [h]
    · exact hrect _ h
  rw [List.getElem?_eq_getElem (by omega)]
  simp

/-- C9: for a non-empty (rectangular) source grid, the upsampler fails exactly when
`src_height * repeat > num_tiles_h` or `src_width * repeat > num_tiles_w`; the
failure is the `runtime_error` of line 91, and otherwise a grid is returned. -/
theorem upsample_fails_iff_overflow (p t : Int) (hrep : 0 ≤ cdiv p t)
    (row0 : List (Int × Int)) (rest : Alignment)
    (hrect : ∀ row ∈ rest, row.length = row0.length) (H W : Int) :
    ((∃ e, build_upsampled_prev_aligement p t (row0 :: rest) [] H W = .error e) ↔
      (((row0 :: rest).length : Int) * cdiv p t > H ∨ (row0.length : Int) * cdiv p t > W)) ∧
    ((((row0 :: rest).length : Int) * cdiv p t > H ∨ (row0.length : Int) * cdiv p t > W) →
      build_upsampled_prev_aligement p t (row0 :: rest) [] H W =
        .error (.runtime_error "current level number of tiles smaller than upsampled tiles")) ∧
    (¬ (((row0 :: rest).length : Int) * cdiv p t > H ∨ (row0.length : Int) * cdiv p t > W) →
      ∃ out, build_upsampled_prev_aligement p t (row0 :: rest) [] H W = .ok out) := by
  have herr : (((row0 :: rest).length : Int) * cdiv p t > H ∨ (row0.length : Int) * cdiv p t > W) →
      build_upsampled_prev_aligement p t (row0 :: rest) [] H W =
        .error (.runtime_error "current level number of tiles smaller than upsampled tiles") := by
    intro hov
    unfold build_upsampled_prev_aligement
    simp only [List.getElem?_cons_zero]
    rw [if_pos hov]
  have hok : ¬ (((row0 :: rest).length : Int) * cdiv p t > H ∨ (row0.length : Int) * cdiv p t > W) →
      ∃ out, build_upsampled_prev_aligement p t (row0 :: rest) [] H W = .ok out := by
    intro hov
    have e : (((cdiv p t).toNat : Nat) : Int) = cdiv p t := Int.toNat_of_nonneg hrep
    have hnn1 : (0 : Int) ≤ ((row0 :: rest).length : Int) * cdiv p t :=
      Int.mul_nonneg (by omega) hrep
    have hnn2 : (0 : Int) ≤ (row0.length : Int) * cdiv p t := Int.mul_nonneg (by omega) hrep
    have hH : 0 ≤ H := by omega
    have hW : 0 ≤ W := by omega
    unfold build_upsampled_prev_aligement
    simp only [List.getElem?_cons_zero]
    rw [if_neg hov, resize_zero_nil_ok H W hH hW]
    simp only
    have hrows : (rest.length + 1) * (cdiv p t).toNat ≤ H.toNat := by
      have : (((rest.length + 1) * (cdiv p t).toNat : Nat) : Int) ≤ H := by
        push_cast; rw [e]; simp only [List.length_cons] at hov; push_cast at hov; omega
      omega
    have hcols : row0.length * (cdiv p t).toNat ≤ W.toNat := by
      have : ((row0.length * (cdiv p t).toNat : Nat) : Int) ≤ W := by
        push_cast; rw [e]; omega
      omega
    obtain ⟨out, hout, _⟩ := foldlM_range_ok
      (fun dst row_i => upsample_row p (cdiv p t).toNat (row0 :: rest) row0.length row_i dst)
      (fun _ g => SameShape (List.replicate H.toNat (List.replicate W.toNat ((0, 0) : Int × Int))) g)
      (row0 :: rest).length _ (SameShape.refl _)
      (fun i x hi hx => upsample_row_total (n := rest.length + 1) hx (by simpa using hi)
        (fun j hj => cell_rect hrect i j (by simpa using hi) hj)
        (fun r c hr hc => by
          rw [cell_replicate, if_pos ⟨by omega, by omega⟩]; simp))
    exact ⟨out, hout⟩
  refine ⟨⟨?_, fun hov => ⟨_, herr hov⟩⟩, herr, hok⟩
  rintro ⟨e, he⟩
  by_contra hov
  obtain ⟨out, hout⟩ := hok hov
  rw [hout] at he
  cases he

theorem upsample_fails_iff_overflow_witness :
    ((∃ e, build_upsampled_prev_aligement 4 2 ([(1, 2), (3, 4)] :: []) [] 3 3 = .error e) ↔
      ((([(1, 2), (3, 4)] :: ([] : Alignment)).length : Int) * cdiv 4 2 > 3 ∨
        (([(1, 2), (3, 4)] : List (Int × Int)).length : Int) * cdiv 4 2 > 3)) ∧
    (((([(1, 2), (3, 4)] :: ([] : Alignment)).length : Int) * cdiv 4 2 > 3 ∨
        (([(1, 2), (3, 4)] : List (Int × Int)).length : Int) * cdiv 4 2 > 3) →
      build_upsampled_prev_aligement 4 2 ([(1, 2), (3, 4)] :: []) [] 3 3 =
        .error (.runtime_error "current level number of tiles smaller than upsampled tiles")) ∧
    (¬ ((([(1, 2), (3, 4)] :: ([] : Alignment)).length : Int) * cdiv 4 2 > 3 ∨
        (([(1, 2), (3, 4)] : List (Int × Int)).length : Int) * cdiv 4 2 > 3) →
      ∃ out, build_upsampled_prev_aligement 4 2 ([(1, 2), (3, 4)] :: []) [] 3 3 = .ok out) :=
  upsample_fails_iff_overflow 4 2 (by decide) [(1, 2), (3, 4)] [] (by simp) 3 3

/-! ## Level aligner: what a returned grid holds -/

theorem cdiv_nonneg_eq (a b : Int) (ha : 0 ≤ a) (hb : 0 ≤ b) : cdiv a b = a / b :=
  Int.tdiv_eq_ediv ha hb

theorem copyMakeBorder_ok {src pad : Mat} {top bottom left right : Int} {value : Fin 65536}
    (h : copyMakeBorder src top bottom left right value = .ok pad) :
    0 ≤ top ∧ 0 ≤ bottom ∧ 0 ≤ left ∧ 0 ≤ right ∧
    (pad.height : Int) = src.height + top + bottom ∧ (pad.width : Int) = src.width + left + right ∧
    ∀ y x, pad.px y x =
      if top ≤ y ∧ y < top + src.height ∧ left ≤ x ∧ x < left + src.width then
        src.px (y - top) (x - left)
      else value := by
  unfold copyMakeBorder at h
  split at h
  · cases h
  · cases h
    refine ⟨by omega, by omega, by omega, by omega, ?_, ?_, fun _ _ => rfl⟩
    · simp only; push_cast; omega
    · simp only; push_cast; omega

theorem align_cell_inv {g0 g g' up : Alignment} {dist : Option DistanceFn} {ref_img pad : Mat}
    {T r : Int} {S : Nat → Nat → Prop} {i j : Nat}
    (h : GridInv g0 g (tile_entry dist ref_img pad up T r) S)
    (hrun : align_cell dist ref_img pad up T r i j g = .ok g') :
    GridInv g0 g' (tile_entry dist ref_img pad up T r) (fun r' c' => S r' c' ∨ (r' = i ∧ c' = j)) := by
  unfold align_cell at hrun
  cases ht : align_tile dist ref_img pad up T r i j with
  | error e => rw [ht] at hrun; cases hrun
  | ok v =>
    rw [ht] at hrun
    exact h.write hrun (by unfold tile_entry; rw [ht])

theorem align_row_inv {g0 g g' up : Alignment} {dist : Option DistanceFn} {ref_img pad : Mat}
    {T r W : Int} {S : Nat → Nat → Prop} {i : Nat}
    (h : GridInv g0 g (tile_entry dist ref_img pad up T r) S)
    (hrun : align_row dist ref_img pad up T r W i g = .ok g') :
    GridInv g0 g' (tile_entry dist ref_img pad up T r)
      (fun r' c' => S r' c' ∨ (r' = i ∧ c' < W.toNat)) := by
  unfold align_row at hrun
  refine foldlM_range_inv _
    (fun j g => GridInv g0 g (tile_entry dist ref_img pad up T r)
      (fun r' c' => S r' c' ∨ (r' = i ∧ c' < j)))
    W.toNat g g' ?_ ?_ hrun
  · exact h.congr (fun r' c' => by
      constructor
      · rintro (hh | hh)
        · exact hh
        · omega
      · intro hh; exact Or.inl hh)
  · intro j x y _ hx hstep
    exact (align_cell_inv hx hstep).congr (fun r' c' => by
      constructor
      · rintro (hh | hh)
        · exact Or.inl (Or.inl hh)
        · by_cases hc : c' = j
          · exact Or.inr ⟨hh.1, hc⟩
          · exact Or.inl (Or.inr ⟨hh.1, by omega⟩)
      · rintro ((hh | hh) | hh)
        · exact Or.inl hh
        · exact Or.inr ⟨hh.1, by omega⟩
        · exact Or.inr ⟨hh.1, by omega⟩)

theorem align_rows_inv {g0 g' up : Alignment} {dist : Option DistanceFn} {ref_img pad : Mat}
    {T r W : Int} {n : Nat}
    (hrun : (List.range n).foldlM (fun curr ref_tile_row_i =>
      align_row dist ref_img pad up T r W ref_tile_row_i curr) g0 = .ok g') :
    GridInv g0 g' (tile_entry dist ref_img pad up T r) (fun r' c' => r' < n ∧ c' < W.toNat) := by
  refine foldlM_range_inv _
    (fun i g => GridInv g0 g (tile_entry dist ref_img pad up T r)
      (fun r' c' => r' < i ∧ c' < W.toNat))
    n g0 g' ?_ ?_ hrun
  · exact ⟨SameShape.refl g0, fun r c hh => by omega, fun _ _ _ => rfl⟩
  · intro i x y _ hx hstep
    exact (align_row_inv hx hstep).congr (fun r' c' => by
      constructor
      · rintro ⟨h1, h2⟩
        by_cases hr : r' < i
        · exact Or.inl ⟨hr, h2⟩
        · exact Or.inr ⟨by omega, h2⟩
      · rintro (hh | hh)
        · exact ⟨by omega, hh.2⟩
        · exact ⟨by omega, hh.2⟩)

/-- What a successful call of `align_image_level` on a cleared output vector
establishes: the grid dimensions are non-negative, the prior and the padded
plane were built, and the grid returned has the shape of the zero grid and
holds at every cell the entry computed by `align_tile`. -/
theorem align_image_level_ok {ref_img alt_img : Mat} {prev out : Alignment}
    {scale T pts r dt : Int}
    (h : align_image_level ref_img alt_img prev [] scale T pts r dt = .ok out) :
    cdiv T 2 ≠ 0 ∧ 0 ≤ cdiv ref_img.height (cdiv T 2) - 1 ∧ 0 ≤ cdiv ref_img.width (cdiv T 2) - 1 ∧
    ∃ upsample up pad,
      upsample_alignment_func_ptr scale T pts = .ok upsample ∧
      upsampled_prior upsample prev pts (cdiv ref_img.height (cdiv T 2) - 1)
        (cdiv ref_img.width (cdiv T 2) - 1) = .ok up ∧
      copyMakeBorder alt_img r r r r UINT_LEAST16_MAX = .ok pad ∧
      GridInv
        (List.replicate (cdiv ref_img.height (cdiv T 2) - 1).toNat
          (List.replicate (cdiv ref_img.width (cdiv T 2) - 1).toNat (0, 0)))
        out (tile_entry (distance_func_ptr dt T) ref_img pad up T r)
        (fun r' c' => r' < (cdiv ref_img.height (cdiv T 2) - 1).toNat ∧
          c' < (cdiv ref_img.width (cdiv T 2) - 1).toNat) := by
  unfold align_image_level at h
  cases hu : upsample_alignment_func_ptr scale T pts with
  | error e => rw [hu] at h; cases h
  | ok upsample =>
    rw [hu] at h
    simp only at h
    split at h
    · cases h
    · rename_i hdiv
      cases hp : upsampled_prior upsample prev pts (cdiv ref_img.height (cdiv T 2) - 1)
          (cdiv ref_img.width (cdiv T 2) - 1) with
      | error e => rw [hp] at h; cases h
      | ok up =>
        rw [hp] at h
        simp only at h
        cases hz : resize_zero [] (cdiv ref_img.height (cdiv T 2) - 1)
            (cdiv ref_img.width (cdiv T 2) - 1) with
        | error e => rw [hz] at h; cases h
        | ok g0 =>
          rw [hz] at h
          simp only at h
          obtain ⟨hH, hW, hg0⟩ := resize_zero_nil _ _ g0 hz
          subst hg0
          cases hb : copyMakeBorder alt_img r r r r UINT_LEAST16_MAX with
          | error e => rw [hb] at h; cases h
          | ok pad =>
            rw [hb] at h
            exact ⟨hdiv, hH, hW, upsample, up, pad, rfl, hp, rfl, align_rows_inv h⟩

/-- C3: for tile size 8 or 16, the grid produced by `align_image_level` has exactly
`floor(h / (T/2)) - 1` rows, each of exactly `floor(w / (T/2)) - 1` entries; when
`h = k * (T/2)` it has `k - 1` rows. -/
theorem align_image_level_shape (ref_img alt_img : Mat) (prev out : Alignment)
    (scale T pts r dt : Int) (hT : T = 8 ∨ T = 16)
    (h : align_image_level ref_img alt_img prev [] scale T pts r dt = .ok out) :
    (out.length : Int) = (ref_img.height : Int) / (T / 2) - 1 ∧
    (∀ row ∈ out, (row.length : Int) = (ref_img.width : Int) / (T / 2) - 1) ∧
    ∀ k : Nat, (ref_img.height : Int) = k * (T / 2) → (out.length : Int) = k - 1 := by
  obtain ⟨_, hH, hW, _, _, _, _, _, _, hinv⟩ := align_image_level_ok h
  obtain ⟨hlen, hrows⟩ := hinv.shape.replicate
  have hhalf : cdiv T 2 = T / 2 := by rcases hT with rfl | rfl <;> decide
  have hpos : 0 < T / 2 := by rcases hT with rfl | rfl <;> decide
  rw [hhalf] at hH hW hlen hrows
  rw [cdiv_nonneg_eq _ _ (by omega) (by omega)] at hH hW hlen hrows
  have hl : (out.length : Int) = (ref_img.height : Int) / (T / 2) - 1 := by omega
  refine ⟨hl, fun row hrow => by have := hrows row hrow; omega, ?_⟩
  intro k hk
  rw [hl, hk, Int.mul_ediv_cancel _ (by omega)]

theorem align_image_level_shape_witness :
    (([[(0, 0)]] : Alignment).length : Int) = ((const_plane 8 8 0).height : Int) / (8 / 2) - 1 ∧
    (∀ row ∈ ([[(0, 0)]] : Alignment),
      (row.length : Int) = ((const_plane 8 8 0).width : Int) / (8 / 2) - 1) ∧
    ∀ k : Nat, ((const_plane 8 8 0).height : Int) = k * (8 / 2) →
      (([[(0, 0)]] : Alignment).length : Int) = k - 1 :=
  align_image_level_shape (const_plane 8 8 0) (const_plane 8 8 0) [] [[(0, 0)]] (-1) 8 (-1) 1 1
    (by decide) (by decide!)

/-! ## Level aligner: the search of one tile -/

theorem search_step_eq (dist : Option DistanceFn) (ref_img pad : Mat) (rr rc ar ac : Int)
    (a b : Nat) (st : SearchState) :
    search_step dist ref_img pad rr rc ar ac a b st =
      match candidate_distance dist ref_img pad rr rc ar ac a b with
      | .error e => .error e
      | .ok distance_j =>
        if distance_j < st.min_distance_i then .ok ⟨distance_j, a, b⟩ else .ok st := by
  unfold search_step candidate_distance
  cases dist with
  | none => rfl
  | some f => rfl

theorem SearchInv.step {d : Nat → Nat → Except Fault Nat} {N a b : Nat} {st : SearchState}
    {v : Nat} (h : SearchInv d N a b st) (hb : b < N) (hd : d a b = .ok v) :
    SearchInv d N a (b + 1) (if v < st.min_distance_i then ⟨v, a, b⟩ else st) := by
  have hmono : ∀ a' b', Scanned N a (b + 1) a' b' → Scanned N a b a' b' ∨ (a' = a ∧ b' = b) := by
    intro a' b' hs
    unfold Scanned at hs ⊢
    by_cases hab : a' = a ∧ b' = b
    · exact Or.inr hab
    · left; omega
  have hmono' : ∀ a' b', Scanned N a b a' b' → Scanned N a (b + 1) a' b' := by
    intro a' b' hs
    unfold Scanned at hs ⊢
    omega
  have hok : ∀ a' b', Scanned N a (b + 1) a' b' → ∃ v, d a' b' = .ok v := by
    intro a' b' hs
    rcases hmono a' b' hs with hs' | ⟨rfl, rfl⟩
    · exact h.all_ok a' b' hs'
    · exact ⟨v, hd⟩
  by_cases hlt : v < st.min_distance_i
  · rw [if_pos hlt]
    refine ⟨hok, ?_, Or.inr ⟨a, b, ?_, rfl, hd, ?_⟩⟩
    · intro a' b' v' hs hv'
      rcases hmono a' b' hs with hs' | ⟨rfl, rfl⟩
      · have := h.lower a' b' v' hs' hv'
        show v ≤ v'
        omega
      · rw [hd] at hv'; cases hv'; exact Nat.le_refl _
    · unfold Scanned; omega
    · intro a'' b'' v' hs hv'
      have := h.lower a'' b'' v' hs hv'
      show v < v'
      omega
  · rw [if_neg hlt]
    refine ⟨hok, ?_, ?_⟩
    · intro a' b' v' hs hv'
      rcases hmono a' b' hs with hs' | ⟨rfl, rfl⟩
      · exact h.lower a' b' v' hs' hv'
      · rw [hd] at hv'; cases hv'; omega
    · rcases h.chosen with hc | ⟨a', b', hs, hst, hda, hbest⟩
      · exact Or.inl hc
      · exact Or.inr ⟨a', b', hmono' a' b' hs, hst, hda, hbest⟩

theorem SearchInv.next_row {d : Nat → Nat → Except Fault Nat} {N a : Nat} {st : SearchState}
    (h : SearchInv d N a N st) : SearchInv d N (a + 1) 0 st := by
  have hiff : ∀ a' b', Scanned N (a + 1) 0 a' b' ↔ Scanned N a N a' b' := by
    intro a' b'; unfold Scanned; omega
  refine ⟨fun a' b' hs => h.all_ok a' b' ((hiff a' b').1 hs),
    fun a' b' v hs hv => h.lower a' b' v ((hiff a' b').1 hs) hv, ?_⟩
  rcases h.chosen with hc | ⟨a', b', hs, hst, hda, hbest⟩
  · exact Or.inl hc
  · exact Or.inr ⟨a', b', (hiff a' b').2 hs, hst, hda, hbest⟩

theorem search_row_inv {dist : Option DistanceFn} {ref_img pad : Mat} {rr rc ar ac r : Int}
    {a : Nat} {st st' : SearchState}
    (h : SearchInv (candidate_distance dist ref_img pad rr rc ar ac) (r * 2 + 1).toNat a 0 st)
    (hrun : search_row dist ref_img pad rr rc ar ac r a st = .ok st') :
    SearchInv (candidate_distance dist ref_img pad rr rc ar ac) (r * 2 + 1).toNat (a + 1) 0 st' := by
  unfold search_row at hrun
  refine SearchInv.next_row (foldlM_range_inv _
    (fun b st => SearchInv (candidate_distance dist ref_img pad rr rc ar ac) (r * 2 + 1).toNat a b st)
    (r * 2 + 1).toNat st st' h ?_ hrun)
  intro b x y hb hx hstep
  rw [search_step_eq] at hstep
  cases hd : candidate_distance dist ref_img pad rr rc ar ac a b with
  | error e => rw [hd] at hstep; cases hstep
  | ok v =>
    rw [hd] at hstep
    have hy : y = if v < x.min_distance_i then ⟨v, a, b⟩ else x := by
      by_cases hlt : v < x.min_distance_i
      · simp only [hlt, if_true] at hstep ⊢; cases hstep; rfl
      · simp only [hlt, if_false] at hstep ⊢; cases hstep; rfl
    rw [hy]
    exact hx.step hb hd

/-- What the search of one tile returns: the invariant of the running minimum
over the whole window. -/
theorem search_tile_inv {dist : Option DistanceFn} {ref_img pad : Mat} {rr rc ar ac r : Int}
    {st : SearchState} (hrun : search_tile dist ref_img pad rr rc ar ac r = .ok st) :
    SearchInv (candidate_distance dist ref_img pad rr rc ar ac) (r * 2 + 1).toNat
      (r * 2 + 1).toNat 0 st := by
  unfold search_tile at hrun
  refine foldlM_range_inv _
    (fun a st => SearchInv (candidate_distance dist ref_img pad rr rc ar ac) (r * 2 + 1).toNat a 0 st)
    (r * 2 + 1).toNat _ st ?_ ?_ hrun
  · refine ⟨fun a' b' hs => ?_, fun a' b' v hs _ => ?_, Or.inl rfl⟩
    · unfold Scanned at hs; omega
    · unfold Scanned at hs; omega
  · intro a x y _ hx hstep
    exact search_row_inv hx hstep

/-- The search of a tile returns the first candidate, in row-major scan order,
that attains the minimum distance of the window, as soon as one candidate has
a distance below `ULONG_LONG_MAX`. -/
theorem search_tile_first_min {dist : Option DistanceFn} {ref_img pad : Mat}
    {rr rc ar ac r : Int} {st : SearchState}
    (hrun : search_tile dist ref_img pad rr rc ar ac r = .ok st)
    (hsome : ∃ a b : Nat, (a : Int) ≤ 2 * r ∧ (b : Int) ≤ 2 * r ∧ ∃ v,
      candidate_distance dist ref_img pad rr rc ar ac a b = .ok v ∧ v < ULONG_LONG_MAX) :
    ∃ a b : Nat, (a : Int) ≤ 2 * r ∧ (b : Int) ≤ 2 * r ∧
      st = ⟨st.min_distance_i, a, b⟩ ∧
      candidate_distance dist ref_img pad rr rc ar ac a b = .ok st.min_distance_i ∧
      (∀ (a' b' : Nat) (v : Nat), (a' : Int) ≤ 2 * r → (b' : Int) ≤ 2 * r →
        candidate_distance dist ref_img pad rr rc ar ac a' b' = .ok v → st.min_distance_i ≤ v) ∧
      (∀ (a' b' : Nat) (v : Nat), (b' : Int) ≤ 2 * r → (a' < a ∨ (a' = a ∧ b' < b)) →
        candidate_distance dist ref_img pad rr rc ar ac a' b' = .ok v → st.min_distance_i < v) := by
  have hinv := search_tile_inv hrun
  obtain ⟨a0, b0, ha0, hb0, v0, hv0, hlt⟩ := hsome
  have hscan : ∀ a' b' : Nat, (a' : Int) ≤ 2 * r → (b' : Int) ≤ 2 * r →
      Scanned (r * 2 + 1).toNat (r * 2 + 1).toNat 0 a' b' := by
    intro a' b' h1 h2; unfold Scanned; omega
  have hmin := hinv.lower a0 b0 v0 (hscan a0 b0 ha0 hb0) hv0
  rcases hinv.chosen with hc | ⟨a, b, hs, hst, hda, hbest⟩
  · rw [hc] at hmin
    simp only at hmin
    omega
  · have hs' := hs
    unfold Scanned at hs'
    refine ⟨a, b, by omega, by omega, hst, hda, ?_, ?_⟩
    · intro a' b' v h1 h2 hv
      exact hinv.lower a' b' v (hscan a' b' h1 h2) hv
    · intro a' b' v h2 hlex hv
      exact hbest a' b' v (by unfold Scanned; omega) hv

/-! ## Level aligner: the entry recorded for a tile -/

theorem align_tile_ok {dist : Option DistanceFn} {ref_img pad : Mat} {up : Alignment}
    {T r : Int} {i j : Nat} {v : Int × Int}
    (h : align_tile dist ref_img pad up T r i j = .ok v) :
    ∃ (prior : Int × Int) (st : SearchState), cell up i j = some prior ∧
      search_tile dist ref_img pad (cdiv (i * T) 2) (cdiv (j * T) 2)
        (clamp_start (cdiv (i * T) 2 + prior.1) ((pad.height : Int) - (T + 2 * r)))
        (clamp_start (cdiv (j * T) 2 + prior.2) ((pad.width : Int) - (T + 2 * r))) r = .ok st ∧
      v = (prior.1 + st.min_distance_row_i - r, prior.2 + st.min_distance_col_i - r) := by
  unfold align_tile at h
  rw [read_cell_eq] at h
  cases hc : cell up i j with
  | none => rw [hc] at h; cases h
  | some prior =>
    rw [hc] at h
    simp only at h
    cases hs : search_tile dist ref_img pad (cdiv (i * T) 2) (cdiv (j * T) 2)
        (clamp_start (cdiv (i * T) 2 + prior.1) ((pad.height : Int) - (T + 2 * r)))
        (clamp_start (cdiv (j * T) 2 + prior.2) ((pad.width : Int) - (T + 2 * r))) r with
    | error e => rw [hs] at h; cases h
    | ok st =>
      rw [hs] at h
      cases h
      exact ⟨prior, st, rfl, hs, rfl⟩

/-- Every entry of a grid returned by `align_image_level` is the upsampled prior
of its tile plus the indices the search of that tile ended with, minus the
search radius. -/
theorem align_image_level_entry {ref_img alt_img : Mat} {prev out : Alignment}
    {scale T pts r dt : Int}
    (h : align_image_level ref_img alt_img prev [] scale T pts r dt = .ok out)
    (i j : Nat) (hi : (i : Int) < cdiv ref_img.height (cdiv T 2) - 1)
    (hj : (j : Int) < cdiv ref_img.width (cdiv T 2) - 1) :
    ∃ upsample up pad prior st,
      upsample_alignment_func_ptr scale T pts = .ok upsample ∧
      upsampled_prior upsample prev pts (cdiv ref_img.height (cdiv T 2) - 1)
        (cdiv ref_img.width (cdiv T 2) - 1) = .ok up ∧
      copyMakeBorder alt_img r r r r UINT_LEAST16_MAX = .ok pad ∧
      cell up i j = some prior ∧
      search_tile (distance_func_ptr dt T) ref_img pad (cdiv (i * T) 2) (cdiv (j * T) 2)
        (clamp_start (cdiv (i * T) 2 + prior.1) ((pad.height : Int) - (T + 2 * r)))
        (clamp_start (cdiv (j * T) 2 + prior.2) ((pad.width : Int) - (T + 2 * r))) r = .ok st ∧
      cell out i j =
        some (prior.1 + st.min_distance_row_i - r, prior.2 + st.min_distance_col_i - r) := by
  obtain ⟨_, _, _, upsample, up, pad, hu, hp, hb, hinv⟩ := align_image_level_ok h
  obtain ⟨hcell, hne⟩ := hinv.written i j ⟨by omega, by omega⟩
  unfold tile_entry at hcell hne
  cases ht : align_tile (distance_func_ptr dt T) ref_img pad up T r i j with
  | error e => rw [ht] at hne; exact absurd rfl hne
  | ok v =>
    rw [ht] at hcell
    obtain ⟨prior, st, hc, hs, hv⟩ := align_tile_ok ht
    exact ⟨upsample, up, pad, prior, st, hu, hp, hb, hc, hs, by rw [hcell, hv]⟩

/-- The entry recorded for a tile is `(dy0 + a - r, dx0 + b - r)` for the first
candidate (a, b), in row-major scan order, that attains the minimum distance
of the tile's window, provided some candidate of the window has a distance
below `ULONG_LONG_MAX`. -/
theorem entry_is_first_minimum (ref_img alt_img : Mat) (prev out : Alignment)
    (scale T pts r dt : Int)
    (h : align_image_level ref_img alt_img prev [] scale T pts r dt = .ok out)
    (i j : Nat) (hi : (i : Int) < cdiv ref_img.height (cdiv T 2) - 1)
    (hj : (j : Int) < cdiv ref_img.width (cdiv T 2) - 1) :
    ∃ upsample up pad prior,
      upsample_alignment_func_ptr scale T pts = .ok upsample ∧
      upsampled_prior upsample prev pts (cdiv ref_img.height (cdiv T 2) - 1)
        (cdiv ref_img.width (cdiv T 2) - 1) = .ok up ∧
      copyMakeBorder alt_img r r r r UINT_LEAST16_MAX = .ok pad ∧
      cell up i j = some prior ∧
      ((∃ a b : Nat, (a : Int) ≤ 2 * r ∧ (b : Int) ≤ 2 * r ∧ ∃ v,
          tile_distance (distance_func_ptr dt T) ref_img pad T r prior i j a b = .ok v ∧
          v < ULONG_LONG_MAX) →
        ∃ (a b : Nat) (m : Nat), (a : Int) ≤ 2 * r ∧ (b : Int) ≤ 2 * r ∧
          cell out i j = some (prior.1 + a - r, prior.2 + b - r) ∧
          tile_distance (distance_func_ptr dt T) ref_img pad T r prior i j a b = .ok m ∧
          (∀ (a' b' : Nat) (v : Nat), (a' : Int) ≤ 2 * r → (b' : Int) ≤ 2 * r →
            tile_distance (distance_func_ptr dt T) ref_img pad T r prior i j a' b' = .ok v →
            m ≤ v) ∧
          (∀ (a' b' : Nat) (v : Nat), (b' : Int) ≤ 2 * r → (a' < a ∨ (a' = a ∧ b' < b)) →
            tile_distance (distance_func_ptr dt T) ref_img pad T r prior i j a' b' = .ok v →
            m < v)) := by
  obtain ⟨upsample, up, pad, prior, st, hu, hp, hb, hc, hs, hout⟩ :=
    align_image_level_entry h i j hi hj
  refine ⟨upsample, up, pad, prior, hu, hp, hb, hc, ?_⟩
  intro hsome
  obtain ⟨a, b, ha, hb', hst, hd, hmin, hfirst⟩ := search_tile_first_min hs hsome
  refine ⟨a, b, st.min_distance_i, ha, hb', ?_, hd, hmin, hfirst⟩
  rw [hout, hst]

theorem entry_is_first_minimum_witness :
    ∃ upsample up pad prior,
      upsample_alignment_func_ptr (-1) 8 (-1) = .ok upsample ∧
      upsampled_prior upsample [] (-1) (cdiv (const_plane 8 8 0).height (cdiv 8 2) - 1)
        (cdiv (const_plane 8 8 0).width (cdiv 8 2) - 1) = .ok up ∧
      copyMakeBorder (const_plane 8 8 0) 1 1 1 1 UINT_LEAST16_MAX = .ok pad ∧
      cell up 0 0 = some prior ∧
      ((∃ a b : Nat, (a : Int) ≤ 2 * 1 ∧ (b : Int) ≤ 2 * 1 ∧ ∃ v,
          tile_distance (distance_func_ptr 2 8) (const_plane 8 8 0) pad 8 1 prior 0 0 a b = .ok v ∧
          v < ULONG_LONG_MAX) →
        ∃ (a b : Nat) (m : Nat), (a : Int) ≤ 2 * 1 ∧ (b : Int) ≤ 2 * 1 ∧
          cell [[(0, 0)]] 0 0 = some (prior.1 + a - 1, prior.2 + b - 1) ∧
          tile_distance (distance_func_ptr 2 8) (const_plane 8 8 0) pad 8 1 prior 0 0 a b = .ok m ∧
          (∀ (a' b' : Nat) (v : Nat), (a' : Int) ≤ 2 * 1 → (b' : Int) ≤ 2 * 1 →
            tile_distance (distance_func_ptr 2 8) (const_plane 8 8 0) pad 8 1 prior 0 0 a' b' = .ok v →
            m ≤ v) ∧
          (∀ (a' b' : Nat) (v : Nat), (b' : Int) ≤ 2 * 1 → (a' < a ∨ (a' = a ∧ b' < b)) →
            tile_distance (distance_func_ptr 2 8) (const_plane 8 8 0) pad 8 1 prior 0 0 a' b' = .ok v →
            m < v)) :=
  entry_is_first_minimum (const_plane 8 8 0) (const_plane 8 8 0) [] [[(0, 0)]] (-1) 8 (-1) 1 2
    (by decide!) 0 0 (by decide) (by decide)

/-- With the L1 metric every entry recorded by `align_image_level` is
`(dy0 + a - r, dx0 + b - r)` for the first candidate (a, b), in row-major scan
order, that attains the minimum distance of the tile's window. -/
theorem l1_entry_is_first_minimum (ref_img alt_img : Mat) (prev out : Alignment)
    (scale T pts r : Int) (hT : T = 8 ∨ T = 16)
    (h : align_image_level ref_img alt_img prev [] scale T pts r 1 = .ok out)
    (i j : Nat) (hi : (i : Int) < (ref_img.height : Int) / (T / 2) - 1)
    (hj : (j : Int) < (ref_img.width : Int) / (T / 2) - 1) :
    ∃ upsample up pad prior,
      upsample_alignment_func_ptr scale T pts = .ok upsample ∧
      upsampled_prior upsample prev pts ((ref_img.height : Int) / (T / 2) - 1)
        ((ref_img.width : Int) / (T / 2) - 1) = .ok up ∧
      copyMakeBorder alt_img r r r r UINT_LEAST16_MAX = .ok pad ∧
      cell up i j = some prior ∧
      ∃ (a b : Nat) (m : Nat), (a : Int) ≤ 2 * r ∧ (b : Int) ≤ 2 * r ∧
        cell out i j = some (prior.1 + a - r, prior.2 + b - r) ∧
        tile_distance (distance_func_ptr 1 T) ref_img pad T r prior i j a b = .ok m ∧
        (∀ (a' b' : Nat) (v : Nat), (a' : Int) ≤ 2 * r → (b' : Int) ≤ 2 * r →
          tile_distance (distance_func_ptr 1 T) ref_img pad T r prior i j a' b' = .ok v →
          m ≤ v) ∧
        (∀ (a' b' : Nat) (v : Nat), (b' : Int) ≤ 2 * r → (a' < a ∨ (a' = a ∧ b' < b)) →
          tile_distance (distance_func_ptr 1 T) ref_img pad T r prior i j a' b' = .ok v →
          m < v) := by
  have hhalf : cdiv T 2 = T / 2 := by rcases hT with rfl | rfl <;> decide
  have hpos : 0 < T / 2 := by rcases hT with rfl | rfl <;> decide
  have hH : cdiv ref_img.height (cdiv T 2) = (ref_img.height : Int) / (T / 2) := by
    rw [hhalf, cdiv_nonneg_eq _ _ (by omega) (by omega)]
  have hW : cdiv ref_img.width (cdiv T 2) = (ref_img.width : Int) / (T / 2) := by
    rw [hhalf, cdiv_nonneg_eq _ _ (by omega) (by omega)]
  obtain ⟨upsample, up, pad, prior, st, hu, hp, hb, hc, hs, hout⟩ :=
    align_image_level_entry h i j (by rw [hH]; exact hi) (by rw [hW]; exact hj)
  rw [hH, hW] at hp
  refine ⟨upsample, up, pad, prior, hu, hp, hb, hc, ?_⟩
  have hr : 0 ≤ r := (copyMakeBorder_ok hb).1
  have hinv := search_tile_inv hs
  obtain ⟨v0, hv0⟩ := hinv.all_ok 0 0 (by unfold Scanned; omega)
  have hlt : v0 < ULONG_LONG_MAX := by
    have hle : v0 ≤ 16 * 16 * 65535 := by
      rcases hT with rfl | rfl
      · have := l1_distance_le 8 (by decide) _ _ _ _ _ _ v0 hv0
        omega
      · exact l1_distance_le 16 (by decide) _ _ _ _ _ _ v0 hv0
    have : ULONG_LONG_MAX = 18446744073709551615 := by decide
    omega
  obtain ⟨a, b, ha, hb', hst, hd, hmin, hfirst⟩ :=
    search_tile_first_min hs ⟨0, 0, by omega, by omega, v0, hv0, hlt⟩
  refine ⟨a, b, st.min_distance_i, ha, hb', ?_, hd, hmin, hfirst⟩
  rw [hout, hst]

theorem l1_entry_is_first_minimum_witness :
    ∃ upsample up pad prior,
      upsample_alignment_func_ptr (-1) 8 (-1) = .ok upsample ∧
      upsampled_prior upsample [] (-1) (((const_plane 8 8 0).height : Int) / (8 / 2) - 1)
        (((const_plane 8 8 0).width : Int) / (8 / 2) - 1) = .ok up ∧
      copyMakeBorder (const_plane 8 8 0) 1 1 1 1 UINT_LEAST16_MAX = .ok pad ∧
      cell up 0 0 = some prior ∧
      ∃ (a b : Nat) (m : Nat), (a : Int) ≤ 2 * 1 ∧ (b : Int) ≤ 2 * 1 ∧
        cell [[(0, 0)]] 0 0 = some (prior.1 + a - 1, prior.2 + b - 1) ∧
        tile_distance (distance_func_ptr 1 8) (const_plane 8 8 0) pad 8 1 prior 0 0 a b = .ok m ∧
        (∀ (a' b' : Nat) (v : Nat), (a' : Int) ≤ 2 * 1 → (b' : Int) ≤ 2 * 1 →
          tile_distance (distance_func_ptr 1 8) (const_plane 8 8 0) pad 8 1 prior 0 0 a' b' = .ok v →
          m ≤ v) ∧
        (∀ (a' b' : Nat) (v : Nat), (b' : Int) ≤ 2 * 1 → (a' < a ∨ (a' = a ∧ b' < b)) →
          tile_distance (distance_func_ptr 1 8) (const_plane 8 8 0) pad 8 1 prior 0 0 a' b' = .ok v →
          m < v) :=
  l1_entry_is_first_minimum (const_plane 8 8 0) (const_plane 8 8 0) [] [[(0, 0)]] (-1) 8 (-1) 1
    (by decide) (by decide!) 0 0 (by decide) (by decide)

/-! ## Level aligner: the initial indices can reach the grid -/

/-- C1 (failing input): level-0 parameters (tile size 16, radius 1, L2) on a 26 x 26
pair, the alternate plane all zero and the reference zero except the samples
65535, 362, 5 and 1 in the tile of grid cell (1, 1).  Every candidate of that
tile has L2 distance `2^64 - 1` after the 32-bit wrap-around, no candidate is
below the initial minimum, and the entry recorded is `(0 + (-1) - 1, 0 + (-1) - 1)`,
which is not `(dy0 + a - r, dx0 + b - r)` for any candidate offset `a, b` in
`[0, 2r]`. -/
theorem entry_is_no_candidate_when_l2_wraps :
    align_image_level sentinel_ref_26 (const_plane 26 26 0) [] [] (-1) 16 (-1) 1 2 =
      .ok [[(-1, -1), (-1, -1)], [(-1, -1), (-2, -2)]] ∧
    cell [[(-1, -1), (-1, -1)], [(-1, -1), (-2, -2)]] 1 1 = some (-2, -2) ∧
    ∀ a ∈ [0, 1, 2], ∀ b ∈ [0, 1, 2], ((-2, -2) : Int × Int) ≠ (0 + a - 1, 0 + b - 1) := by
  decide!

/-- C2 (failing input): tile size 16, radius 1, L2, on a 32 x 32 pair, the alternate
plane all zero and the reference zero except the samples 65535, 362, 5 and 1
in the tile of grid cell (1, 1), with a zero prior.  The nine candidates of
that tile all have distance `ULONG_LONG_MAX`, so they tie and the first one
scanned is (0, 0); the search nevertheless ends with the indices `(-1, -1)`,
which is no candidate at all. -/
theorem first_seen_not_chosen_when_l2_wraps :
    (∀ a ∈ [0, 1, 2], ∀ b ∈ [0, 1, 2],
      (copyMakeBorder (const_plane 32 32 0) 1 1 1 1 UINT_LEAST16_MAX >>= fun pad =>
        tile_distance (distance_func_ptr 2 16) sentinel_ref_32 pad 16 1 (0, 0) 1 1 a b) =
          .ok ULONG_LONG_MAX) ∧
    (copyMakeBorder (const_plane 32 32 0) 1 1 1 1 UINT_LEAST16_MAX >>= fun pad =>
      search_tile (distance_func_ptr 2 16) sentinel_ref_32 pad
        (cdiv ((1 : Nat) * 16) 2) (cdiv ((1 : Nat) * 16) 2)
        (clamp_start (cdiv ((1 : Nat) * 16) 2 + 0) ((pad.height : Int) - (16 + 2 * 1)))
        (clamp_start (cdiv ((1 : Nat) * 16) 2 + 0) ((pad.width : Int) - (16 + 2 * 1))) 1) =
        .ok ⟨ULONG_LONG_MAX, -1, -1⟩ := by
  decide!

/-! ## Burst aligner: the upsampler chosen at each level -/

/-- C10 (as stated, refuted): at level 2 of `align::process` the upsampler instance
called is `build_upsampled_prev_aligement<4, 2>`.  Its tile ratio 2 is not
`tile_sizes[3] / tile_sizes[2]` (coarse over fine), which is `8 / 16`: zero as an
integer quotient, and `2 * 16` is not 8 either. -/
theorem level2_tile_ratio_is_not_coarse_over_fine :
    upsample_alignment_func_ptr (level_args 2).scale_factor_prev_curr
      (level_args 2).curr_tile_size (level_args 2).prev_tile_size = .ok (some (4, 2)) ∧
    ((4, 2) : Int × Int) ≠ (inv_scale_factors.getD 3 0,
      cdiv (grayimg_tile_sizes.getD 3 0) (grayimg_tile_sizes.getD 2 0)) ∧
    cdiv (grayimg_tile_sizes.getD 3 0) (grayimg_tile_sizes.getD 2 0) = 0 ∧
    (2 : Int) * grayimg_tile_sizes.getD 2 0 ≠ grayimg_tile_sizes.getD 3 0 := by
  decide

/-- C10 (amended): at every level `L < 3` of `align::process` the upsampler is
called with `pyramid_ratio = inv_scale_factors[L+1]` and
`tile_ratio = tile_sizes[L] / tile_sizes[L+1]` (fine tile size over coarse tile
size): the level loop calls `align_image_level` with the scale factor
`inv_scale_factors[L+1]`, the current tile size `tile_sizes[L]` and the previous
tile size `tile_sizes[L+1]`; the instance selected there has these two ratios,
the prior of the level is the result of that instance of
`build_upsampled_prev_aligement` on the previous level's grid, and its repeat
factor `pyramid_ratio / tile_ratio` is positive. -/
theorem upsampler_called_with_fine_over_coarse (L : Nat) (hL : L < 3) :
    (∀ (ref_pyramid alt_pyramid : List Mat) (state : Alignment × Alignment) (ref_img alt_img : Mat),
      ref_pyramid[L]? = some ref_img → alt_pyramid[L]? = some alt_img →
      level_step ref_pyramid alt_pyramid state L =
        match align_image_level ref_img alt_img state.1 [] (inv_scale_factors.getD (L + 1) 0)
            (grayimg_tile_sizes.getD L 0) (grayimg_tile_sizes.getD (L + 1) 0)
            (grayimg_search_radious.getD L 0) (distances.getD L 0) with
        | .error e => .error e
        | .ok curr_alignment => .ok (curr_alignment, state.1)) ∧
    upsample_alignment_func_ptr (inv_scale_factors.getD (L + 1) 0)
      (grayimg_tile_sizes.getD L 0) (grayimg_tile_sizes.getD (L + 1) 0) =
        .ok (some (inv_scale_factors.getD (L + 1) 0,
          cdiv (grayimg_tile_sizes.getD L 0) (grayimg_tile_sizes.getD (L + 1) 0))) ∧
    (∀ (prev : Alignment) (num_tiles_h num_tiles_w : Int),
      upsampled_prior (some (inv_scale_factors.getD (L + 1) 0,
          cdiv (grayimg_tile_sizes.getD L 0) (grayimg_tile_sizes.getD (L + 1) 0)))
        prev (grayimg_tile_sizes.getD (L + 1) 0) num_tiles_h num_tiles_w =
      build_upsampled_prev_aligement (inv_scale_factors.getD (L + 1) 0)
        (cdiv (grayimg_tile_sizes.getD L 0) (grayimg_tile_sizes.getD (L + 1) 0))
        prev [] num_tiles_h num_tiles_w) ∧
    0 < cdiv (inv_scale_factors.getD (L + 1) 0)
      (cdiv (grayimg_tile_sizes.getD L 0) (grayimg_tile_sizes.getD (L + 1) 0)) := by
  have hcases : L = 0 ∨ L = 1 ∨ L = 2 := by omega
  have hstep : ∀ (K : Nat), K < 3 →
      ∀ (ref_pyramid alt_pyramid : List Mat) (state : Alignment × Alignment) (ref_img alt_img : Mat),
      ref_pyramid[K]? = some ref_img → alt_pyramid[K]? = some alt_img →
      level_step ref_pyramid alt_pyramid state K =
        match align_image_level ref_img alt_img state.1 [] (inv_scale_factors.getD (K + 1) 0)
            (grayimg_tile_sizes.getD K 0) (grayimg_tile_sizes.getD (K + 1) 0)
            (grayimg_search_radious.getD K 0) (distances.getD K 0) with
        | .error e => .error e
        | .ok curr_alignment => .ok (curr_alignment, state.1) := by
    intro K hK ref_pyramid alt_pyramid state ref_img alt_img h1 h2
    have hne : ¬ K = num_levels - 1 := by
      have : num_levels = 4 := rfl
      omega
    unfold level_step
    rw [h1, h2]
    simp only [level_args, if_neg hne]
  rcases hcases with rfl | rfl | rfl
  · exact ⟨hstep 0 hL, by decide, fun _ _ _ => rfl, by decide⟩
  · exact ⟨hstep 1 hL, by decide, fun _ _ _ => rfl, by decide⟩
  · exact ⟨hstep 2 hL, by decide, fun _ _ _ => rfl, by decide⟩

theorem upsampler_called_with_fine_over_coarse_witness :
    (∀ (ref_pyramid alt_pyramid : List Mat) (state : Alignment × Alignment) (ref_img alt_img : Mat),
      ref_pyramid[2]? = some ref_img → alt_pyramid[2]? = some alt_img →
      level_step ref_pyramid alt_pyramid state 2 =
        match align_image_level ref_img alt_img state.1 [] (inv_scale_factors.getD (2 + 1) 0)
            (grayimg_tile_sizes.getD 2 0) (grayimg_tile_sizes.getD (2 + 1) 0)
            (grayimg_search_radious.getD 2 0) (distances.getD 2 0) with
        | .error e => .error e
        | .ok curr_alignment => .ok (curr_alignment, state.1)) ∧
    upsample_alignment_func_ptr (inv_scale_factors.getD (2 + 1) 0)
      (grayimg_tile_sizes.getD 2 0) (grayimg_tile_sizes.getD (2 + 1) 0) =
        .ok (some (inv_scale_factors.getD (2 + 1) 0,
          cdiv (grayimg_tile_sizes.getD 2 0) (grayimg_tile_sizes.getD (2 + 1) 0))) ∧
    (∀ (prev : Alignment) (num_tiles_h num_tiles_w : Int),
      upsampled_prior (some (inv_scale_factors.getD (2 + 1) 0,
          cdiv (grayimg_tile_sizes.getD 2 0) (grayimg_tile_sizes.getD (2 + 1) 0)))
        prev (grayimg_tile_sizes.getD (2 + 1) 0) num_tiles_h num_tiles_w =
      build_upsampled_prev_aligement (inv_scale_factors.getD (2 + 1) 0)
        (cdiv (grayimg_tile_sizes.getD 2 0) (grayimg_tile_sizes.getD (2 + 1) 0))
        prev [] num_tiles_h num_tiles_w) ∧
    0 < cdiv (inv_scale_factors.getD (2 + 1) 0)
      (cdiv (grayimg_tile_sizes.getD 2 0) (grayimg_tile_sizes.getD (2 + 1) 0)) :=
  upsampler_called_with_fine_over_coarse 2 (by decide)

/-! ## Distance kernels: symmetry -/

theorem abs_diff_u16_comm (a b : Fin 65536) : abs_diff_u16 a b = abs_diff_u16 b a := by
  rw [abs_diff_u16_eq, abs_diff_u16_eq]
  omega

theorem l1_sum_comm (T : Nat) (img1 img2 : Mat) (r1 c1 r2 c2 : Int) :
    l1_sum T img1 img2 r1 c1 r2 c2 = l1_sum T img2 img1 r2 c2 r1 c1 := by
  unfold l1_sum
  simp only [abs_diff_u16_comm (img1.px _ _) (img2.px _ _)]

theorem l2_sum_comm (T : Nat) (img1 img2 : Mat) (r1 c1 r2 c2 : Int) :
    l2_sum T img1 img2 r1 c1 r2 c2 = l2_sum T img2 img1 r2 c2 r1 c1 := by
  unfold l2_sum
  simp only [abs_diff_u16_comm (img1.px _ _) (img2.px _ _)]

/-- C20: distance symmetry.  For in-range tile origins, `l1_distance` of (A, B) at
(oA, oB) equals `l1_distance` of (B, A) at (oB, oA), and likewise for
`l2_distance`; both calls return a value. -/
theorem distance_symmetric (T : Nat) (A B : Mat) (rA cA rB cB : Int)
    (hAr : 0 ≤ rA ∧ rA ≤ (A.height : Int) - T) (hAc : 0 ≤ cA ∧ cA ≤ (A.width : Int) - T)
    (hBr : 0 ≤ rB ∧ rB ≤ (B.height : Int) - T) (hBc : 0 ≤ cB ∧ cB ≤ (B.width : Int) - T) :
    l1_distance T A B rA cA rB cB = l1_distance T B A rB cB rA cA ∧
    l2_distance T A B rA cA rB cB = l2_distance T B A rB cB rA cA ∧
    (∃ v, l1_distance T A B rA cA rB cB = .ok v) ∧ (∃ v, l2_distance T A B rA cA rB cB = .ok v) := by
  have h1 := (range_check_ok_iff T A B rA cA rB cB).2 ⟨hAr, hAc, hBr, hBc⟩
  have h2 := (range_check_ok_iff T B A rB cB rA cA).2 ⟨hBr, hBc, hAr, hAc⟩
  rw [l1_distance_of_in_range _ _ _ _ _ _ _ h1, l1_distance_of_in_range _ _ _ _ _ _ _ h2,
    l2_distance_of_in_range _ _ _ _ _ _ _ h1, l2_distance_of_in_range _ _ _ _ _ _ _ h2,
    l1_sum_comm, l2_sum_comm]
  exact ⟨rfl, rfl, ⟨_, rfl⟩, ⟨_, rfl⟩⟩

theorem distance_symmetric_witness :
    l1_distance 8 (const_plane 8 8 65535) (const_plane 9 9 7) 0 0 1 1 =
      l1_distance 8 (const_plane 9 9 7) (const_plane 8 8 65535) 1 1 0 0 ∧
    l2_distance 8 (const_plane 8 8 65535) (const_plane 9 9 7) 0 0 1 1 =
      l2_distance 8 (const_plane 9 9 7) (const_plane 8 8 65535) 1 1 0 0 ∧
    (∃ v, l1_distance 8 (const_plane 8 8 65535) (const_plane 9 9 7) 0 0 1 1 = .ok v) ∧
    (∃ v, l2_distance 8 (const_plane 8 8 65535) (const_plane 9 9 7) 0 0 1 1 = .ok v) :=
  distance_symmetric 8 (const_plane 8 8 65535) (const_plane 9 9 7) 0 0 1 1
    (by decide) (by decide) (by decide) (by decide)

/-! ## Level aligner: the guard on the ratios -/

theorem upsample_alignment_func_ptr_supported (scale curr prev : Int)
    (hs : scale = 2 ∨ scale = 4) (hprev : prev ≠ 0)
    (hr : cdiv curr prev = 1 ∨ cdiv curr prev = 2) :
    upsample_alignment_func_ptr scale curr prev = .ok (some (scale, cdiv curr prev)) := by
  unfold upsample_alignment_func_ptr
  rcases hs with rfl | rfl <;> rcases hr with h | h <;> simp [hprev, h]

theorem upsample_alignment_func_ptr_unsupported (scale curr prev : Int)
    (hs : scale = 2 ∨ scale = 4) (hprev : prev ≠ 0)
    (hr : ¬ (cdiv curr prev = 1 ∨ cdiv curr prev = 2)) :
    upsample_alignment_func_ptr scale curr prev =
      .error (.runtime_error "Something wrong with upsampling function setting") := by
  unfold upsample_alignment_func_ptr
  have h1 : ¬ cdiv curr prev = 1 := fun h => hr (Or.inl h)
  have h2 : ¬ cdiv curr prev = 2 := fun h => hr (Or.inr h)
  rcases hs with rfl | rfl <;> simp [hprev, h1, h2]

/-- C17 (as stated, refuted): with pyramid ratio 4 and tile sizes 16 (current) and 4
(previous) the level aligner throws, although the ratios 4 and `16 / 4 = 4`
yield the positive integer repeat `4 / 4 = 1`; with tile sizes 8 (current) and
16 (previous) it throws as well, although the ratio of the coarse to the fine
tile size, `16 / 8 = 2`, yields the positive integer repeat `4 / 2 = 2`. -/
theorem level_aligner_rejects_positive_integer_repeat :
    align_image_level (const_plane 32 32 0) (const_plane 32 32 0) [[(0, 0)]] [] 4 16 4 1 2 =
      .error (.runtime_error "Something wrong with upsampling function setting") ∧
    cdiv 16 4 = 4 ∧ cdiv 4 (cdiv 16 4) = 1 ∧ (4 : Int) = 1 * cdiv 16 4 ∧
    align_image_level (const_plane 32 32 0) (const_plane 32 32 0) [[(0, 0)]] [] 4 8 16 1 1 =
      .error (.runtime_error "Something wrong with upsampling function setting") ∧
    cdiv 16 8 = 2 ∧ cdiv 4 (cdiv 16 8) = 2 ∧ (4 : Int) = 2 * cdiv 16 8 := by
  decide

/-- C17 (amended): for a pyramid ratio of 2 or 4 (and a non-zero previous tile size)
the level aligner throws exactly when the tile ratio
`curr_tile_size / prev_tile_size` is neither 1 nor 2, whatever
`pyramid_ratio / tile_ratio` is; for the four pairs (2, 1), (2, 2), (4, 1),
(4, 2), whose repeat is a positive integer that divides the pyramid ratio
exactly, the instance with these ratios is selected and its result on the
previous grid is the prior. -/
theorem level_aligner_throws_iff_tile_ratio_unsupported (scale curr prev : Int)
    (hs : scale = 2 ∨ scale = 4) (hprev : prev ≠ 0) :
    ((∃ e, upsample_alignment_func_ptr scale curr prev = .error e) ↔
      ¬ (cdiv curr prev = 1 ∨ cdiv curr prev = 2)) ∧
    (¬ (cdiv curr prev = 1 ∨ cdiv curr prev = 2) →
      ∀ (ref_img alt_img : Mat) (prev_aligement curr_alignment : Alignment) (r dt : Int),
        align_image_level ref_img alt_img prev_aligement curr_alignment scale curr prev r dt =
          .error (.runtime_error "Something wrong with upsampling function setting")) ∧
    ((cdiv curr prev = 1 ∨ cdiv curr prev = 2) →
      upsample_alignment_func_ptr scale curr prev = .ok (some (scale, cdiv curr prev)) ∧
      0 < cdiv scale (cdiv curr prev) ∧ scale = cdiv scale (cdiv curr prev) * cdiv curr prev ∧
      (prev ≠ -1 → ∀ (prev_aligement : Alignment) (num_tiles_h num_tiles_w : Int),
        upsampled_prior (some (scale, cdiv curr prev)) prev_aligement prev num_tiles_h num_tiles_w =
          build_upsampled_prev_aligement scale (cdiv curr prev) prev_aligement []
            num_tiles_h num_tiles_w)) := by
  refine ⟨?_, ?_, ?_⟩
  · constructor
    · rintro ⟨e, he⟩ hr
      rw [upsample_alignment_func_ptr_supported scale curr prev hs hprev hr] at he
      cases he
    · intro hr
      exact ⟨_, upsample_alignment_func_ptr_unsupported scale curr prev hs hprev hr⟩
  · intro hr ref_img alt_img prev_aligement curr_alignment r dt
    unfold align_image_level
    rw [upsample_alignment_func_ptr_unsupported scale curr prev hs hprev hr]
  · intro hr
    refine ⟨upsample_alignment_func_ptr_supported scale curr prev hs hprev hr, ?_, ?_, ?_⟩
    · rcases hs with rfl | rfl <;> rcases hr with h | h <;> rw [h] <;> decide
    · rcases hs with rfl | rfl <;> rcases hr with h | h <;> rw [h] <;> decide
    · intro hne prev_aligement num_tiles_h num_tiles_w
      unfold upsampled_prior
      rw [if_neg hne]

theorem level_aligner_throws_iff_tile_ratio_unsupported_witness :
    upsample_alignment_func_ptr 4 16 8 = .ok (some (4, cdiv 16 8)) ∧
    0 < cdiv 4 (cdiv 16 8) ∧ (4 : Int) = cdiv 4 (cdiv 16 8) * cdiv 16 8 ∧
    ((8 : Int) ≠ -1 → ∀ (prev_aligement : Alignment) (num_tiles_h num_tiles_w : Int),
      upsampled_prior (some (4, cdiv 16 8)) prev_aligement 8 num_tiles_h num_tiles_w =
        build_upsampled_prev_aligement 4 (cdiv 16 8) prev_aligement []
          num_tiles_h num_tiles_w) :=
  (level_aligner_throws_iff_tile_ratio_unsupported 4 16 8 (by decide) (by decide)).2.2
    (by decide)

/-! ## Level aligner: degenerate grid dimensions -/

theorem foldlM_range_const {σ : Type} (f : σ → Nat → Except Fault σ) (n : Nat) (s : σ)
    (h : ∀ k, k < n → f s k = .ok s) : (List.range n).foldlM f s = .ok s := by
  obtain ⟨s', hs', hP⟩ := foldlM_range_ok f (fun _ x => x = s) n s rfl
    (fun k a hk ha => ⟨s, by rw [ha]; exact h k hk, rfl⟩)
  rw [hs', hP]

theorem upsample_alignment_func_ptr_coarsest (scale T : Int) (h2 : scale ≠ 2) (h4 : scale ≠ 4) :
    upsample_alignment_func_ptr scale T (-1) = .ok none := by
  unfold upsample_alignment_func_ptr
  simp [h2, h4]

theorem half_tile (T : Int) (hT : T = 8 ∨ T = 16) :
    cdiv T 2 = T / 2 ∧ 0 < T / 2 ∧ T = 2 * (T / 2) := by
  rcases hT with rfl | rfl <;> decide

theorem num_tiles_eq (n : Nat) (T : Int) (hT : T = 8 ∨ T = 16) :
    cdiv (n : Int) (cdiv T 2) - 1 = (n : Int) / (T / 2) - 1 := by
  obtain ⟨h1, h2, _⟩ := half_tile T hT
  rw [h1, cdiv_nonneg_eq _ _ (by omega) (by omega)]

theorem resized_length {α : Type} (v : List α) (n : Nat) (x : α) :
    (List.take n v ++ List.replicate (n - v.length) x).length = n := by
  simp only [List.length_append, List.length_take, List.length_replicate]
  omega

theorem pyramid_step_length {blur : Mat → Int → Mat} {down : Int → Mat → Mat} {src : Mat}
    {factors : List Int} {pyr pyr' : List Mat} {i : Nat}
    (h : pyramid_step blur down src factors pyr i = .ok pyr') :
    pyr'.length = pyr.length ∧ ∃ f, factors[i]? = some f ∧ (f = 1 ∨ f = 2 ∨ f = 4) ∧
      (f = 1 → pyr' = pyr.set i src) ∧ (f ≠ 1 → 0 < i) ∧ ∃ m, pyr' = pyr.set i m := by
  unfold pyramid_step at h
  cases hf : factors[i]? with
  | none => rw [hf] at h; cases h
  | some f =>
    rw [hf] at h
    simp only at h
    refine ⟨?_, f, rfl, ?_⟩
    · split at h
      · split at h
        · cases h; simp
        · cases h
      · split at h
        · split at h
          · cases h
          · cases hp : pyr[i - 1]? with
            | none => rw [hp] at h; cases h
            | some prev =>
              rw [hp] at h
              simp only at h
              split at h
              · cases h; simp
              · cases h
        · cases h
    · split at h
      · rename_i h1
        split at h
        · cases h
          exact ⟨Or.inl h1, fun _ => rfl, fun hne => absurd h1 hne, _, rfl⟩
        · cases h
      · rename_i h1
        split at h
        · rename_i h24
          split at h
          · cases h
          · rename_i hi
            cases hp : pyr[i - 1]? with
            | none => rw [hp] at h; cases h
            | some prev =>
              rw [hp] at h
              simp only at h
              split at h
              · cases h
                exact ⟨Or.inr h24, fun h => absurd h h1, fun _ => by omega, _, rfl⟩
              · cases h
        · cases h

/-- A pyramid returned by `build_per_grayimg_pyramid` has one level per factor,
every factor is 1, 2 or 4, and the level of every factor 1 is the source. -/
theorem build_per_grayimg_pyramid_ok {blur : Mat → Int → Mat} {down : Int → Mat → Mat}
    {entry pyr : List Mat} {src : Mat} {factors : List Int}
    (h : build_per_grayimg_pyramid blur down entry src factors = .ok pyr) :
    pyr.length = factors.length ∧
    (∀ (i : Nat) (f : Int), factors[i]? = some f → f = 1 ∨ f = 2 ∨ f = 4) ∧
    (∀ i : Nat, factors[i]? = some 1 → pyr[i]? = some src) := by
  unfold build_per_grayimg_pyramid vector_resize at h
  have hn : ¬ ((factors.length : Int) < 0) := by omega
  simp only [hn, if_false] at h
  have hlen0 : (List.take (factors.length : Int).toNat entry ++
      List.replicate ((factors.length : Int).toNat - entry.length) empty_mat).length
      = factors.length := by
    rw [resized_length]; simp
  have := foldlM_range_inv _
    (fun k (p : List Mat) => p.length = factors.length ∧
      (∀ (i : Nat) (f : Int), i < k → factors[i]? = some f → f = 1 ∨ f = 2 ∨ f = 4) ∧
      (∀ i : Nat, i < k → factors[i]? = some 1 → p[i]? = some src))
    factors.length _ pyr ⟨hlen0, fun i f hi => by omega, fun i hi => by omega⟩
    (by
      intro k a b hk ⟨hl, hf, hs⟩ hstep
      obtain ⟨hlen, f, hfk, hval, hone, _, m, hm⟩ := pyramid_step_length hstep
      refine ⟨by rw [hlen, hl], ?_, ?_⟩
      · intro i f' hi hif
        by_cases hik : i = k
        · subst hik
          rw [hfk] at hif
          cases hif
          exact hval
        · exact hf i f' (by omega) hif
      · intro i hi hif
        by_cases hik : i = k
        · subst hik
          rw [hfk] at hif
          cases hif
          rw [hone rfl, List.getElem?_set]
          simp [hl, hk]
        · rw [hm, List.getElem?_set]
          have : ¬ k = i := fun h => hik h.symm
          simp only [this, if_false]
          exact hs i (by omega) hif)
    h
  obtain ⟨h1, h2, h3⟩ := this
  refine ⟨h1, ?_, ?_⟩
  · intro i f hif
    have hi : i < factors.length := (List.getElem?_eq_some_iff.1 hif).1
    exact h2 i f hi hif
  · intro i hif
    have hi : i < factors.length := (List.getElem?_eq_some_iff.1 hif).1
    exact h3 i hi hif

/-- For a factor sequence that begins with 1 and holds only 1, 2 and 4 the pyramid
builder returns. -/
theorem build_per_grayimg_pyramid_total (blur : Mat → Int → Mat) (down : Int → Mat → Mat)
    (entry : List Mat) (src : Mat) (rest : List Int)
    (hvalid : ∀ f ∈ rest, f = 1 ∨ f = 2 ∨ f = 4) :
    ∃ pyr, build_per_grayimg_pyramid blur down entry src (1 :: rest) = .ok pyr := by
  unfold build_per_grayimg_pyramid vector_resize
  have hn : ¬ (((1 :: rest).length : Int) < 0) := by omega
  simp only [hn, if_false]
  obtain ⟨pyr, hp, _⟩ := foldlM_range_ok
    (pyramid_step blur down src (1 :: rest))
    (fun _ (p : List Mat) => p.length = (1 :: rest).length) (1 :: rest).length
    (List.take ((1 :: rest).length : Int).toNat entry ++
      List.replicate (((1 :: rest).length : Int).toNat - entry.length) empty_mat)
    (by show List.length _ = _; rw [resized_length]; simp)
    (by
      intro k a hk ha
      unfold pyramid_step
      have hget : (1 :: rest)[k]? = some ((1 :: rest)[k]) := List.getElem?_eq_getElem hk
      rw [hget]
      simp only
      have hmem : (1 :: rest)[k] ∈ 1 :: rest := List.getElem_mem hk
      have hka : k < a.length := by rw [ha]; exact hk
      by_cases h1 : (1 :: rest)[k] = 1
      · rw [if_pos h1, if_pos hka]
        exact ⟨_, rfl, by simp [ha]⟩
      · have h24 : (1 :: rest)[k] = 2 ∨ (1 :: rest)[k] = 4 := by
          rcases List.mem_cons.1 hmem with h | h
          · exact absurd h h1
          · rcases hvalid _ h with h' | h' | h'
            · exact absurd h' h1
            · exact Or.inl h'
            · exact Or.inr h'
        have hk0 : ¬ k = 0 := by
          intro hk0
          subst hk0
          exact h1 rfl
        rw [if_neg h1, if_pos h24, if_neg hk0]
        have hprev : a[k - 1]? = some (a[k - 1]) := List.getElem?_eq_getElem (by omega)
        rw [hprev]
        simp only
        rw [if_pos hka]
        exact ⟨_, rfl, by simp [ha]⟩)
  exact ⟨pyr, hp⟩

/-- C18: `build_per_grayimg_pyramid` fails with an error if any entry of the factor
sequence is not 1, 2 or 4; on `[1, 3, 4, 4]` the error is the `runtime_error` of
line 66 for the factor 3; for a sequence that begins with 1 and whose entries
are all 1, 2 or 4 it returns a pyramid. -/
theorem pyramid_builder_rejects_invalid_factor (GaussianBlur : Mat → Int → Mat)
    (downsample_nearest_neighbour : Int → Mat → Mat) (images_pyramid : List Mat)
    (src_image : Mat) :
    (∀ factors : List Int, (∃ f ∈ factors, ¬ (f = 1 ∨ f = 2 ∨ f = 4)) →
      ∃ e, build_per_grayimg_pyramid GaussianBlur downsample_nearest_neighbour images_pyramid
        src_image factors = .error e) ∧
    build_per_grayimg_pyramid GaussianBlur downsample_nearest_neighbour [] src_image [1, 3, 4, 4]
      = .error (.runtime_error (invalid_factor_message 3)) ∧
    (∀ rest : List Int, (∀ f ∈ rest, f = 1 ∨ f = 2 ∨ f = 4) →
      ∃ pyramid, build_per_grayimg_pyramid GaussianBlur downsample_nearest_neighbour
        images_pyramid src_image (1 :: rest) = .ok pyramid) := by
  refine ⟨?_, rfl, fun rest hvalid =>
    build_per_grayimg_pyramid_total _ _ images_pyramid src_image rest hvalid⟩
  rintro factors ⟨f, hf, hbad⟩
  cases h : build_per_grayimg_pyramid GaussianBlur downsample_nearest_neighbour images_pyramid
      src_image factors with
  | error e => exact ⟨e, rfl⟩
  | ok pyr =>
    obtain ⟨i, hi, hget⟩ := List.getElem_of_mem hf
    have := (build_per_grayimg_pyramid_ok h).2.1 i f (by rw [List.getElem?_eq_getElem hi, hget])
    exact absurd this hbad

/-- C19: for every source plane and every factor sequence whose first entry is 1 (its
other entries being 1, 2 or 4, without which no pyramid is built),
`build_per_grayimg_pyramid` returns a pyramid that has exactly as many levels as
there are factors and whose level 0 is the source plane (same width, height
and samples). -/
theorem pyramid_level0_is_source (GaussianBlur : Mat → Int → Mat)
    (downsample_nearest_neighbour : Int → Mat → Mat) (images_pyramid : List Mat)
    (src_image : Mat) (rest : List Int) (hvalid : ∀ f ∈ rest, f = 1 ∨ f = 2 ∨ f = 4) :
    ∃ pyramid, build_per_grayimg_pyramid GaussianBlur downsample_nearest_neighbour images_pyramid
        src_image (1 :: rest) = .ok pyramid ∧
      pyramid.length = (1 :: rest).length ∧ pyramid[0]? = some src_image := by
  obtain ⟨pyramid, h⟩ := build_per_grayimg_pyramid_total GaussianBlur
    downsample_nearest_neighbour images_pyramid src_image rest hvalid
  obtain ⟨h1, _, h3⟩ := build_per_grayimg_pyramid_ok h
  exact ⟨pyramid, h, h1, h3 0 (by simp)⟩

theorem pyramid_level0_is_source_witness :
    ∃ pyramid, build_per_grayimg_pyramid (fun m _ => m) decimate [] (const_plane 64 64 7)
        (1 :: [2, 4, 4]) = .ok pyramid ∧
      pyramid.length = (1 :: [2, 4, 4] : List Int).length ∧
      pyramid[0]? = some (const_plane 64 64 7) :=
  pyramid_level0_is_source (fun m _ => m) decimate [] (const_plane 64 64 7) [2, 4, 4]
    (by decide)

/-! ## Burst aligner: what `align::process` returns -/

theorem levels_down_to_zero : levels_down_to 0 = [3, 2, 1, 0] := by decide

theorem bind_ok {α β : Type} {x : Except Fault α} {f : α → Except Fault β} {b : β}
    (h : (x >>= f) = .ok b) : ∃ a, x = .ok a ∧ f a = .ok b := by
  cases x with
  | error e => cases h
  | ok a => exact ⟨a, rfl, h⟩

theorem level_step_ok {ref_pyr alt_pyr : List Mat} {st st' : Alignment × Alignment} {L : Nat}
    (h : level_step ref_pyr alt_pyr st L = .ok st') :
    ∃ ref_img alt_img, ref_pyr[L]? = some ref_img ∧ alt_pyr[L]? = some alt_img ∧
      align_image_level ref_img alt_img st.1 [] (level_args L).scale_factor_prev_curr
        (level_args L).curr_tile_size (level_args L).prev_tile_size (level_args L).search_radiou
        (level_args L).distance_type = .ok st'.1 ∧ st'.2 = st.1 := by
  unfold level_step at h
  cases hr : ref_pyr[L]? with
  | none => rw [hr] at h; cases h
  | some ref_img =>
    cases ha : alt_pyr[L]? with
    | none => rw [hr, ha] at h; cases h
    | some alt_img =>
      rw [hr, ha] at h
      simp only at h
      cases hal : align_image_level ref_img alt_img st.1 [] (level_args L).scale_factor_prev_curr
        (level_args L).curr_tile_size (level_args L).prev_tile_size (level_args L).search_radiou
        (level_args L).distance_type with
      | error e => rw [hal] at h; cases h
      | ok g =>
        rw [hal] at h
        cases h
        exact ⟨ref_img, alt_img, rfl, rfl, hal, rfl⟩

/-- The grid `align_levels` returns is the one returned by the call of
`align_image_level` at level 0. -/
theorem align_levels_ok {ref_pyr alt_pyr : List Mat} {g : Alignment}
    (h : align_levels ref_pyr alt_pyr = .ok g) :
    ∃ ref_img alt_img prev, ref_pyr[0]? = some ref_img ∧ alt_pyr[0]? = some alt_img ∧
      align_image_level ref_img alt_img prev [] 2 16 16 1 2 = .ok g := by
  unfold align_levels at h
  have hl : (List.range num_levels).reverse = [3, 2, 1, 0] := by decide
  rw [hl] at h
  cases hf : List.foldlM (level_step ref_pyr alt_pyr) (([], []) : Alignment × Alignment)
      [3, 2, 1, 0] with
  | error e => rw [hf] at h; cases h
  | ok st =>
    rw [hf] at h
    cases h
    simp only [List.foldlM_cons, List.foldlM_nil] at hf
    obtain ⟨s3, _, hf⟩ := bind_ok hf
    obtain ⟨s2, _, hf⟩ := bind_ok hf
    obtain ⟨s1, _, hf⟩ := bind_ok hf
    obtain ⟨s0, h0, hf⟩ := bind_ok hf
    cases hf
    obtain ⟨ref_img, alt_img, hr, ha, hal, _⟩ := level_step_ok h0
    exact ⟨ref_img, alt_img, s1.1, hr, ha, hal⟩

theorem build_pyramids_ok {blur : Mat → Int → Mat} {down : Int → Mat → Mat} {imgs : List Mat}
    {N : Nat} {pyrs : List (List Mat)} (h : build_pyramids blur down imgs N = .ok pyrs) :
    pyrs.length = N ∧ ∀ k : Nat, k < N → ∃ img pyr, imgs[k]? = some img ∧
      build_per_grayimg_pyramid blur down [] img inv_scale_factors = .ok pyr ∧
      pyrs[k]? = some pyr := by
  unfold build_pyramids at h
  have := foldlM_range_inv _
    (fun n (p : List (List Mat)) => p.length = N ∧ ∀ k : Nat, k < n → ∃ img pyr,
      imgs[k]? = some img ∧
      build_per_grayimg_pyramid blur down [] img inv_scale_factors = .ok pyr ∧
      p[k]? = some pyr)
    N _ pyrs ⟨by simp, fun k hk => by omega⟩
    (by
      intro n a b hn ⟨hl, hprev⟩ hstep
      cases hi : imgs[n]? with
      | none => rw [hi] at hstep; cases hstep
      | some img =>
        rw [hi] at hstep
        simp only at hstep
        cases hb : build_per_grayimg_pyramid blur down [] img inv_scale_factors with
        | error e => rw [hb] at hstep; cases hstep
        | ok pyr =>
          rw [hb] at hstep
          cases hstep
          refine ⟨by simp [hl], ?_⟩
          intro k hk
          by_cases hkn : k = n
          · subst hkn
            exact ⟨img, pyr, hi, hb, by rw [List.getElem?_set]; simp [hl, hn]⟩
          · obtain ⟨img', pyr', h1, h2, h3⟩ := hprev k (by omega)
            refine ⟨img', pyr', h1, h2, ?_⟩
            rw [List.getElem?_set]
            have : ¬ n = k := fun h => hkn h.symm
            simp only [this, if_false]
            exact h3)
    h
  exact this

theorem align_frames_ok {pyrs : List (List Mat)} {N ref : Nat} {entry out : List Alignment}
    (h : align_frames pyrs N ref entry = .ok out) :
    out.length = entry.length ∧ ∃ ref_pyr, pyrs[ref]? = some ref_pyr ∧
      (∀ k : Nat, N ≤ k ∨ k = ref → out[k]? = entry[k]?) ∧
      (∀ k : Nat, k < N → k ≠ ref → ∃ alt_pyr g, pyrs[k]? = some alt_pyr ∧
        align_levels ref_pyr alt_pyr = .ok g ∧ out[k]? = some g) := by
  unfold align_frames at h
  cases hr : pyrs[ref]? with
  | none => rw [hr] at h; cases h
  | some ref_pyr =>
    rw [hr] at h
    simp only at h
    have := foldlM_range_inv _
      (fun n (a : List Alignment) => a.length = entry.length ∧
        (∀ k : Nat, n ≤ k ∨ k = ref → a[k]? = entry[k]?) ∧
        (∀ k : Nat, k < n → k ≠ ref → ∃ alt_pyr g, pyrs[k]? = some alt_pyr ∧
          align_levels ref_pyr alt_pyr = .ok g ∧ a[k]? = some g))
      N entry out ⟨rfl, fun _ _ => rfl, fun k hk => by omega⟩
      (by
        intro n a b hn ⟨hl, hkeep, hdone⟩ hstep
        by_cases hnr : n = ref
        · rw [if_pos hnr] at hstep
          cases hstep
          refine ⟨hl, fun k hk => hkeep k (by omega), fun k hk hkr => hdone k (by omega) hkr⟩
        · rw [if_neg hnr] at hstep
          cases hp : pyrs[n]? with
          | none => rw [hp] at hstep; cases hstep
          | some alt_pyr =>
            rw [hp] at hstep
            simp only at hstep
            cases hal : align_levels ref_pyr alt_pyr with
            | error e => rw [hal] at hstep; cases hstep
            | ok g =>
              rw [hal] at hstep
              simp only at hstep
              split at hstep
              · rename_i hlt
                cases hstep
                refine ⟨by simp [hl], ?_, ?_⟩
                · intro k hk
                  rw [List.getElem?_set]
                  have : ¬ n = k := by omega
                  simp only [this, if_false]
                  exact hkeep k (by omega)
                · intro k hk hkr
                  by_cases hkn : k = n
                  · subst hkn
                    exact ⟨alt_pyr, g, hp, hal, by rw [List.getElem?_set]; simp [hlt]⟩
                  · obtain ⟨p', g', h1, h2, h3⟩ := hdone k (by omega) hkr
                    refine ⟨p', g', h1, h2, ?_⟩
                    rw [List.getElem?_set]
                    have : ¬ n = k := fun h => hkn h.symm
                    simp only [this, if_false]
                    exact h3
              · cases hstep)
      h
    exact ⟨this.1, ref_pyr, rfl, this.2.1, this.2.2⟩

/-- C16: `align::process` returns one entry per burst frame.  For every frame `k`
other than the reference, the entry is the grid returned by the last call of
`align_image_level` (level 0: the two source planes, tile size 16), of shape
`(floor(h0/8) - 1, floor(w0/8) - 1)`; the entry of the reference frame is the
empty grid; the content of the output vector at entry has no influence. -/
theorem process_returns_level0_grids (GaussianBlur : Mat → Int → Mat)
    (downsample_nearest_neighbour : Int → Mat → Mat) (grayscale_images_pad : List Mat)
    (num_images reference_image_idx : Nat) (images_alignment out : List Alignment)
    (h : process GaussianBlur downsample_nearest_neighbour grayscale_images_pad num_images
      reference_image_idx images_alignment = .ok out) :
    out.length = num_images ∧
    out[reference_image_idx]? = some [] ∧
    process GaussianBlur downsample_nearest_neighbour grayscale_images_pad num_images
      reference_image_idx [] = .ok out ∧
    ∃ ref_img, grayscale_images_pad[reference_image_idx]? = some ref_img ∧
      ∀ k : Nat, k < num_images → k ≠ reference_image_idx →
        ∃ alt_img prev grid, grayscale_images_pad[k]? = some alt_img ∧
          align_image_level ref_img alt_img prev [] 2 16 16 1 2 = .ok grid ∧
          out[k]? = some grid ∧
          (grid.length : Int) = (ref_img.height : Int) / 8 - 1 ∧
          ∀ row ∈ grid, (row.length : Int) = (ref_img.width : Int) / 8 - 1 := by
  have hsame : process GaussianBlur downsample_nearest_neighbour grayscale_images_pad num_images
      reference_image_idx images_alignment =
      process GaussianBlur downsample_nearest_neighbour grayscale_images_pad num_images
      reference_image_idx [] := rfl
  refine ⟨?_, ?_, by rw [← hsame]; exact h, ?_⟩ <;>
  · unfold process vector_resize vector_clear at h
    have hn : ¬ ((num_images : Int) < 0) := by omega
    simp only [hn, if_false, List.take_nil, List.nil_append, List.length_nil, Nat.sub_zero,
      Int.toNat_ofNat] at h
    cases hb : build_pyramids GaussianBlur downsample_nearest_neighbour grayscale_images_pad
        num_images with
    | error e => rw [hb] at h; cases h
    | ok pyrs =>
      rw [hb] at h
      simp only at h
      obtain ⟨hlen, hpyr⟩ := build_pyramids_ok hb
      obtain ⟨hol, ref_pyr, href, hkeep, hdone⟩ := align_frames_ok h
      have hrefN : reference_image_idx < num_images := by
        rw [← hlen]
        exact (List.getElem?_eq_some_iff.1 href).1
      first
      | (simp only [List.length_replicate] at hol; exact hol)
      | (rw [hkeep reference_image_idx (Or.inr rfl), List.getElem?_replicate, if_pos hrefN])
      | (obtain ⟨ref_img, ref_pyr', hri, hrb, hrp⟩ := hpyr reference_image_idx hrefN
         rw [href] at hrp
         cases hrp
         refine ⟨ref_img, hri, ?_⟩
         intro k hk hkr
         obtain ⟨alt_pyr, g, hap, hal, hout⟩ := hdone k hk hkr
         obtain ⟨alt_img, alt_pyr', hai, hab, hap'⟩ := hpyr k hk
         rw [hap] at hap'
         cases hap'
         obtain ⟨r0, a0, prev, hr0, ha0, hcall⟩ := align_levels_ok hal
         have hr0' := (build_per_grayimg_pyramid_ok hrb).2.2 0 (by decide)
         have ha0' := (build_per_grayimg_pyramid_ok hab).2.2 0 (by decide)
         rw [hr0] at hr0'
         rw [ha0] at ha0'
         cases hr0'
         cases ha0'
         obtain ⟨_, hH, hW, _, _, _, _, _, _, hinv⟩ := align_image_level_ok hcall
         obtain ⟨hgl, hgr⟩ := hinv.shape.replicate
         have e1 := num_tiles_eq ref_img.height 16 (Or.inr rfl)
         have e2 := num_tiles_eq ref_img.width 16 (Or.inr rfl)
         have e3 : (16 : Int) / 2 = 8 := by decide
         rw [e1, e3] at hH hgl
         rw [e2, e3] at hW hgr
         exact ⟨alt_img, prev, g, hai, hcall, hout, by omega,
           fun row hrow => by have := hgr row hrow; omega⟩)

theorem process_returns_level0_grids_witness :
    ([[], List.replicate 31 []] : List Alignment).length = 2 ∧
    ([[], List.replicate 31 []] : List Alignment)[0]? = some [] ∧
    process (fun m _ => m) thin_down [const_plane 256 12 0, const_plane 256 12 9] 2 0 [] =
      .ok [[], List.replicate 31 []] ∧
    ∃ ref_img, [const_plane 256 12 0, const_plane 256 12 9][0]? = some ref_img ∧
      ∀ k : Nat, k < 2 → k ≠ 0 →
        ∃ alt_img prev grid, [const_plane 256 12 0, const_plane 256 12 9][k]? = some alt_img ∧
          align_image_level ref_img alt_img prev [] 2 16 16 1 2 = .ok grid ∧
          ([[], List.replicate 31 []] : List Alignment)[k]? = some grid ∧
          (grid.length : Int) = (ref_img.height : Int) / 8 - 1 ∧
          ∀ row ∈ grid, (row.length : Int) = (ref_img.width : Int) / 8 - 1 :=
  process_returns_level0_grids (fun m _ => m) thin_down
    [const_plane 256 12 0, const_plane 256 12 9] 2 0 [[[(5, 5)]]] [[], List.replicate 31 []]
    (by decide!)

/-! ## Level aligner: when it returns -/

/-- The search of a tile returns as soon as every candidate of its window has a
distance. -/
theorem search_tile_total {dist : Option DistanceFn} {ref_img pad : Mat} {rr rc ar ac r : Int}
    (hd : ∀ a b : Nat, a < (r * 2 + 1).toNat → b < (r * 2 + 1).toNat →
      ∃ v, candidate_distance dist ref_img pad rr rc ar ac a b = .ok v) :
    ∃ st, search_tile dist ref_img pad rr rc ar ac r = .ok st := by
  have hrow : ∀ (a : Nat) (x : SearchState), a < (r * 2 + 1).toNat →
      ∃ y, search_row dist ref_img pad rr rc ar ac r a x = .ok y := by
    intro a x ha
    unfold search_row
    obtain ⟨s, hs, _⟩ := foldlM_range_ok
      (fun st search_col_j => search_step dist ref_img pad rr rc ar ac a search_col_j st)
      (fun _ _ => True) (r * 2 + 1).toNat x trivial (by
        intro b y hb _
        show ∃ z, search_step dist ref_img pad rr rc ar ac a b y = .ok z ∧ True
        rw [search_step_eq]
        obtain ⟨v, hv⟩ := hd a b ha hb
        rw [hv]
        by_cases hlt : v < y.min_distance_i
        · exact ⟨⟨v, a, b⟩, by simp only [hlt, if_true], trivial⟩
        · exact ⟨y, by simp only [hlt, if_false], trivial⟩)
    exact ⟨s, hs⟩
  unfold search_tile
  obtain ⟨s, hs, _⟩ := foldlM_range_ok
    (fun st search_row_j => search_row dist ref_img pad rr rc ar ac r search_row_j st)
    (fun _ _ => True) (r * 2 + 1).toNat ⟨ULONG_LONG_MAX, -1, -1⟩ trivial (by
      intro a x ha _
      show ∃ z, search_row dist ref_img pad rr rc ar ac r a x = .ok z ∧ True
      obtain ⟨y, hy⟩ := hrow a x ha
      exact ⟨y, hy, trivial⟩)
  exact ⟨s, hs⟩

/-- The distance the kernel selected by `distance_func_ptr` returns for a candidate
whose two tile origins are in range: the accumulated sum of that kernel. -/
theorem candidate_distance_in_range {T dt : Int} (hT : T = 8 ∨ T = 16) (hdt : dt = 1 ∨ dt = 2)
    (ref_img pad : Mat) (rr rc ar ac : Int) (a b : Nat)
    (h1 : 0 ≤ rr ∧ rr ≤ (ref_img.height : Int) - T) (h2 : 0 ≤ rc ∧ rc ≤ (ref_img.width : Int) - T)
    (h3 : 0 ≤ ar + a ∧ ar + a ≤ (pad.height : Int) - T)
    (h4 : 0 ≤ ac + b ∧ ac + b ≤ (pad.width : Int) - T) :
    candidate_distance (distance_func_ptr dt T) ref_img pad rr rc ar ac a b =
      .ok (if dt = 1 then l1_sum T.toNat ref_img pad rr rc (ar + a) (ac + b)
        else l2_sum T.toNat ref_img pad rr rc (ar + a) (ac + b)) := by
  rcases hT with rfl | rfl <;> rcases hdt with rfl | rfl
  · show l1_distance 8 ref_img pad rr rc (ar + a) (ac + b) = _
    rw [l1_distance_of_in_range _ _ _ _ _ _ _
      ((range_check_ok_iff 8 _ _ _ _ _ _).2 ⟨h1, h2, h3, h4⟩)]
    rfl
  · show l2_distance 8 ref_img pad rr rc (ar + a) (ac + b) = _
    rw [l2_distance_of_in_range _ _ _ _ _ _ _
      ((range_check_ok_iff 8 _ _ _ _ _ _).2 ⟨h1, h2, h3, h4⟩)]
    rfl
  · show l1_distance 16 ref_img pad rr rc (ar + a) (ac + b) = _
    rw [l1_distance_of_in_range _ _ _ _ _ _ _
      ((range_check_ok_iff 16 _ _ _ _ _ _).2 ⟨h1, h2, h3, h4⟩)]
    rfl
  · show l2_distance 16 ref_img pad rr rc (ar + a) (ac + b) = _
    rw [l2_distance_of_in_range _ _ _ _ _ _ _
      ((range_check_ok_iff 16 _ _ _ _ _ _).2 ⟨h1, h2, h3, h4⟩)]
    rfl

theorem clamp_start_range (x m : Int) (hm : 0 ≤ m) :
    0 ≤ clamp_start x m ∧ clamp_start x m ≤ m := by
  unfold clamp_start
  simp only
  split <;> split <;> omega

theorem clamp_start_id (x m : Int) (h0 : 0 ≤ x) (hm : x ≤ m) : clamp_start x m = x := by
  unfold clamp_start
  simp only
  rw [if_neg (by omega), if_neg (by omega)]

theorem tile_origin (i : Nat) (T : Int) (hT : T = 8 ∨ T = 16) :
    cdiv (i * T) 2 = i * (T / 2) := by
  rcases hT with rfl | rfl
  · rw [cdiv_nonneg_eq _ _ (by omega) (by omega)]; omega
  · rw [cdiv_nonneg_eq _ _ (by omega) (by omega)]; omega

/-- The origin of tile `i` of a plane is in range for the kernels. -/
theorem tile_origin_in_range (i n : Nat) (T : Int) (hT : T = 8 ∨ T = 16)
    (hi : (i : Int) < (n : Int) / (T / 2) - 1) :
    0 ≤ (i : Int) * (T / 2) ∧ (i : Int) * (T / 2) ≤ (n : Int) - T := by
  rcases hT with rfl | rfl
  · norm_num at hi ⊢; omega
  · norm_num at hi ⊢; omega

/-- The entry of a tile is computed whenever the prior has a cell for it and the
alternate plane is at least one tile wide and high. -/
theorem align_tile_total {T dt r : Int} (hT : T = 8 ∨ T = 16) (hdt : dt = 1 ∨ dt = 2)
    {ref_img alt_img pad : Mat} {up : Alignment}
    (hb : copyMakeBorder alt_img r r r r UINT_LEAST16_MAX = .ok pad)
    (halt : T ≤ alt_img.height ∧ T ≤ alt_img.width)
    (i j : Nat) (hi : (i : Int) < (ref_img.height : Int) / (T / 2) - 1)
    (hj : (j : Int) < (ref_img.width : Int) / (T / 2) - 1)
    (hc : cell up i j ≠ none) :
    ∃ v, align_tile (distance_func_ptr dt T) ref_img pad up T r i j = .ok v := by
  obtain ⟨hr, _, _, _, hph, hpw, _⟩ := copyMakeBorder_ok hb
  unfold align_tile
  rw [read_cell_eq]
  cases hc' : cell up i j with
  | none => exact absurd hc' hc
  | some prior =>
    simp only
    have h1 := tile_origin_in_range i ref_img.height T hT hi
    have h2 := tile_origin_in_range j ref_img.width T hT hj
    rw [← tile_origin i T hT] at h1
    rw [← tile_origin j T hT] at h2
    have h3 := clamp_start_range (cdiv (i * T) 2 + prior.1) ((pad.height : Int) - (T + 2 * r))
      (by omega)
    have h4 := clamp_start_range (cdiv (j * T) 2 + prior.2) ((pad.width : Int) - (T + 2 * r))
      (by omega)
    obtain ⟨st, hst⟩ := @search_tile_total (distance_func_ptr dt T) ref_img
      pad (cdiv (i * T) 2) (cdiv (j * T) 2)
      (clamp_start (cdiv (i * T) 2 + prior.1) ((pad.height : Int) - (T + 2 * r)))
      (clamp_start (cdiv (j * T) 2 + prior.2) ((pad.width : Int) - (T + 2 * r))) r
      (fun a b ha hb' => ⟨_, candidate_distance_in_range hT hdt ref_img pad _ _ _ _ a b h1 h2
        (by omega) (by omega)⟩)
    rw [hst]
    exact ⟨_, rfl⟩

/-- A call of `align_image_level` on a cleared output vector returns a grid when the
tile size is 8 or 16, the metric is L1 or L2, the radius is not negative, the
upsampler is selected, the grid dimensions are not negative, the prior is
built and has a cell for every tile, and the alternate plane is at least one
tile wide and high whenever there is a tile. -/
theorem align_image_level_total {ref_img alt_img : Mat} {prev up : Alignment}
    {scale T pts r dt : Int} {upsample : Option (Int × Int)}
    (hT : T = 8 ∨ T = 16) (hdt : dt = 1 ∨ dt = 2) (hr : 0 ≤ r)
    (hu : upsample_alignment_func_ptr scale T pts = .ok upsample)
    (hH : 0 ≤ (ref_img.height : Int) / (T / 2) - 1) (hW : 0 ≤ (ref_img.width : Int) / (T / 2) - 1)
    (hp : upsampled_prior upsample prev pts ((ref_img.height : Int) / (T / 2) - 1)
      ((ref_img.width : Int) / (T / 2) - 1) = .ok up)
    (hc : ∀ i j : Nat, (i : Int) < (ref_img.height : Int) / (T / 2) - 1 →
      (j : Int) < (ref_img.width : Int) / (T / 2) - 1 → cell up i j ≠ none)
    (halt : 0 < (ref_img.height : Int) / (T / 2) - 1 → 0 < (ref_img.width : Int) / (T / 2) - 1 →
      T ≤ alt_img.height ∧ T ≤ alt_img.width) :
    ∃ out, align_image_level ref_img alt_img prev [] scale T pts r dt = .ok out := by
  have hHe := num_tiles_eq ref_img.height T hT
  have hWe := num_tiles_eq ref_img.width T hT
  have hhalf : cdiv T 2 ≠ 0 := by
    obtain ⟨h1, h2, _⟩ := half_tile T hT
    omega
  unfold align_image_level
  rw [hu]
  simp only [if_neg hhalf, hHe, hWe, hp]
  rw [resize_zero_nil_ok _ _ hH hW]
  simp only
  cases hb : copyMakeBorder alt_img r r r r UINT_LEAST16_MAX with
  | error e =>
    unfold copyMakeBorder at hb
    rw [if_neg (by omega)] at hb
    cases hb
  | ok pad =>
    simp only
    obtain ⟨out, hout, _⟩ := foldlM_range_ok
      (fun curr ref_tile_row_i =>
        align_row (distance_func_ptr dt T) ref_img pad up T r
          ((ref_img.width : Int) / (T / 2) - 1) ref_tile_row_i curr)
      (fun _ g => SameShape (List.replicate ((ref_img.height : Int) / (T / 2) - 1).toNat
        (List.replicate ((ref_img.width : Int) / (T / 2) - 1).toNat (0, 0))) g)
      ((ref_img.height : Int) / (T / 2) - 1).toNat _ (SameShape.refl _) (by
        intro i x hi hx
        show ∃ y, align_row (distance_func_ptr dt T) ref_img pad up T r
          ((ref_img.width : Int) / (T / 2) - 1) i x = .ok y ∧ SameShape _ y
        unfold align_row
        refine foldlM_range_ok _ (fun _ g => SameShape (List.replicate
          ((ref_img.height : Int) / (T / 2) - 1).toNat
          (List.replicate ((ref_img.width : Int) / (T / 2) - 1).toNat (0, 0))) g)
          ((ref_img.width : Int) / (T / 2) - 1).toNat x hx ?_
        intro j y hj hy
        show ∃ z, align_cell (distance_func_ptr dt T) ref_img pad up T r i j y = .ok z
          ∧ SameShape _ z
        unfold align_cell
        obtain ⟨v, hv⟩ := @align_tile_total T dt r hT hdt ref_img alt_img pad up hb
          (halt (by omega) (by omega)) i j (by omega) (by omega)
          (hc i j (by omega) (by omega))
        rw [hv]
        simp only
        obtain ⟨z, hz⟩ := write_cell_total .out_of_range y i j v
          ((hy.cell_ne_none i j).2 (by
            rw [cell_replicate, if_pos ⟨hi, hj⟩]; simp))
        exact ⟨z, hz, hy.trans (write_cell_ok hz).1⟩)
    exact ⟨out, hout⟩

/-! ## Distance kernels: zero and non-zero sums -/

/-- Both kernels accumulate zero over two windows that hold the same samples. -/
theorem kernel_sum_zero (T : Nat) (hT : T ≤ 65536) (dt : Int) (img1 img2 : Mat)
    (r1 c1 r2 c2 : Int)
    (hsame : ∀ k l : Nat, k < T → l < T → img1.px (r1 + k) (c1 + l) = img2.px (r2 + k) (c2 + l)) :
    (if dt = 1 then l1_sum T img1 img2 r1 c1 r2 c2 else l2_sum T img1 img2 r1 c1 r2 c2) = 0 := by
  have hz : ∀ k l : Nat, k < T → l < T →
      Int.natAbs (((img1.px (r1 + k) (c1 + l)).val : Int) -
        ((img2.px (r2 + k) (c2 + l)).val : Int)) = 0 := by
    intro k l hk hl
    rw [hsame k l hk hl]
    simp
  split
  · rw [l1_sum_exact T hT]
    exact Finset.sum_eq_zero (fun k hk => Finset.sum_eq_zero (fun l hl =>
      hz k l (Finset.mem_range.1 hk) (Finset.mem_range.1 hl)))
  · rw [l2_sum_exact_of_small T hT _ _ _ _ _ _ (fun k l hk hl => by rw [hz k l hk hl]; omega)]
    exact Finset.sum_eq_zero (fun k hk => Finset.sum_eq_zero (fun l hl => by
      rw [hz k l (Finset.mem_range.1 hk) (Finset.mem_range.1 hl)]; rfl))

/-- Both kernels accumulate a positive sum over two windows that differ in some
sample, when no two corresponding samples differ by more than 46340. -/
theorem kernel_sum_pos (T : Nat) (hT : T ≤ 65536) (dt : Int) (img1 img2 : Mat)
    (r1 c1 r2 c2 : Int)
    (hsmall : ∀ k l : Nat, k < T → l < T →
      Int.natAbs (((img1.px (r1 + k) (c1 + l)).val : Int) -
        ((img2.px (r2 + k) (c2 + l)).val : Int)) ≤ 46340)
    (k l : Nat) (hk : k < T) (hl : l < T)
    (hdiff : img1.px (r1 + k) (c1 + l) ≠ img2.px (r2 + k) (c2 + l)) :
    0 < (if dt = 1 then l1_sum T img1 img2 r1 c1 r2 c2 else l2_sum T img1 img2 r1 c1 r2 c2) := by
  have hpos : 0 < Int.natAbs (((img1.px (r1 + k) (c1 + l)).val : Int) -
      ((img2.px (r2 + k) (c2 + l)).val : Int)) := by
    have : (img1.px (r1 + k) (c1 + l)).val ≠ (img2.px (r2 + k) (c2 + l)).val :=
      fun h => hdiff (Fin.ext h)
    omega
  split
  · rw [l1_sum_exact T hT]
    calc 0 < _ := hpos
      _ ≤ ∑ j ∈ Finset.range T, Int.natAbs (((img1.px (r1 + k) (c1 + j)).val : Int) -
            ((img2.px (r2 + k) (c2 + j)).val : Int)) :=
          Finset.single_le_sum (f := fun j : Nat => Int.natAbs
            (((img1.px (r1 + k) (c1 + j)).val : Int) - ((img2.px (r2 + k) (c2 + j)).val : Int)))
            (fun _ _ => Nat.zero_le _) (Finset.mem_range.2 hl)
      _ ≤ _ :=
          Finset.single_le_sum (f := fun i : Nat => ∑ j ∈ Finset.range T, Int.natAbs
            (((img1.px (r1 + i) (c1 + j)).val : Int) - ((img2.px (r2 + i) (c2 + j)).val : Int)))
            (fun _ _ => Nat.zero_le _) (Finset.mem_range.2 hk)
  · rw [l2_sum_exact_of_small T hT _ _ _ _ _ _ hsmall]
    calc 0 < Int.natAbs (((img1.px (r1 + k) (c1 + l)).val : Int) -
            ((img2.px (r2 + k) (c2 + l)).val : Int)) ^ 2 := by positivity
      _ ≤ ∑ j ∈ Finset.range T, Int.natAbs (((img1.px (r1 + k) (c1 + j)).val : Int) -
            ((img2.px (r2 + k) (c2 + j)).val : Int)) ^ 2 :=
          Finset.single_le_sum (f := fun j : Nat => Int.natAbs
            (((img1.px (r1 + k) (c1 + j)).val : Int) - ((img2.px (r2 + k) (c2 + j)).val : Int)) ^ 2)
            (fun _ _ => Nat.zero_le _) (Finset.mem_range.2 hl)
      _ ≤ _ :=
          Finset.single_le_sum (f := fun i : Nat => ∑ j ∈ Finset.range T, Int.natAbs
            (((img1.px (r1 + i) (c1 + j)).val : Int) - ((img2.px (r2 + i) (c2 + j)).val : Int)) ^ 2)
            (fun _ _ => Nat.zero_le _) (Finset.mem_range.2 hk)

/-- The search of a tile ends on the first candidate, in scan order, whose
distance is zero. -/
theorem search_tile_first_zero {dist : Option DistanceFn} {ref_img pad : Mat}
    {rr rc ar ac r : Int} {st : SearchState}
    (hrun : search_tile dist ref_img pad rr rc ar ac r = .ok st)
    (a0 b0 : Nat) (ha0 : (a0 : Int) ≤ 2 * r) (hb0 : (b0 : Int) ≤ 2 * r)
    (hzero : candidate_distance dist ref_img pad rr rc ar ac a0 b0 = .ok 0)
    (hfirst : ∀ (a' b' : Nat) (v : Nat), (b' : Int) ≤ 2 * r → (a' < a0 ∨ (a' = a0 ∧ b' < b0)) →
      candidate_distance dist ref_img pad rr rc ar ac a' b' = .ok v → 0 < v) :
    st = ⟨0, a0, b0⟩ := by
  have hM : (0 : Nat) < ULONG_LONG_MAX := by decide
  obtain ⟨a, b, ha, hb, hst, hd, hmin, hlt⟩ :=
    search_tile_first_min hrun ⟨a0, b0, ha0, hb0, 0, hzero, hM⟩
  have hm : st.min_distance_i = 0 := by
    have := hmin a0 b0 0 ha0 hb0 hzero
    omega
  rw [hm] at hd hlt hst
  have h1 : ¬ (a < a0 ∨ (a = a0 ∧ b < b0)) := by
    intro hlex
    have := hfirst a b 0 hb hlex hd
    omega
  have h2 : ¬ (a0 < a ∨ (a0 = a ∧ b0 < b)) := by
    intro hlex
    have := hlt a0 b0 0 hb0 hlex hzero
    omega
  have ha' : a = a0 := by omega
  have hb' : b = b0 := by omega
  rw [hst, ha', hb']

/-! ## Level aligner: planes of equal size under an all-zero prior -/

/-- With an all-zero prior and an alternate plane of the size of the reference,
the alternate origin of tile (i, j) in the padded plane is the reference
origin `(i*T/2, j*T/2)`: the clamp leaves it unchanged. -/
theorem tile_distance_zero_prior {T r : Int} (hT : T = 8 ∨ T = 16)
    (dist : Option DistanceFn) {ref_img alt_img pad : Mat}
    (hb : copyMakeBorder alt_img r r r r UINT_LEAST16_MAX = .ok pad)
    (hdim : alt_img.height = ref_img.height ∧ alt_img.width = ref_img.width)
    (i j : Nat) (hi : (i : Int) < (ref_img.height : Int) / (T / 2) - 1)
    (hj : (j : Int) < (ref_img.width : Int) / (T / 2) - 1) (a b : Nat) :
    tile_distance dist ref_img pad T r (0, 0) i j a b =
      candidate_distance dist ref_img pad (i * (T / 2)) (j * (T / 2))
        (i * (T / 2)) (j * (T / 2)) a b := by
  obtain ⟨hr, _, _, _, hph, hpw, _⟩ := copyMakeBorder_ok hb
  have h1 := tile_origin_in_range i ref_img.height T hT hi
  have h2 := tile_origin_in_range j ref_img.width T hT hj
  unfold tile_distance
  simp only [add_zero]
  rw [tile_origin i T hT, tile_origin j T hT,
    clamp_start_id _ _ h1.1 (by rw [hph, hdim.1]; omega),
    clamp_start_id _ _ h2.1 (by rw [hpw, hdim.2]; omega)]

/-- With an all-zero prior and an alternate plane of the size of the reference,
`align_image_level` returns a grid, and the entry of every tile is the pair of
indices its search ended with, minus the search radius. -/
theorem zero_prior_entry {ref_img alt_img : Mat} {prev : Alignment}
    {scale T pts r dt : Int} {upsample : Option (Int × Int)}
    (hT : T = 8 ∨ T = 16) (hdt : dt = 1 ∨ dt = 2) (hr : 0 ≤ r)
    (hu : upsample_alignment_func_ptr scale T pts = .ok upsample)
    (hH : 0 ≤ (ref_img.height : Int) / (T / 2) - 1) (hW : 0 ≤ (ref_img.width : Int) / (T / 2) - 1)
    (hp : upsampled_prior upsample prev pts ((ref_img.height : Int) / (T / 2) - 1)
      ((ref_img.width : Int) / (T / 2) - 1) =
        .ok (List.replicate ((ref_img.height : Int) / (T / 2) - 1).toNat
          (List.replicate ((ref_img.width : Int) / (T / 2) - 1).toNat (0, 0))))
    (hdim : alt_img.height = ref_img.height ∧ alt_img.width = ref_img.width) :
    ∃ out pad, align_image_level ref_img alt_img prev [] scale T pts r dt = .ok out ∧
      copyMakeBorder alt_img r r r r UINT_LEAST16_MAX = .ok pad ∧
      ∀ i j : Nat, (i : Int) < (ref_img.height : Int) / (T / 2) - 1 →
        (j : Int) < (ref_img.width : Int) / (T / 2) - 1 →
        ∃ st, search_tile (distance_func_ptr dt T) ref_img pad (i * (T / 2)) (j * (T / 2))
            (i * (T / 2)) (j * (T / 2)) r = .ok st ∧
          cell out i j = some (st.min_distance_row_i - r, st.min_distance_col_i - r) := by
  have hHe := num_tiles_eq ref_img.height T hT
  have hWe := num_tiles_eq ref_img.width T hT
  obtain ⟨out, hout⟩ := @align_image_level_total ref_img alt_img prev _ scale T pts r dt
    upsample hT hdt hr hu hH hW hp
    (fun i j hi hj => by rw [cell_replicate, if_pos ⟨by omega, by omega⟩]; simp)
    (fun h1 h2 => by
      rw [hdim.1, hdim.2]
      rcases hT with rfl | rfl
      · norm_num at h1 h2 ⊢; omega
      · norm_num at h1 h2 ⊢; omega)
  obtain ⟨_, _, _, _, _, pad, _, _, hb, _⟩ := align_image_level_ok hout
  refine ⟨out, pad, hout, hb, ?_⟩
  intro i j hi hj
  obtain ⟨upsample', up', pad', prior, st, hu', hp', hb', hc', hs, hcell⟩ :=
    align_image_level_entry hout i j (by rw [hHe]; exact hi) (by rw [hWe]; exact hj)
  rw [hb] at hb'
  cases hb'
  rw [hu] at hu'
  cases hu'
  rw [hHe, hWe, hp] at hp'
  cases hp'
  rw [cell_replicate, if_pos ⟨by omega, by omega⟩] at hc'
  cases hc'
  obtain ⟨_, _, _, _, hph, hpw, _⟩ := copyMakeBorder_ok hb
  have h1 := tile_origin_in_range i ref_img.height T hT hi
  have h2 := tile_origin_in_range j ref_img.width T hT hj
  simp only [add_zero] at hs hcell
  rw [tile_origin i T hT, tile_origin j T hT,
    clamp_start_id _ _ h1.1 (by rw [hph, hdim.1]; omega),
    clamp_start_id _ _ h2.1 (by rw [hpw, hdim.2]; omega)] at hs
  refine ⟨st, hs, ?_⟩
  rw [hcell]
  simp

/-! ## Level aligner: a plane aligned to itself -/

/-- The centre candidate `(r, r)` of a tile of a plane aligned to itself reads the
tile itself out of the padded plane: its distance is zero with both kernels. -/
theorem self_centre_distance_zero {T dt r : Int} (hT : T = 8 ∨ T = 16) (hdt : dt = 1 ∨ dt = 2)
    {P pad : Mat} (hb : copyMakeBorder P r r r r UINT_LEAST16_MAX = .ok pad)
    (i j : Nat) (hi : (i : Int) < (P.height : Int) / (T / 2) - 1)
    (hj : (j : Int) < (P.width : Int) / (T / 2) - 1) :
    candidate_distance (distance_func_ptr dt T) P pad (i * (T / 2)) (j * (T / 2))
      (i * (T / 2)) (j * (T / 2)) r.toNat r.toNat = .ok 0 := by
  obtain ⟨hr, _, _, _, hph, hpw, hpx⟩ := copyMakeBorder_ok hb
  have h1 := tile_origin_in_range i P.height T hT hi
  have h2 := tile_origin_in_range j P.width T hT hj
  rw [candidate_distance_in_range hT hdt P pad _ _ _ _ _ _ h1 h2 (by omega) (by omega)]
  have hT' : T.toNat ≤ 65536 ∧ (T.toNat : Int) = T := by rcases hT with rfl | rfl <;> decide
  rw [kernel_sum_zero T.toNat hT'.1]
  intro k l hk hl
  rw [hpx, if_pos (by omega)]
  congr 1 <;> omega

/-- C11 (as stated, refuted): a uniform 12 x 12 plane aligned to itself at the
coarsest level (tile size 8, radius 1, L1, all-zero prior).  Every candidate
whose window avoids the border has distance zero and the first one scanned is
kept: the grid returned is not zero, the tile of grid cell (1, 1) gets (-1, -1).
The same grid is the level-3 grid of the level loop when the alternate pyramid
equals the reference pyramid. -/
theorem self_alignment_of_uniform_plane_is_not_zero :
    align_image_level (const_plane 12 12 0) (const_plane 12 12 0) [] [] (-1) 8 (-1) 1 1 =
      .ok [[(0, 0), (0, -1)], [(-1, 0), (-1, -1)]] ∧
    upsampled_prior none [] (-1) 2 2 = .ok [[(0, 0), (0, 0)], [(0, 0), (0, 0)]] ∧
    level_state (List.replicate 4 (const_plane 12 12 0)) (List.replicate 4 (const_plane 12 12 0)) 3 =
      .ok ([[(0, 0), (0, -1)], [(-1, 0), (-1, -1)]], []) := by
  decide!

/-- C11 (amended): for every plane P, tile size T in {8, 16}, radius r >= 0, metric in
{L1, L2} and an all-zero prior, `align_image_level(P, P, ...)` returns a grid.  In
every tile the centre candidate `(r, r)` has distance zero, and the entry is
`(a - r, b - r)` for the first candidate (a, b) in scan order whose distance is
zero; that candidate is the centre or is scanned before it, so `-r <= dy <= 0`,
and `dx <= 0` when `dy = 0`.  The entry is `(0, 0)` exactly when the first
candidate with distance zero is the centre, that is, when every candidate
scanned before the centre has a non-zero distance. -/
theorem self_alignment_entry_is_first_zero_distance (P : Mat) (prev : Alignment)
    (scale T pts r dt : Int) (upsample : Option (Int × Int))
    (hT : T = 8 ∨ T = 16) (hdt : dt = 1 ∨ dt = 2) (hr : 0 ≤ r)
    (hu : upsample_alignment_func_ptr scale T pts = .ok upsample)
    (hH : 0 ≤ (P.height : Int) / (T / 2) - 1) (hW : 0 ≤ (P.width : Int) / (T / 2) - 1)
    (hp : upsampled_prior upsample prev pts ((P.height : Int) / (T / 2) - 1)
      ((P.width : Int) / (T / 2) - 1) =
        .ok (List.replicate ((P.height : Int) / (T / 2) - 1).toNat
          (List.replicate ((P.width : Int) / (T / 2) - 1).toNat (0, 0)))) :
    ∃ out pad, align_image_level P P prev [] scale T pts r dt = .ok out ∧
      copyMakeBorder P r r r r UINT_LEAST16_MAX = .ok pad ∧
      ∀ i j : Nat, (i : Int) < (P.height : Int) / (T / 2) - 1 →
        (j : Int) < (P.width : Int) / (T / 2) - 1 →
        tile_distance (distance_func_ptr dt T) P pad T r (0, 0) i j r.toNat r.toNat = .ok 0 ∧
        ∃ a b : Nat, (a : Int) ≤ r ∧ (b : Int) ≤ 2 * r ∧ ((a : Int) = r → (b : Int) ≤ r) ∧
          cell out i j = some ((a : Int) - r, (b : Int) - r) ∧
          tile_distance (distance_func_ptr dt T) P pad T r (0, 0) i j a b = .ok 0 ∧
          (∀ a' b' : Nat, (b' : Int) ≤ 2 * r → (a' < a ∨ (a' = a ∧ b' < b)) →
            ∃ v, tile_distance (distance_func_ptr dt T) P pad T r (0, 0) i j a' b' = .ok v ∧
              0 < v) ∧
          (cell out i j = some (0, 0) ↔ ((a : Int) = r ∧ (b : Int) = r)) := by
  obtain ⟨out, pad, hout, hb, hent⟩ :=
    @zero_prior_entry P P prev scale T pts r dt upsample hT hdt hr hu hH hW hp ⟨rfl, rfl⟩
  refine ⟨out, pad, hout, hb, ?_⟩
  intro i j hi hj
  have htd := tile_distance_zero_prior hT (distance_func_ptr dt T) hb ⟨rfl, rfl⟩ i j hi hj
  have hcentre := self_centre_distance_zero hT hdt hb i j hi hj
  obtain ⟨st, hs, hcell⟩ := hent i j hi hj
  have hM : (0 : Nat) < ULONG_LONG_MAX := by decide
  obtain ⟨a, b, ha, hb', hst, hd, hmin, hlt⟩ :=
    search_tile_first_min hs ⟨r.toNat, r.toNat, by omega, by omega, 0, hcentre, hM⟩
  have hm : st.min_distance_i = 0 := by
    have := hmin r.toNat r.toNat 0 (by omega) (by omega) hcentre
    omega
  rw [hm] at hd hlt
  have hnot : ¬ (r.toNat < a ∨ (r.toNat = a ∧ r.toNat < b)) := by
    intro hlex
    have := hlt r.toNat r.toNat 0 (by omega) hlex hcentre
    omega
  have hrow : st.min_distance_row_i = a := by rw [hst]
  have hcol : st.min_distance_col_i = b := by rw [hst]
  rw [hrow, hcol] at hcell
  have hinv := search_tile_inv hs
  refine ⟨by rw [htd]; exact hcentre, a, b, by omega, hb', by omega, hcell,
    by rw [htd]; exact hd, ?_, ?_⟩
  · intro a' b' hb2 hlex
    obtain ⟨v, hv⟩ := hinv.all_ok a' b' (by unfold Scanned; omega)
    exact ⟨v, by rw [htd]; exact hv, hlt a' b' v hb2 hlex hv⟩
  · rw [hcell]
    simp only [Option.some.injEq, Prod.mk.injEq]
    omega

theorem self_alignment_entry_is_first_zero_distance_witness :
    ∃ out pad, align_image_level (const_plane 8 8 7) (const_plane 8 8 7) [] [] (-1) 8 (-1) 1 2 =
        .ok out ∧
      copyMakeBorder (const_plane 8 8 7) 1 1 1 1 UINT_LEAST16_MAX = .ok pad ∧
      ∀ i j : Nat, (i : Int) < ((const_plane 8 8 7).height : Int) / (8 / 2) - 1 →
        (j : Int) < ((const_plane 8 8 7).width : Int) / (8 / 2) - 1 →
        tile_distance (distance_func_ptr 2 8) (const_plane 8 8 7) pad 8 1 (0, 0) i j
          (1 : Int).toNat (1 : Int).toNat = .ok 0 ∧
        ∃ a b : Nat, (a : Int) ≤ 1 ∧ (b : Int) ≤ 2 * 1 ∧ ((a : Int) = 1 → (b : Int) ≤ 1) ∧
          cell out i j = some ((a : Int) - 1, (b : Int) - 1) ∧
          tile_distance (distance_func_ptr 2 8) (const_plane 8 8 7) pad 8 1 (0, 0) i j a b = .ok 0 ∧
          (∀ a' b' : Nat, (b' : Int) ≤ 2 * 1 → (a' < a ∨ (a' = a ∧ b' < b)) →
            ∃ v, tile_distance (distance_func_ptr 2 8) (const_plane 8 8 7) pad 8 1 (0, 0) i j a' b'
              = .ok v ∧ 0 < v) ∧
          (cell out i j = some (0, 0) ↔ ((a : Int) = 1 ∧ (b : Int) = 1)) :=
  self_alignment_entry_is_first_zero_distance (const_plane 8 8 7) [] (-1) 8 (-1) 1 2 none
    (by decide) (by decide) (by decide) (by decide) (by decide) (by decide) (by decide)

/-! ## Level aligner: the uniform plane -/


/-- The distance of a candidate of a tile of the uniform plane `0x8000` aligned to
itself under an all-zero prior: it is computed, and it is zero exactly when
the candidate window lies inside the plane, clear of the `0xFFFF` border. -/
theorem uniform_candidate_distance {T dt r : Int} (hT : T = 8 ∨ T = 16) (hdt : dt = 1 ∨ dt = 2)
    {h w : Nat} {pad : Mat}
    (hb : copyMakeBorder (const_plane h w 32768) r r r r UINT_LEAST16_MAX = .ok pad)
    (i j : Nat) (hi : (i : Int) < (h : Int) / (T / 2) - 1) (hj : (j : Int) < (w : Int) / (T / 2) - 1)
    (a b : Nat) (ha : (a : Int) ≤ 2 * r) (hb' : (b : Int) ≤ 2 * r) :
    ∃ v, candidate_distance (distance_func_ptr dt T) (const_plane h w 32768) pad
        (i * (T / 2)) (j * (T / 2)) (i * (T / 2)) (j * (T / 2)) a b = .ok v ∧
      (v = 0 ↔ (r ≤ i * (T / 2) + a ∧ i * (T / 2) + a + T ≤ r + h ∧
        r ≤ j * (T / 2) + b ∧ j * (T / 2) + b + T ≤ r + w)) := by
  obtain ⟨hr, _, _, _, hph, hpw, hpx⟩ := copyMakeBorder_ok hb
  have hph' : (pad.height : Int) = h + r + r := hph
  have hpw' : (pad.width : Int) = w + r + r := hpw
  have hpx' : ∀ y x, pad.px y x =
      if r ≤ y ∧ y < r + h ∧ r ≤ x ∧ x < r + w then 32768 else UINT_LEAST16_MAX := hpx
  have h1 := tile_origin_in_range i h T hT hi
  have h2 := tile_origin_in_range j w T hT hj
  have hT' : T.toNat ≤ 65536 ∧ (T.toNat : Int) = T ∧ 0 < T.toNat := by
    rcases hT with rfl | rfl <;> decide
  refine ⟨_, candidate_distance_in_range hT hdt (const_plane h w 32768) pad _ _ _ _ a b
    h1 h2 (by omega) (by omega), ?_⟩
  have hsmall : ∀ k l : Nat, k < T.toNat → l < T.toNat →
      Int.natAbs ((((const_plane h w 32768).px (i * (T / 2) + k) (j * (T / 2) + l)).val : Int) -
        ((pad.px (i * (T / 2) + a + k) (j * (T / 2) + b + l)).val : Int)) ≤ 46340 := by
    intro k l _ _
    rw [hpx']
    show Int.natAbs (((32768 : Fin 65536).val : Int) - _) ≤ 46340
    split <;> decide
  constructor
  · intro hv
    by_contra hout
    have hne : ∀ k l : Nat, ¬ (r ≤ i * (T / 2) + a + k ∧ i * (T / 2) + a + k < r + h ∧
        r ≤ j * (T / 2) + b + l ∧ j * (T / 2) + b + l < r + w) →
        (const_plane h w 32768).px (i * (T / 2) + k) (j * (T / 2) + l) ≠
          pad.px (i * (T / 2) + a + k) (j * (T / 2) + b + l) := by
      intro k l hkl
      rw [hpx', if_neg hkl]
      show (32768 : Fin 65536) ≠ UINT_LEAST16_MAX
      decide
    have hposs : ∃ k l : Nat, k < T.toNat ∧ l < T.toNat ∧
        ¬ (r ≤ i * (T / 2) + a + k ∧ i * (T / 2) + a + k < r + h ∧
          r ≤ j * (T / 2) + b + l ∧ j * (T / 2) + b + l < r + w) := by
      by_cases c1 : r ≤ i * (T / 2) + a
      · by_cases c2 : i * (T / 2) + a + T ≤ r + h
        · by_cases c3 : r ≤ j * (T / 2) + b
          · exact ⟨0, T.toNat - 1, by omega, by omega, by omega⟩
          · exact ⟨0, 0, by omega, by omega, by omega⟩
        · exact ⟨T.toNat - 1, 0, by omega, by omega, by omega⟩
      · exact ⟨0, 0, by omega, by omega, by omega⟩
    obtain ⟨k, l, hk, hl, hkl⟩ := hposs
    have := kernel_sum_pos T.toNat hT'.1 dt (const_plane h w 32768) pad _ _ _ _ hsmall k l hk hl
      (hne k l hkl)
    omega
  · intro hin
    apply kernel_sum_zero T.toNat hT'.1
    intro k l hk hl
    rw [hpx', if_pos (by omega)]
    rfl

/-- C12 (as stated, refuted): the uniform 12 x 12 plane `0x8000` aligned to itself
with tile size 8, radius 1, L1 and an all-zero prior.  For the tile of grid
cell (0, 0) the candidate (0, 0) reads the `0xFFFF` border and has distance
`15 * 32767`, not zero; the first candidate with distance zero is the centre
(1, 1), and the entry recorded is (0, 0), not (-1, -1).  Only the tile of grid
cell (1, 1) gets (-1, -1). -/
theorem uniform_plane_border_tiles_are_not_minus_r :
    align_image_level (const_plane 12 12 32768) (const_plane 12 12 32768) [] [] (-1) 8 (-1) 1 1 =
      .ok [[(0, 0), (0, -1)], [(-1, 0), (-1, -1)]] ∧
    (copyMakeBorder (const_plane 12 12 32768) 1 1 1 1 UINT_LEAST16_MAX >>= fun pad =>
      tile_distance (distance_func_ptr 1 8) (const_plane 12 12 32768) pad 8 1 (0, 0) 0 0 0 0) =
        .ok (15 * 32767) ∧
    (copyMakeBorder (const_plane 12 12 32768) 1 1 1 1 UINT_LEAST16_MAX >>= fun pad =>
      tile_distance (distance_func_ptr 1 8) (const_plane 12 12 32768) pad 8 1 (0, 0) 0 0 1 1) =
        .ok 0 := by
  decide!

/-- C12 (amended): when reference and alt planes are both constant `0x8000` (of any
size h x w) and the prior is all zero, `align_image_level` with tile size T in
{8, 16}, radius r >= 0 and metric in {L1, L2} returns a grid.  A candidate (a, b)
of tile (i, j) has distance zero exactly when its window lies inside the
plane, clear of the `0xFFFF` border (`r <= i*T/2 + a`, `i*T/2 + a + T <= r + h` and
likewise for the columns), and a positive distance otherwise.  The entry
recorded at tile (i, j) is `(-min(r, i*T/2), -min(r, j*T/2))`: it is `(-r, -r)` at the
tiles with `i*T/2 >= r` and `j*T/2 >= r`, and its row (column) component is 0 in
grid row 0 (grid column 0). -/
theorem uniform_plane_entry (h w : Nat) (prev : Alignment)
    (scale T pts r dt : Int) (upsample : Option (Int × Int))
    (hT : T = 8 ∨ T = 16) (hdt : dt = 1 ∨ dt = 2) (hr : 0 ≤ r)
    (hu : upsample_alignment_func_ptr scale T pts = .ok upsample)
    (hH : 0 ≤ (h : Int) / (T / 2) - 1) (hW : 0 ≤ (w : Int) / (T / 2) - 1)
    (hp : upsampled_prior upsample prev pts ((h : Int) / (T / 2) - 1) ((w : Int) / (T / 2) - 1) =
      .ok (List.replicate ((h : Int) / (T / 2) - 1).toNat
        (List.replicate ((w : Int) / (T / 2) - 1).toNat (0, 0)))) :
    ∃ out pad,
      align_image_level (const_plane h w 32768) (const_plane h w 32768) prev [] scale T pts r dt =
        .ok out ∧
      copyMakeBorder (const_plane h w 32768) r r r r UINT_LEAST16_MAX = .ok pad ∧
      ∀ i j : Nat, (i : Int) < (h : Int) / (T / 2) - 1 → (j : Int) < (w : Int) / (T / 2) - 1 →
        cell out i j = some (-(min r (i * (T / 2))), -(min r (j * (T / 2)))) ∧
        (r ≤ i * (T / 2) → r ≤ j * (T / 2) → cell out i j = some (-r, -r)) ∧
        (∃ dx, cell out 0 j = some (0, dx)) ∧ (∃ dy, cell out i 0 = some (dy, 0)) ∧
        ∀ a b : Nat, (a : Int) ≤ 2 * r → (b : Int) ≤ 2 * r →
          ∃ v, tile_distance (distance_func_ptr dt T) (const_plane h w 32768) pad T r (0, 0)
              i j a b = .ok v ∧
            (v = 0 ↔ (r ≤ i * (T / 2) + a ∧ i * (T / 2) + a + T ≤ r + h ∧
              r ≤ j * (T / 2) + b ∧ j * (T / 2) + b + T ≤ r + w)) := by
  obtain ⟨out, pad, hout, hb, hent⟩ :=
    @zero_prior_entry (const_plane h w 32768) (const_plane h w 32768) prev scale T pts r dt
      upsample hT hdt hr hu hH hW hp ⟨rfl, rfl⟩
  refine ⟨out, pad, hout, hb, ?_⟩
  have hT' : 0 < T / 2 := (half_tile T hT).2.1
  have key : ∀ i j : Nat, (i : Int) < (h : Int) / (T / 2) - 1 → (j : Int) < (w : Int) / (T / 2) - 1 →
      cell out i j = some (-(min r (i * (T / 2))), -(min r (j * (T / 2)))) := by
    intro i j hi hj
    obtain ⟨st, hs, hcell⟩ := hent i j hi hj
    have h1 := tile_origin_in_range i h T hT hi
    have h2 := tile_origin_in_range j w T hT hj
    have hst := search_tile_first_zero hs (r - i * (T / 2)).toNat (r - j * (T / 2)).toNat
      (by omega) (by omega)
      (by
        obtain ⟨v, hv, hiff⟩ := @uniform_candidate_distance T dt r hT hdt h w pad hb i j hi hj
          (r - i * (T / 2)).toNat (r - j * (T / 2)).toNat (by omega) (by omega)
        rw [hv, hiff.2 (by omega)])
      (by
        intro a' b' v hb2 hlex hv
        obtain ⟨v', hv', hiff⟩ := @uniform_candidate_distance T dt r hT hdt h w pad hb i j hi hj
          a' b' (by omega) hb2
        rw [hv'] at hv
        cases hv
        have : ¬ v = 0 := fun h0 => by
          have := hiff.1 h0
          omega
        omega)
    rw [hcell, hst]
    simp only [Option.some.injEq, Prod.mk.injEq]
    omega
  intro i j hi hj
  have hmul : ∀ n : Nat, 0 ≤ (n : Int) * (T / 2) := fun n => by positivity
  refine ⟨key i j hi hj, ?_, ?_, ?_, ?_⟩
  · intro h1 h2
    rw [key i j hi hj, min_eq_left h1, min_eq_left h2]
  · exact ⟨-(min r (j * (T / 2))), by rw [key 0 j (by omega) hj]; simp [hr]⟩
  · exact ⟨-(min r (i * (T / 2))), by rw [key i 0 hi (by omega)]; simp [hr]⟩
  · intro a b ha hb'
    rw [tile_distance_zero_prior hT (distance_func_ptr dt T) hb ⟨rfl, rfl⟩ i j hi hj]
    exact uniform_candidate_distance hT hdt hb i j hi hj a b ha hb'

theorem uniform_plane_entry_witness :
    ∃ out pad,
      align_image_level (const_plane 40 40 32768) (const_plane 40 40 32768) [] [] (-1) 16 (-1) 4 2 =
        .ok out ∧
      copyMakeBorder (const_plane 40 40 32768) 4 4 4 4 UINT_LEAST16_MAX = .ok pad ∧
      ∀ i j : Nat, (i : Int) < ((40 : Nat) : Int) / (16 / 2) - 1 →
        (j : Int) < ((40 : Nat) : Int) / (16 / 2) - 1 →
        cell out i j = some (-(min (4 : Int) (i * (16 / 2))), -(min (4 : Int) (j * (16 / 2)))) ∧
        ((4 : Int) ≤ i * (16 / 2) → (4 : Int) ≤ j * (16 / 2) → cell out i j = some (-4, -4)) ∧
        (∃ dx, cell out 0 j = some (0, dx)) ∧ (∃ dy, cell out i 0 = some (dy, 0)) ∧
        ∀ a b : Nat, (a : Int) ≤ 2 * 4 → (b : Int) ≤ 2 * 4 →
          ∃ v, tile_distance (distance_func_ptr 2 16) (const_plane 40 40 32768) pad 16 4 (0, 0)
              i j a b = .ok v ∧
            (v = 0 ↔ ((4 : Int) ≤ i * (16 / 2) + a ∧ (i : Int) * (16 / 2) + a + 16 ≤ 4 + (40 : Nat) ∧
              (4 : Int) ≤ j * (16 / 2) + b ∧ (j : Int) * (16 / 2) + b + 16 ≤ 4 + (40 : Nat))) :=
  uniform_plane_entry 40 40 [] (-1) 16 (-1) 4 2 none
    (by decide) (by decide) (by decide) (by decide) (by decide) (by decide) (by decide)

/-! ## Level aligner: the distance between an entry and its prior -/

/-- C14 (failing input): level-0 parameters (pyramid ratio 2, tile sizes 16 and 16,
radius 1, L2) on a 27 x 27 pair, the alternate plane all zero and the reference
zero except the samples 65535, 362, 5 and 1, with the coarser grid `[[(1, 1)]]`.
The upsampled prior is (2, 2) at every tile.  Every candidate of every tile has
L2 distance `2^64 - 1` after the 32-bit wrap-around, so the search of each tile
ends with the initial indices (-1, -1) and the entry recorded is
`(2 + (-1) - 1, 2 + (-1) - 1) = (0, 0)`: it differs from the prior by 2, more than
the radius 1. -/
theorem entry_exceeds_radius_from_prior_when_l2_wraps :
    upsample_alignment_func_ptr 2 16 16 = .ok (some (2, 1)) ∧
    upsampled_prior (some (2, 1)) [[(1, 1)]] 16 2 2 = .ok [[(2, 2), (2, 2)], [(2, 2), (2, 2)]] ∧
    align_image_level sentinel_ref_27 (const_plane 27 27 0) [[(1, 1)]] [] 2 16 16 1 2 =
      .ok [[(0, 0), (0, 0)], [(0, 0), (0, 0)]] ∧
    ((0 : Int), (0 : Int)) = (2 + (-1) - 1, 2 + (-1) - 1) ∧
    ¬ (|(0 : Int) - 2| ≤ 1) := by
  decide!

/-! ## Level aligner and burst aligner: bounds on the entries -/

/-- The indices a search ends with are the initial `-1` or those of a candidate. -/
theorem search_index_range {dist : Option DistanceFn} {ref_img pad : Mat} {rr rc ar ac r : Int}
    {st : SearchState} (hr : 0 ≤ r)
    (hrun : search_tile dist ref_img pad rr rc ar ac r = .ok st) :
    (-1 ≤ st.min_distance_row_i ∧ st.min_distance_row_i ≤ 2 * r) ∧
    (-1 ≤ st.min_distance_col_i ∧ st.min_distance_col_i ≤ 2 * r) := by
  rcases (search_tile_inv hrun).chosen with hc | ⟨a, b, hs, hst, _, _⟩
  · rw [hc]
    simp only
    omega
  · unfold Scanned at hs
    rw [hst]
    simp only
    omega

/-- A cell of a grid returned by `align_image_level` is the cell of a tile. -/
theorem align_image_level_cell_range {ref_img alt_img : Mat} {prev out : Alignment}
    {scale T pts r dt : Int}
    (h : align_image_level ref_img alt_img prev [] scale T pts r dt = .ok out)
    {i j : Nat} {v : Int × Int} (hv : cell out i j = some v) :
    (i : Int) < cdiv ref_img.height (cdiv T 2) - 1 ∧
    (j : Int) < cdiv ref_img.width (cdiv T 2) - 1 := by
  obtain ⟨_, hH, hW, _, _, _, _, _, _, hinv⟩ := align_image_level_ok h
  by_contra hcon
  have := hinv.untouched i j (by omega)
  rw [cell_replicate, if_neg (by omega), hv] at this
  cases this

/-- The entries of the upsampled prior are zero at the coarsest level, and
otherwise copies of entries of the coarser grid scaled by the pyramid ratio,
or zero. -/
theorem upsampled_prior_within {upsample : Option (Int × Int)} {prev up : Alignment}
    {pts H W : Int} (hp : upsampled_prior upsample prev pts H W = .ok up) :
    (pts = -1 → EntriesWithin 0 up) ∧
    (∀ p t : Int, upsample = some (p, t) → 0 ≤ p → ∀ B : Int, 0 ≤ B → p * B < 2 ^ 31 →
      EntriesWithin B prev → EntriesWithin (p * B) up) := by
  unfold upsampled_prior at hp
  constructor
  · intro hpts
    rw [if_pos hpts] at hp
    obtain ⟨_, _, hup⟩ := resize_zero_nil _ _ _ hp
    intro i j v hv
    rw [hup, cell_replicate] at hv
    split at hv
    · cases hv
      simp
    · cases hv
  · intro p t hu hp0 B hB hB31 hprev
    subst hu
    have hpB : 0 ≤ p * B := mul_nonneg hp0 hB
    have hzero : ∀ (rows cols i j : Nat) (v : Int × Int),
        cell (List.replicate rows (List.replicate cols ((0, 0) : Int × Int))) i j = some v →
        |v.1| ≤ p * B ∧ |v.2| ≤ p * B := by
      intro rows cols i j v hv
      rw [cell_replicate] at hv
      split at hv
      · cases hv
        simpa using hpB
      · cases hv
    split at hp
    · obtain ⟨_, _, hup⟩ := resize_zero_nil _ _ _ hp
      intro i j v hv
      rw [hup] at hv
      exact hzero _ _ i j v hv
    · simp only at hp
      cases prev with
      | nil =>
        unfold build_upsampled_prev_aligement at hp
        simp at hp
      | cons row0 rest =>
        obtain ⟨_, _, _, _, hinv⟩ := build_upsampled_prev_aligement_ok hp
        intro i j v hv
        by_cases hS : i < (rest.length + 1) * (cdiv p t).toNat ∧ j < row0.length * (cdiv p t).toNat
        · have hw := (hinv.written i j hS).1
          rw [hv] at hw
          unfold upsampled_value at hw
          cases hc : cell (row0 :: rest) (i / (cdiv p t).toNat) (j / (cdiv p t).toNat) with
          | none => rw [hc] at hw; cases hw
          | some v0 =>
            rw [hc] at hw
            simp only [Option.map_some', Option.some.injEq] at hw
            obtain ⟨h1, h2⟩ := hprev _ _ v0 hc
            rw [hw, wrap_int32_mul_of_abs_le hp0 h1 hB31, wrap_int32_mul_of_abs_le hp0 h2 hB31]
            simp only [abs_mul, abs_of_nonneg hp0]
            constructor
            · rw [mul_comm p B]; exact mul_le_mul_of_nonneg_right h1 hp0
            · rw [mul_comm p B]; exact mul_le_mul_of_nonneg_right h2 hp0
        · have hu := hinv.untouched i j hS
          rw [hv] at hu
          exact hzero _ _ i j v hu.symm

/-- Every entry of a grid returned by `align_image_level` is within `r + 1` of the
upsampled prior of its tile, hence within `P + r + 1` of zero when the prior is
within `P`. -/
theorem align_image_level_within {ref_img alt_img : Mat} {prev out : Alignment}
    {scale T pts r dt : Int}
    (h : align_image_level ref_img alt_img prev [] scale T pts r dt = .ok out)
    (P : Int)
    (hprior : ∀ upsample up, upsample_alignment_func_ptr scale T pts = .ok upsample →
      upsampled_prior upsample prev pts (cdiv ref_img.height (cdiv T 2) - 1)
        (cdiv ref_img.width (cdiv T 2) - 1) = .ok up → EntriesWithin P up) :
    EntriesWithin (P + r + 1) out := by
  intro i j v hv
  obtain ⟨hi, hj⟩ := align_image_level_cell_range h hv
  obtain ⟨upsample, up, pad, prior, st, hu, hp, hb, hc, hs, hcell⟩ :=
    align_image_level_entry h i j hi hj
  obtain ⟨h1, h2⟩ := hprior upsample up hu hp i j prior hc
  have hr : 0 ≤ r := (copyMakeBorder_ok hb).1
  obtain ⟨h3, h4⟩ := search_index_range hr hs
  rw [hv] at hcell
  cases hcell
  simp only
  rw [abs_le] at h1 h2 ⊢
  rw [abs_le]
  omega

/-- With the L1 metric every entry of a grid returned by `align_image_level` is
within `r` of the upsampled prior of its tile. -/
theorem align_image_level_within_l1 {ref_img alt_img : Mat} {prev out : Alignment}
    {scale T pts r : Int} (hT : T = 8 ∨ T = 16)
    (h : align_image_level ref_img alt_img prev [] scale T pts r 1 = .ok out)
    (P : Int)
    (hprior : ∀ upsample up, upsample_alignment_func_ptr scale T pts = .ok upsample →
      upsampled_prior upsample prev pts ((ref_img.height : Int) / (T / 2) - 1)
        ((ref_img.width : Int) / (T / 2) - 1) = .ok up → EntriesWithin P up) :
    EntriesWithin (P + r) out := by
  intro i j v hv
  obtain ⟨hi, hj⟩ := align_image_level_cell_range h hv
  rw [num_tiles_eq _ T hT] at hi hj
  obtain ⟨upsample, up, pad, prior, hu, hp, hb, hc, a, b, m, ha, hb', hcell, _⟩ :=
    l1_entry_is_first_minimum ref_img alt_img prev out scale T pts r hT h i j hi hj
  obtain ⟨h1, h2⟩ := hprior upsample up hu hp i j prior hc
  rw [hv] at hcell
  cases hcell
  simp only
  rw [abs_le] at h1 h2 ⊢
  rw [abs_le]
  omega

theorem EntriesWithin.mono {B B' : Int} {g : Alignment} (h : EntriesWithin B g) (hB : B ≤ B') :
    EntriesWithin B' g := by
  intro i j v hv
  obtain ⟨h1, h2⟩ := h i j v hv
  exact ⟨le_trans h1 hB, le_trans h2 hB⟩

theorem level_args_values :
    level_args 3 = ⟨-1, 8, -1, 1, 1⟩ ∧ level_args 2 = ⟨4, 16, 8, 4, 2⟩ ∧
    level_args 1 = ⟨4, 16, 16, 4, 2⟩ ∧ level_args 0 = ⟨2, 16, 16, 1, 2⟩ := by
  decide

/-- The grid of the coarsest level (L1, radius 1, zero prior) is within 1. -/
theorem level_step_within_coarsest {ref_pyr alt_pyr : List Mat} {s s' : Alignment × Alignment}
    (h : level_step ref_pyr alt_pyr s 3 = .ok s') : EntriesWithin 1 s'.1 := by
  obtain ⟨ref_img, alt_img, _, _, hal, _⟩ := level_step_ok h
  rw [level_args_values.1] at hal
  simp only at hal
  have := align_image_level_within_l1 (Or.inl rfl) hal 0
    (fun upsample up _ hp => (upsampled_prior_within hp).1 rfl)
  exact this.mono (by omega)

/-- The grid of a level below the coarsest is within `scale * B + r + 1` when the
grid of the level above is within `B`. -/
theorem level_step_within {ref_pyr alt_pyr : List Mat} {s s' : Alignment × Alignment} {L : Nat}
    (hL : L < 3) (h : level_step ref_pyr alt_pyr s L = .ok s') (B : Int) (hB : 0 ≤ B)
    (hB31 : 4 * B < 2 ^ 31) (hs : EntriesWithin B s.1) :
    EntriesWithin ((level_args L).scale_factor_prev_curr * B + (level_args L).search_radiou + 1)
      s'.1 := by
  obtain ⟨ref_img, alt_img, _, _, hal, _⟩ := level_step_ok h
  refine align_image_level_within hal _ ?_
  intro upsample up hu hp
  have h2 : upsample_alignment_func_ptr 4 16 8 = .ok (some (4, 2)) := by decide
  have h1 : upsample_alignment_func_ptr 4 16 16 = .ok (some (4, 1)) := by decide
  have h0 : upsample_alignment_func_ptr 2 16 16 = .ok (some (2, 1)) := by decide
  interval_cases L
  · rw [level_args_values.2.2.2] at hu hp ⊢
    simp only at hu hp ⊢
    rw [h0] at hu
    cases hu
    exact (upsampled_prior_within hp).2 2 1 rfl (by decide) B hB (by omega) hs
  · rw [level_args_values.2.2.1] at hu hp ⊢
    simp only at hu hp ⊢
    rw [h1] at hu
    cases hu
    exact (upsampled_prior_within hp).2 4 1 rfl (by decide) B hB hB31 hs
  · rw [level_args_values.2.1] at hu hp ⊢
    simp only at hu hp ⊢
    rw [h2] at hu
    cases hu
    exact (upsampled_prior_within hp).2 4 2 rfl (by decide) B hB hB31 hs

/-- The bounds the level loop keeps: 1, 9, 41 and 84 at levels 3, 2, 1 and 0. -/
theorem level_state_within {ref_pyr alt_pyr : List Mat} {state : Alignment × Alignment} :
    (level_state ref_pyr alt_pyr 3 = .ok state → EntriesWithin 1 state.1) ∧
    (level_state ref_pyr alt_pyr 2 = .ok state → EntriesWithin 9 state.1) ∧
    (level_state ref_pyr alt_pyr 1 = .ok state → EntriesWithin 41 state.1) ∧
    (level_state ref_pyr alt_pyr 0 = .ok state → EntriesWithin 84 state.1) := by
  have e3 : levels_down_to 3 = [3] := by decide
  have e2 : levels_down_to 2 = [3, 2] := by decide
  have e1 : levels_down_to 1 = [3, 2, 1] := by decide
  have e0 : levels_down_to 0 = [3, 2, 1, 0] := by decide
  have a2 := level_args_values.2.1
  have a1 := level_args_values.2.2.1
  have a0 := level_args_values.2.2.2
  refine ⟨?_, ?_, ?_, ?_⟩
  · intro h
    unfold level_state at h
    rw [e3] at h
    simp only [List.foldlM_cons, List.foldlM_nil] at h
    obtain ⟨s3, h3, hf⟩ := bind_ok h
    cases hf
    exact level_step_within_coarsest h3
  · intro h
    unfold level_state at h
    rw [e2] at h
    simp only [List.foldlM_cons, List.foldlM_nil] at h
    obtain ⟨s3, h3, h⟩ := bind_ok h
    obtain ⟨s2, h2, hf⟩ := bind_ok h
    cases hf
    have b3 := level_step_within_coarsest h3
    have b2 := level_step_within (by decide) h2 1 (by decide) (by decide) b3
    rw [a2] at b2
    exact b2.mono (by decide)
  · intro h
    unfold level_state at h
    rw [e1] at h
    simp only [List.foldlM_cons, List.foldlM_nil] at h
    obtain ⟨s3, h3, h⟩ := bind_ok h
    obtain ⟨s2, h2, h⟩ := bind_ok h
    obtain ⟨s1, h1, hf⟩ := bind_ok h
    cases hf
    have b3 := level_step_within_coarsest h3
    have b2 := (level_step_within (by decide) h2 1 (by decide) (by decide) b3)
    rw [a2] at b2
    have b1 := level_step_within (by decide) h1 9 (by decide) (by decide) (b2.mono (by decide))
    rw [a1] at b1
    exact b1.mono (by decide)
  · intro h
    unfold level_state at h
    rw [e0] at h
    simp only [List.foldlM_cons, List.foldlM_nil] at h
    obtain ⟨s3, h3, h⟩ := bind_ok h
    obtain ⟨s2, h2, h⟩ := bind_ok h
    obtain ⟨s1, h1, h⟩ := bind_ok h
    obtain ⟨s0, h0, hf⟩ := bind_ok h
    cases hf
    have b3 := level_step_within_coarsest h3
    have b2 := (level_step_within (by decide) h2 1 (by decide) (by decide) b3)
    rw [a2] at b2
    have b1 := level_step_within (by decide) h1 9 (by decide) (by decide) (b2.mono (by decide))
    rw [a1] at b1
    have b0 := level_step_within (by decide) h0 41 (by decide) (by decide) (b1.mono (by decide))
    rw [a0] at b0
    exact b0.mono (by decide)

/-- C13: for the fixed configuration, whatever the two pyramids of the level loop of
`align::process` are (every burst, every non-reference frame), once the loop has
finished level `L` every entry (dy, dx) of the grid of level `L` satisfies
`|dy|, |dx| <= search_envelope L`, the sum over `i >= L` of `search_radii[i]` times the
product over `j > i` of `inv_scale_factors[j]`: 113, 81, 17 and 1 at levels 0, 1, 2
and 3.  The grid the level loop returns for the frame is the one of level 0. -/
theorem entries_within_search_envelope (ref_grayimg_pyramid alt_grayimg_pyramid : List Mat)
    (L : Nat) (hL : L < num_levels) (state : Alignment × Alignment)
    (h : level_state ref_grayimg_pyramid alt_grayimg_pyramid L = .ok state) :
    EntriesWithin (search_envelope L) state.1 ∧
    (L = 0 → align_levels ref_grayimg_pyramid alt_grayimg_pyramid = .ok state.1) ∧
    (search_envelope 0, search_envelope 1, search_envelope 2, search_envelope 3) =
      (113, 81, 17, 1) := by
  have hw := @level_state_within ref_grayimg_pyramid alt_grayimg_pyramid state
  have hn : num_levels = 4 := rfl
  refine ⟨?_, ?_, by decide⟩
  · rw [hn] at hL
    interval_cases L
    · exact (hw.2.2.2 h).mono (by decide)
    · exact (hw.2.2.1 h).mono (by decide)
    · exact (hw.2.1 h).mono (by decide)
    · exact (hw.1 h).mono (by decide)
  · intro h0
    subst h0
    unfold level_state at h
    rw [levels_down_to_zero] at h
    unfold align_levels
    have hl : (List.range num_levels).reverse = [3, 2, 1, 0] := by decide
    rw [hl, h]

theorem entries_within_search_envelope_witness :
    EntriesWithin (search_envelope 3) ([[(0, 0)]], ([] : Alignment)).1 ∧
    (3 = 0 → align_levels (List.replicate 4 (const_plane 8 8 0))
      (List.replicate 4 (const_plane 8 8 0)) = .ok ([[(0, 0)]], ([] : Alignment)).1) ∧
    (search_envelope 0, search_envelope 1, search_envelope 2, search_envelope 3) =
      (113, 81, 17, 1) :=
  entries_within_search_envelope (List.replicate 4 (const_plane 8 8 0))
    (List.replicate 4 (const_plane 8 8 0)) 3 (by decide) ([[(0, 0)]], []) (by decide!)

/-! ## Alignment upsampler: when it returns, and the zero grid -/

/-- Two grids of the same shape that hold the same cells are equal. -/
theorem grid_ext {g g' : Alignment} (hs : SameShape g g')
    (h : ∀ r c : Nat, cell g' r c = cell g r c) : g' = g := by
  apply List.ext_getElem?
  intro n
  have hw := hs.width n
  have hc := h n
  unfold cell at hc
  cases h1 : g'[n]? with
  | none =>
    cases h2 : g[n]? with
    | none => rfl
    | some row => rw [h1, h2] at hw; simp at hw
  | some row' =>
    cases h2 : g[n]? with
    | none => rw [h1, h2] at hw; simp at hw
    | some row =>
      rw [h1, h2] at hc
      simp only at hc
      rw [List.ext_getElem? hc]

/-- The upsampler returns a grid for a non-empty rectangular source whose
replicated extent fits the target. -/
theorem build_upsampled_prev_aligement_total {p t : Int} (hrep : 0 ≤ cdiv p t)
    (row0 : List (Int × Int)) (rest : Alignment)
    (hrect : ∀ row ∈ rest, row.length = row0.length) {H W : Int}
    (hrows : ((rest.length + 1 : Nat) : Int) * cdiv p t ≤ H)
    (hcols : (row0.length : Int) * cdiv p t ≤ W) :
    ∃ out, build_upsampled_prev_aligement p t (row0 :: rest) [] H W = .ok out := by
  have e : (((cdiv p t).toNat : Nat) : Int) = cdiv p t := Int.toNat_of_nonneg hrep
  have hnn1 : (0 : Int) ≤ ((rest.length + 1 : Nat) : Int) * cdiv p t :=
    Int.mul_nonneg (by omega) hrep
  have hnn2 : (0 : Int) ≤ (row0.length : Int) * cdiv p t := Int.mul_nonneg (by omega) hrep
  have hH : 0 ≤ H := by omega
  have hW : 0 ≤ W := by omega
  unfold build_upsampled_prev_aligement
  simp only [List.getElem?_cons_zero, List.length_cons]
  rw [if_neg (by omega), resize_zero_nil_ok H W hH hW]
  simp only
  have hrows' : (rest.length + 1) * (cdiv p t).toNat ≤ H.toNat := by
    have : (((rest.length + 1) * (cdiv p t).toNat : Nat) : Int) ≤ H := by
      push_cast; rw [e]; push_cast at hrows; omega
    omega
  have hcols' : row0.length * (cdiv p t).toNat ≤ W.toNat := by
    have : ((row0.length * (cdiv p t).toNat : Nat) : Int) ≤ W := by
      push_cast; rw [e]; omega
    omega
  obtain ⟨out, hout, _⟩ := foldlM_range_ok
    (fun dst row_i => upsample_row p (cdiv p t).toNat (row0 :: rest) row0.length row_i dst)
    (fun _ g => SameShape (List.replicate H.toNat (List.replicate W.toNat ((0, 0) : Int × Int))) g)
    (rest.length + 1) _ (SameShape.refl _)
    (fun i x hi hx => @upsample_row_total _ x (row0 :: rest) p (cdiv p t).toNat row0.length
        (rest.length + 1) i hx hi
      (fun j hj => cell_rect hrect i j hi hj)
      (fun r c hr hc => by
        rw [cell_replicate, if_pos ⟨by omega, by omega⟩]; simp))
  exact ⟨out, hout⟩

/-- The grid the upsampler returns for an all-zero source is the zero grid of the
target shape. -/
theorem build_upsampled_prev_aligement_zero {p t : Int} {src out : Alignment} {H W : Int}
    (hzero : ∀ (i j : Nat) (v : Int × Int), cell src i j = some v → v = (0, 0))
    (h : build_upsampled_prev_aligement p t src [] H W = .ok out) :
    out = List.replicate H.toNat (List.replicate W.toNat (0, 0)) := by
  cases src with
  | nil =>
    unfold build_upsampled_prev_aligement at h
    simp at h
  | cons row0 rest =>
    obtain ⟨_, _, _, _, hinv⟩ := build_upsampled_prev_aligement_ok h
    refine grid_ext hinv.shape ?_
    intro r c
    by_cases hS : r < (rest.length + 1) * (cdiv p t).toNat ∧ c < row0.length * (cdiv p t).toNat
    · obtain ⟨hw, hne⟩ := hinv.written r c hS
      rw [hw]
      unfold upsampled_value at hw hne ⊢
      cases hc : cell (row0 :: rest) (r / (cdiv p t).toNat) (c / (cdiv p t).toNat) with
      | none => rw [hc] at hne; exact absurd rfl hne
      | some v0 =>
        have hv0 := hzero _ _ v0 hc
        subst hv0
        have hne' := (hinv.shape.cell_ne_none r c).1 (by rw [(hinv.written r c hS).1]; exact hne)
        rw [cell_replicate] at hne' ⊢
        split
        · have hw0 : wrap_int32 0 = 0 := by decide
          simp [hw0]
        · rename_i hcon
          rw [if_neg hcon] at hne'
          exact absurd rfl hne'
    · exact hinv.untouched r c hS

theorem cell_mem {g : Alignment} {i j : Nat} {v : Int × Int} (h : cell g i j = some v) :
    ∃ row ∈ g, v ∈ row := by
  unfold cell at h
  cases hr : g[i]? with
  | none => rw [hr] at h; cases h
  | some row =>
    rw [hr] at h
    exact ⟨row, List.getElem?_mem hr, List.getElem?_mem h⟩

/-- C21 (as stated, refuted): the all-zero 2 x 2 grid upsampled with the instance
`<2, 1>` (repeat 2) into the target shape 3 x 3 is not a zero grid of shape
3 x 3: the call fails with the `runtime_error` of line 91. -/
theorem zero_grid_upsample_fails_on_small_target :
    build_upsampled_prev_aligement 2 1 [[(0, 0), (0, 0)], [(0, 0), (0, 0)]] [] 3 3 =
      .error (.runtime_error "current level number of tiles smaller than upsampled tiles") ∧
    ((([[(0, 0), (0, 0)], [(0, 0), (0, 0)]] : Alignment).length : Int) * cdiv 2 1 > 3) := by
  decide

/-- C21 (amended): for every non-empty rectangular all-(0,0) source grid, every
instantiated (pyramid_ratio, tile_ratio) pair and every target shape (H, W):
when the replicated source fits the target (`src_height * repeat <= H` and
`src_width * repeat <= W`) `build_upsampled_prev_aligement` returns the grid of
shape H x W whose every entry is (0, 0); otherwise it fails with the
`runtime_error` of line 91. -/
theorem zero_grid_upsamples_to_zero_grid (p t : Int) (hp : p = 2 ∨ p = 4) (ht : t = 1 ∨ t = 2)
    (row0 : List (Int × Int)) (rest : Alignment)
    (hrect : ∀ row ∈ rest, row.length = row0.length)
    (hzero : ∀ row ∈ row0 :: rest, ∀ v ∈ row, v = (0, 0))
    (H W : Int) :
    ((((row0 :: rest).length : Int) * cdiv p t ≤ H ∧ (row0.length : Int) * cdiv p t ≤ W) →
      build_upsampled_prev_aligement p t (row0 :: rest) [] H W =
        .ok (List.replicate H.toNat (List.replicate W.toNat (0, 0)))) ∧
    (¬ (((row0 :: rest).length : Int) * cdiv p t ≤ H ∧ (row0.length : Int) * cdiv p t ≤ W) →
      build_upsampled_prev_aligement p t (row0 :: rest) [] H W =
        .error (.runtime_error "current level number of tiles smaller than upsampled tiles")) := by
  have hrep : 0 ≤ cdiv p t := by rcases hp with rfl | rfl <;> rcases ht with rfl | rfl <;> decide
  constructor
  · rintro ⟨h1, h2⟩
    obtain ⟨out, hout⟩ := build_upsampled_prev_aligement_total hrep row0 rest hrect
      (by simpa using h1) h2
    rw [hout, build_upsampled_prev_aligement_zero (fun i j v hv => by
      obtain ⟨row, hrow, hmem⟩ := cell_mem hv
      exact hzero row hrow v hmem) hout]
  · intro hov
    unfold build_upsampled_prev_aligement
    simp only [List.getElem?_cons_zero]
    rw [if_pos (by omega)]

theorem zero_grid_upsamples_to_zero_grid_witness :
    build_upsampled_prev_aligement 4 2 ([(0, 0), (0, 0)] :: [[(0, 0), (0, 0)]]) [] 5 4 =
      .ok (List.replicate (5 : Int).toNat (List.replicate (4 : Int).toNat (0, 0))) :=
  (zero_grid_upsamples_to_zero_grid 4 2 (by decide) (by decide) [(0, 0), (0, 0)]
    [[(0, 0), (0, 0)]] (by simp) (by decide) 5 4).1 (by decide)

/-! ## Level aligner: the range checks of the kernels -/

theorem copyMakeBorder_total (src : Mat) (r : Int) (hr : 0 ≤ r) (value : Fin 65536) :
    ∃ pad, copyMakeBorder src r r r r value = .ok pad := by
  unfold copyMakeBorder
  rw [if_neg (by omega)]
  exact ⟨_, rfl⟩

/-- C23: inside `align_image_level`, for two planes of equal dimensions, T in {8, 16},
r >= 0, any prior entry and every tile (i, j) of the grid, the reference origin
`(i*T/2, j*T/2)` lies in `[0, height - T] x [0, width - T]`, the clamped alt origin
lies in `[0, pad_height - (T + 2r)] x [0, pad_width - (T + 2r)]`, and every candidate
origin obtained by adding (a, b) with a, b in [0, 2r] lies in
`[0, pad_height - T] x [0, pad_width - T]`: the range check of the kernel passes
and both kernels return a distance.  Hence the call returns a grid whenever
the prior holds an entry for every tile. -/
theorem kernel_range_check_never_fails (ref_img alt_img : Mat) (T r : Int)
    (hT : T = 8 ∨ T = 16) (hr : 0 ≤ r)
    (hdim : alt_img.height = ref_img.height ∧ alt_img.width = ref_img.width) :
    ∃ pad, copyMakeBorder alt_img r r r r UINT_LEAST16_MAX = .ok pad ∧
      (∀ (prior : Int × Int) (i j : Nat), (i : Int) < (ref_img.height : Int) / (T / 2) - 1 →
        (j : Int) < (ref_img.width : Int) / (T / 2) - 1 →
        (0 ≤ cdiv (i * T) 2 ∧ cdiv (i * T) 2 ≤ (ref_img.height : Int) - T) ∧
        (0 ≤ cdiv (j * T) 2 ∧ cdiv (j * T) 2 ≤ (ref_img.width : Int) - T) ∧
        (0 ≤ clamp_start (cdiv (i * T) 2 + prior.1) ((pad.height : Int) - (T + 2 * r)) ∧
          clamp_start (cdiv (i * T) 2 + prior.1) ((pad.height : Int) - (T + 2 * r)) ≤
            (pad.height : Int) - (T + 2 * r)) ∧
        (0 ≤ clamp_start (cdiv (j * T) 2 + prior.2) ((pad.width : Int) - (T + 2 * r)) ∧
          clamp_start (cdiv (j * T) 2 + prior.2) ((pad.width : Int) - (T + 2 * r)) ≤
            (pad.width : Int) - (T + 2 * r)) ∧
        ∀ a b : Nat, (a : Int) ≤ 2 * r → (b : Int) ≤ 2 * r →
          (0 ≤ clamp_start (cdiv (i * T) 2 + prior.1) ((pad.height : Int) - (T + 2 * r)) + a ∧
            clamp_start (cdiv (i * T) 2 + prior.1) ((pad.height : Int) - (T + 2 * r)) + a ≤
              (pad.height : Int) - T) ∧
          (0 ≤ clamp_start (cdiv (j * T) 2 + prior.2) ((pad.width : Int) - (T + 2 * r)) + b ∧
            clamp_start (cdiv (j * T) 2 + prior.2) ((pad.width : Int) - (T + 2 * r)) + b ≤
              (pad.width : Int) - T) ∧
          range_check T.toNat ref_img pad (cdiv (i * T) 2) (cdiv (j * T) 2)
            (clamp_start (cdiv (i * T) 2 + prior.1) ((pad.height : Int) - (T + 2 * r)) + a)
            (clamp_start (cdiv (j * T) 2 + prior.2) ((pad.width : Int) - (T + 2 * r)) + b) =
              .ok () ∧
          (∃ v, tile_distance (distance_func_ptr 1 T) ref_img pad T r prior i j a b = .ok v) ∧
          (∃ v, tile_distance (distance_func_ptr 2 T) ref_img pad T r prior i j a b = .ok v)) ∧
      (∀ (prev up : Alignment) (scale pts dt : Int) (upsample : Option (Int × Int)),
        dt = 1 ∨ dt = 2 →
        upsample_alignment_func_ptr scale T pts = .ok upsample →
        0 ≤ (ref_img.height : Int) / (T / 2) - 1 → 0 ≤ (ref_img.width : Int) / (T / 2) - 1 →
        upsampled_prior upsample prev pts ((ref_img.height : Int) / (T / 2) - 1)
          ((ref_img.width : Int) / (T / 2) - 1) = .ok up →
        (∀ i j : Nat, (i : Int) < (ref_img.height : Int) / (T / 2) - 1 →
          (j : Int) < (ref_img.width : Int) / (T / 2) - 1 → cell up i j ≠ none) →
        ∃ out, align_image_level ref_img alt_img prev [] scale T pts r dt = .ok out) := by
  obtain ⟨pad, hb⟩ := copyMakeBorder_total alt_img r hr UINT_LEAST16_MAX
  obtain ⟨_, _, _, _, hph, hpw, _⟩ := copyMakeBorder_ok hb
  have hT' : (T.toNat : Int) = T := by rcases hT with rfl | rfl <;> decide
  have h8 : 8 ≤ T := by rcases hT with rfl | rfl <;> decide
  refine ⟨pad, hb, ?_, ?_⟩
  · intro prior i j hi hj
    have h1 := tile_origin_in_range i ref_img.height T hT hi
    have h2 := tile_origin_in_range j ref_img.width T hT hj
    rw [← tile_origin i T hT] at h1
    rw [← tile_origin j T hT] at h2
    have h3 := clamp_start_range (cdiv (i * T) 2 + prior.1) ((pad.height : Int) - (T + 2 * r))
      (by rw [hph, hdim.1]; omega)
    have h4 := clamp_start_range (cdiv (j * T) 2 + prior.2) ((pad.width : Int) - (T + 2 * r))
      (by rw [hpw, hdim.2]; omega)
    refine ⟨h1, h2, h3, h4, ?_⟩
    intro a b ha hb'
    have h5 : 0 ≤ clamp_start (cdiv (i * T) 2 + prior.1) ((pad.height : Int) - (T + 2 * r)) + a ∧
        clamp_start (cdiv (i * T) 2 + prior.1) ((pad.height : Int) - (T + 2 * r)) + a ≤
          (pad.height : Int) - T := by omega
    have h6 : 0 ≤ clamp_start (cdiv (j * T) 2 + prior.2) ((pad.width : Int) - (T + 2 * r)) + b ∧
        clamp_start (cdiv (j * T) 2 + prior.2) ((pad.width : Int) - (T + 2 * r)) + b ≤
          (pad.width : Int) - T := by omega
    refine ⟨h5, h6, ?_, ?_, ?_⟩
    · rw [range_check_ok_iff, hT']
      exact ⟨h1, h2, h5, h6⟩
    · exact ⟨_, candidate_distance_in_range hT (Or.inl rfl) ref_img pad _ _ _ _ a b h1 h2 h5 h6⟩
    · exact ⟨_, candidate_distance_in_range hT (Or.inr rfl) ref_img pad _ _ _ _ a b h1 h2 h5 h6⟩
  · intro prev up scale pts dt upsample hdt hu hH hW hp hc
    exact align_image_level_total hT hdt hr hu hH hW hp hc (fun h1 h2 => by
      rw [hdim.1, hdim.2]
      rcases hT with rfl | rfl
      · norm_num at h1 h2 ⊢; omega
      · norm_num at h1 h2 ⊢; omega)

theorem kernel_range_check_never_fails_witness :
    ∃ pad, copyMakeBorder (const_plane 40 24 9) 4 4 4 4 UINT_LEAST16_MAX = .ok pad ∧
      (∀ (prior : Int × Int) (i j : Nat), (i : Int) < ((const_plane 40 24 7).height : Int) / (16 / 2) - 1 →
        (j : Int) < ((const_plane 40 24 7).width : Int) / (16 / 2) - 1 →
        (0 ≤ cdiv (i * 16) 2 ∧ cdiv (i * 16) 2 ≤ ((const_plane 40 24 7).height : Int) - 16) ∧
        (0 ≤ cdiv (j * 16) 2 ∧ cdiv (j * 16) 2 ≤ ((const_plane 40 24 7).width : Int) - 16) ∧
        (0 ≤ clamp_start (cdiv (i * 16) 2 + prior.1) ((pad.height : Int) - (16 + 2 * 4)) ∧
          clamp_start (cdiv (i * 16) 2 + prior.1) ((pad.height : Int) - (16 + 2 * 4)) ≤
            (pad.height : Int) - (16 + 2 * 4)) ∧
        (0 ≤ clamp_start (cdiv (j * 16) 2 + prior.2) ((pad.width : Int) - (16 + 2 * 4)) ∧
          clamp_start (cdiv (j * 16) 2 + prior.2) ((pad.width : Int) - (16 + 2 * 4)) ≤
            (pad.width : Int) - (16 + 2 * 4)) ∧
        ∀ a b : Nat, (a : Int) ≤ 2 * 4 → (b : Int) ≤ 2 * 4 →
          (0 ≤ clamp_start (cdiv (i * 16) 2 + prior.1) ((pad.height : Int) - (16 + 2 * 4)) + a ∧
            clamp_start (cdiv (i * 16) 2 + prior.1) ((pad.height : Int) - (16 + 2 * 4)) + a ≤
              (pad.height : Int) - 16) ∧
          (0 ≤ clamp_start (cdiv (j * 16) 2 + prior.2) ((pad.width : Int) - (16 + 2 * 4)) + b ∧
            clamp_start (cdiv (j * 16) 2 + prior.2) ((pad.width : Int) - (16 + 2 * 4)) + b ≤
              (pad.width : Int) - 16) ∧
          range_check (16 : Int).toNat (const_plane 40 24 7) pad (cdiv (i * 16) 2) (cdiv (j * 16) 2)
            (clamp_start (cdiv (i * 16) 2 + prior.1) ((pad.height : Int) - (16 + 2 * 4)) + a)
            (clamp_start (cdiv (j * 16) 2 + prior.2) ((pad.width : Int) - (16 + 2 * 4)) + b) =
              .ok () ∧
          (∃ v, tile_distance (distance_func_ptr 1 16) (const_plane 40 24 7) pad 16 4 prior
            i j a b = .ok v) ∧
          (∃ v, tile_distance (distance_func_ptr 2 16) (const_plane 40 24 7) pad 16 4 prior
            i j a b = .ok v)) ∧
      (∀ (prev up : Alignment) (scale pts dt : Int) (upsample : Option (Int × Int)),
        dt = 1 ∨ dt = 2 →
        upsample_alignment_func_ptr scale 16 pts = .ok upsample →
        0 ≤ ((const_plane 40 24 7).height : Int) / (16 / 2) - 1 →
        0 ≤ ((const_plane 40 24 7).width : Int) / (16 / 2) - 1 →
        upsampled_prior upsample prev pts (((const_plane 40 24 7).height : Int) / (16 / 2) - 1)
          (((const_plane 40 24 7).width : Int) / (16 / 2) - 1) = .ok up →
        (∀ i j : Nat, (i : Int) < ((const_plane 40 24 7).height : Int) / (16 / 2) - 1 →
          (j : Int) < ((const_plane 40 24 7).width : Int) / (16 / 2) - 1 → cell up i j ≠ none) →
        ∃ out, align_image_level (const_plane 40 24 7) (const_plane 40 24 9) prev [] scale 16 pts
          4 dt = .ok out) :=
  kernel_range_check_never_fails (const_plane 40 24 7) (const_plane 40 24 9) 16 4
    (by decide) (by decide) (by decide)

/-! ## Level aligner: tiles are independent -/

/-- The entry `align_tile` computes for tile (i, j) reads the prior through the
cell (i, j) only. -/
theorem align_tile_congr (dist : Option DistanceFn) (ref_img pad : Mat) (up1 up2 : Alignment)
    (T r : Int) (i j : Nat) (h : cell up1 i j = cell up2 i j) :
    align_tile dist ref_img pad up1 T r i j = align_tile dist ref_img pad up2 T r i j := by
  unfold align_tile
  rw [read_cell_eq, read_cell_eq, h]

/-- C25: tile independence.  Two runs of `align_image_level` on the same planes with
the same T, r, metric and ratios, whose upsampled priors agree at the cell
(i, j) and differ arbitrarily elsewhere, record the same entry at (i, j); the
computation of the entry of a tile (`align_tile`) gives the same result,
error included, for any two priors that agree at that cell. -/
theorem tile_independence (ref_img alt_img : Mat) (prev1 prev2 out1 out2 up1 up2 : Alignment)
    (scale T pts r dt : Int) (upsample : Option (Int × Int)) (i j : Nat)
    (h1 : align_image_level ref_img alt_img prev1 [] scale T pts r dt = .ok out1)
    (h2 : align_image_level ref_img alt_img prev2 [] scale T pts r dt = .ok out2)
    (hu : upsample_alignment_func_ptr scale T pts = .ok upsample)
    (hp1 : upsampled_prior upsample prev1 pts (cdiv ref_img.height (cdiv T 2) - 1)
      (cdiv ref_img.width (cdiv T 2) - 1) = .ok up1)
    (hp2 : upsampled_prior upsample prev2 pts (cdiv ref_img.height (cdiv T 2) - 1)
      (cdiv ref_img.width (cdiv T 2) - 1) = .ok up2)
    (hagree : cell up1 i j = cell up2 i j) :
    cell out1 i j = cell out2 i j ∧
    ∀ (dist : Option DistanceFn) (pad : Mat),
      align_tile dist ref_img pad up1 T r i j = align_tile dist ref_img pad up2 T r i j := by
  refine ⟨?_, fun dist pad => align_tile_congr dist ref_img pad up1 up2 T r i j hagree⟩
  obtain ⟨_, _, _, us1, u1, pad1, hu1, hq1, hb1, hinv1⟩ := align_image_level_ok h1
  obtain ⟨_, _, _, us2, u2, pad2, hu2, hq2, hb2, hinv2⟩ := align_image_level_ok h2
  rw [hu] at hu1 hu2
  cases hu1
  cases hu2
  rw [hp1] at hq1
  rw [hp2] at hq2
  cases hq1
  cases hq2
  rw [hb1] at hb2
  cases hb2
  by_cases hS : i < (cdiv ref_img.height (cdiv T 2) - 1).toNat ∧
      j < (cdiv ref_img.width (cdiv T 2) - 1).toNat
  · rw [(hinv1.written i j hS).1, (hinv2.written i j hS).1]
    unfold tile_entry
    rw [align_tile_congr _ ref_img pad1 up1 up2 T r i j hagree]
  · rw [hinv1.untouched i j hS, hinv2.untouched i j hS]

theorem tile_independence_witness :
    cell [[(2, 1), (0, -1)]] 0 1 = cell [[(0, -2), (0, -1)]] 0 1 ∧
    ∀ (dist : Option DistanceFn) (pad : Mat),
      align_tile dist (const_plane 8 12 7) pad [[(2, 2), (0, 0)]] 8 1 0 1 =
        align_tile dist (const_plane 8 12 7) pad [[(0, -2), (0, 0)]] 8 1 0 1 :=
  tile_independence (const_plane 8 12 7) (const_plane 8 12 7) [[(1, 1)]] [[(0, -1)]]
    [[(2, 1), (0, -1)]] [[(0, -2), (0, -1)]] [[(2, 2), (0, 0)]] [[(0, -2), (0, 0)]]
    2 8 4 1 1 (some (2, 2)) 0 1 (by decide!) (by decide!) (by decide) (by decide) (by decide)
    (by decide)

/-! ## Burst aligner: the replication factor and the tile strides -/

/-- C29: for each of the three level pairs of the fixed configuration (L = 2, 1, 0) the
upsampler instance selected by `align_image_level` has the ratios
`(inv_scale_factors[L+1], tile_sizes[L] / tile_sizes[L+1])`, its repeat factor is 2, 4
and 2 at levels 2, 1 and 0, and `repeat * (fine tile size / 2)` equals
`pyramid_ratio * (coarse tile size / 2)`; hence the origin of the fine grid cell
`i*repeat + a` (0 <= a < repeat) lies in the span of the half-tile stride of the
coarse cell `i` scaled to the fine level. -/
theorem repeat_matches_tile_strides (L : Nat) (hL : L < 3) :
    upsample_alignment_func_ptr (level_args L).scale_factor_prev_curr
      (level_args L).curr_tile_size (level_args L).prev_tile_size =
        .ok (some ((level_args L).scale_factor_prev_curr,
          cdiv (level_args L).curr_tile_size (level_args L).prev_tile_size)) ∧
    cdiv (level_args L).scale_factor_prev_curr
      (cdiv (level_args L).curr_tile_size (level_args L).prev_tile_size) = [2, 4, 2].getD L 0 ∧
    cdiv (level_args L).scale_factor_prev_curr
        (cdiv (level_args L).curr_tile_size (level_args L).prev_tile_size) *
        cdiv (level_args L).curr_tile_size 2 =
      (level_args L).scale_factor_prev_curr * cdiv (level_args L).prev_tile_size 2 ∧
    ∀ i a : Nat, (a : Int) < cdiv (level_args L).scale_factor_prev_curr
        (cdiv (level_args L).curr_tile_size (level_args L).prev_tile_size) →
      (i : Int) * ((level_args L).scale_factor_prev_curr * cdiv (level_args L).prev_tile_size 2) ≤
        ((i : Int) * cdiv (level_args L).scale_factor_prev_curr
          (cdiv (level_args L).curr_tile_size (level_args L).prev_tile_size) + a) *
          cdiv (level_args L).curr_tile_size 2 ∧
      ((i : Int) * cdiv (level_args L).scale_factor_prev_curr
          (cdiv (level_args L).curr_tile_size (level_args L).prev_tile_size) + a) *
          cdiv (level_args L).curr_tile_size 2 <
        ((i : Int) + 1) *
          ((level_args L).scale_factor_prev_curr * cdiv (level_args L).prev_tile_size 2) := by
  have e8 : cdiv 8 2 = 4 := by decide
  have e16 : cdiv 16 2 = 8 := by decide
  have r2 : cdiv 4 (cdiv 16 8) = 2 := by decide
  have r1 : cdiv 4 (cdiv 16 16) = 4 := by decide
  have r0 : cdiv 2 (cdiv 16 16) = 2 := by decide
  interval_cases L
  · rw [level_args_values.2.2.2]
    simp only [r0, e16]
    refine ⟨by decide, by decide, by decide, fun i a ha => ?_⟩
    omega
  · rw [level_args_values.2.2.1]
    simp only [r1, e16]
    refine ⟨by decide, by decide, by decide, fun i a ha => ?_⟩
    omega
  · rw [level_args_values.2.1]
    simp only [r2, e16, e8]
    refine ⟨by decide, by decide, by decide, fun i a ha => ?_⟩
    omega

theorem repeat_matches_tile_strides_witness :
    upsample_alignment_func_ptr (level_args 2).scale_factor_prev_curr
      (level_args 2).curr_tile_size (level_args 2).prev_tile_size =
        .ok (some ((level_args 2).scale_factor_prev_curr,
          cdiv (level_args 2).curr_tile_size (level_args 2).prev_tile_size)) ∧
    cdiv (level_args 2).scale_factor_prev_curr
      (cdiv (level_args 2).curr_tile_size (level_args 2).prev_tile_size) = [2, 4, 2].getD 2 0 ∧
    cdiv (level_args 2).scale_factor_prev_curr
        (cdiv (level_args 2).curr_tile_size (level_args 2).prev_tile_size) *
        cdiv (level_args 2).curr_tile_size 2 =
      (level_args 2).scale_factor_prev_curr * cdiv (level_args 2).prev_tile_size 2 ∧
    ∀ i a : Nat, (a : Int) < cdiv (level_args 2).scale_factor_prev_curr
        (cdiv (level_args 2).curr_tile_size (level_args 2).prev_tile_size) →
      (i : Int) * ((level_args 2).scale_factor_prev_curr * cdiv (level_args 2).prev_tile_size 2) ≤
        ((i : Int) * cdiv (level_args 2).scale_factor_prev_curr
          (cdiv (level_args 2).curr_tile_size (level_args 2).prev_tile_size) + a) *
          cdiv (level_args 2).curr_tile_size 2 ∧
      ((i : Int) * cdiv (level_args 2).scale_factor_prev_curr
          (cdiv (level_args 2).curr_tile_size (level_args 2).prev_tile_size) + a) *
          cdiv (level_args 2).curr_tile_size 2 <
        ((i : Int) + 1) *
          ((level_args 2).scale_factor_prev_curr * cdiv (level_args 2).prev_tile_size 2) :=
  repeat_matches_tile_strides 2 (by decide)

/-! ## Level aligner: unsupported dispatch inputs -/

/-- C30 (failing input): unsupported dispatch inputs leave the function pointers null
and no error is raised for them.  With the tile size 32, or with the distance
type 3, a call whose grid has no tile returns successfully; with the tile size
4 or the distance type 3 and a grid that has tiles, the null `distance_func_ptr`
is called at the first candidate; with the pyramid scale factor 3 and a prior
present, the dispatch raises nothing (`upsample_alignment_func_ptr` stays null)
and the null pointer is called at line 335. -/
theorem unsupported_dispatch_is_not_reported :
    align_image_level (const_plane 16 16 0) (const_plane 16 16 0) [] [] (-1) 32 (-1) 1 1 = .ok [] ∧
    align_image_level (const_plane 4 4 0) (const_plane 4 4 0) [] [] (-1) 8 (-1) 1 3 = .ok [] ∧
    distance_func_ptr 1 4 = none ∧ distance_func_ptr 3 8 = none ∧
    align_image_level (const_plane 8 8 0) (const_plane 8 8 0) [] [] (-1) 4 (-1) 1 1 =
      .error .null_call ∧
    align_image_level (const_plane 8 8 0) (const_plane 8 8 0) [] [] (-1) 8 (-1) 1 3 =
      .error .null_call ∧
    upsample_alignment_func_ptr 3 8 8 = .ok none ∧
    align_image_level (const_plane 8 8 0) (const_plane 8 8 0) [[(0, 0)]] [] 3 8 8 1 1 =
      .error .null_call := by
  have h1 : distance_func_ptr 1 4 = none := rfl
  have h2 : distance_func_ptr 3 8 = none := rfl
  refine ⟨by decide, by decide, h1, h2, by decide, by decide, by decide, by decide⟩

/-! ## Level aligner: the meaning of a displacement -/

/-- When the nominal origin of a tile lies inside the clamp range and some
candidate of its window has a distance below `ULONG_LONG_MAX`, the entry
recorded is the displacement from the reference origin to the origin, in
unpadded alt coordinates, of a candidate that attains the minimum distance of
the window. -/
theorem displacement_of_chosen_candidate {ref_img alt_img : Mat} {prev out : Alignment}
    {scale T pts r dt : Int}
    (h : align_image_level ref_img alt_img prev [] scale T pts r dt = .ok out)
    (i j : Nat) (hi : (i : Int) < cdiv ref_img.height (cdiv T 2) - 1)
    (hj : (j : Int) < cdiv ref_img.width (cdiv T 2) - 1) :
    ∃ up pad prior, copyMakeBorder alt_img r r r r UINT_LEAST16_MAX = .ok pad ∧
      cell up i j = some prior ∧
      (0 ≤ cdiv (i * T) 2 + prior.1 ∧ cdiv (i * T) 2 + prior.1 ≤ (alt_img.height : Int) - T →
        0 ≤ cdiv (j * T) 2 + prior.2 ∧ cdiv (j * T) 2 + prior.2 ≤ (alt_img.width : Int) - T →
        (∃ a b : Nat, (a : Int) ≤ 2 * r ∧ (b : Int) ≤ 2 * r ∧ ∃ v,
          tile_distance (distance_func_ptr dt T) ref_img pad T r prior i j a b = .ok v ∧
          v < ULONG_LONG_MAX) →
        ∃ (a b : Nat) (m : Nat) (g : Int × Int), (a : Int) ≤ 2 * r ∧ (b : Int) ≤ 2 * r ∧
          cell out i j = some g ∧
          tile_distance (distance_func_ptr dt T) ref_img pad T r prior i j a b = .ok m ∧
          (∀ (a' b' : Nat) (v : Nat), (a' : Int) ≤ 2 * r → (b' : Int) ≤ 2 * r →
            tile_distance (distance_func_ptr dt T) ref_img pad T r prior i j a' b' = .ok v →
            m ≤ v) ∧
          clamp_start (cdiv (i * T) 2 + prior.1) ((pad.height : Int) - (T + 2 * r)) + a - r =
            cdiv (i * T) 2 + g.1 ∧
          clamp_start (cdiv (j * T) 2 + prior.2) ((pad.width : Int) - (T + 2 * r)) + b - r =
            cdiv (j * T) 2 + g.2) := by
  obtain ⟨upsample, up, pad, prior, hu, hp, hb, hc, hmain⟩ :=
    entry_is_first_minimum ref_img alt_img prev out scale T pts r dt h i j hi hj
  refine ⟨up, pad, prior, hb, hc, ?_⟩
  intro hrow hcol hsome
  obtain ⟨a, b, m, ha, hb', hcell, hd, hmin, _⟩ := hmain hsome
  obtain ⟨_, _, _, _, hph, hpw, _⟩ := copyMakeBorder_ok hb
  refine ⟨a, b, m, _, ha, hb', hcell, hd, hmin, ?_, ?_⟩
  · rw [clamp_start_id _ _ hrow.1 (by omega)]
    simp only
    omega
  · rw [clamp_start_id _ _ hcol.1 (by omega)]
    simp only
    omega

/-- C22 (failing input): tile size 16, radius 1, L2, zero prior, on the 26 x 26 pair
whose alternate plane is all zero and whose reference holds the samples 65535,
362, 5 and 1 in the tile of grid cell (1, 1).  The nominal origin (8, 8) of that
tile lies inside the clamp range `[0, 10]`.  All nine candidates attain the
recorded minimum `2^64 - 1`; their origins in unpadded alt coordinates are
`8 + a - 1` and `8 + b - 1` with a, b in [0, 2], while the recorded displacement is
(-2, -2): the reference origin plus the displacement, (6, 6), is the origin of
none of them. -/
theorem displacement_points_at_no_candidate_when_l2_wraps :
    clamp_start (cdiv ((1 : Nat) * 16) 2 + 0) ((26 : Int) + 2 * 1 - (16 + 2 * 1)) =
      cdiv ((1 : Nat) * 16) 2 + 0 ∧
    (copyMakeBorder (const_plane 26 26 0) 1 1 1 1 UINT_LEAST16_MAX >>= fun pad =>
      align_tile (distance_func_ptr 2 16) sentinel_ref_26 pad [[(0, 0), (0, 0)], [(0, 0), (0, 0)]]
        16 1 1 1) = .ok (-2, -2) ∧
    (∀ a ∈ [0, 1, 2], ∀ b ∈ [0, 1, 2],
      (copyMakeBorder (const_plane 26 26 0) 1 1 1 1 UINT_LEAST16_MAX >>= fun pad =>
        tile_distance (distance_func_ptr 2 16) sentinel_ref_26 pad 16 1 (0, 0) 1 1 a b) =
          .ok ULONG_LONG_MAX) ∧
    ∀ a ∈ [(0 : Int), 1, 2], cdiv ((1 : Nat) * 16) 2 + 0 + a - 1 ≠ cdiv ((1 : Nat) * 16) 2 + (-2) := by
  decide!

/-! ## Level aligner: recovery of a translation -/

/-- C24: single-level translation recovery.  With an all-zero prior, T in {8, 16},
r >= 0 and either metric, let the alt plane (of the size of the reference) hold
the reference tile (i, j) translated by an integer (sy, sx) with |sy|, |sx| <= r,
the translated tile lying inside the alt plane.  If no candidate scanned
before `(r + sy, r + sx)` has distance zero for that tile, `align_image_level`
returns a grid whose entry at (i, j) is (sy, sx). -/
theorem translation_is_recovered (ref_img alt_img : Mat) (prev : Alignment)
    (scale T pts r dt : Int) (upsample : Option (Int × Int))
    (hT : T = 8 ∨ T = 16) (hdt : dt = 1 ∨ dt = 2) (hr : 0 ≤ r)
    (hu : upsample_alignment_func_ptr scale T pts = .ok upsample)
    (hH : 0 ≤ (ref_img.height : Int) / (T / 2) - 1) (hW : 0 ≤ (ref_img.width : Int) / (T / 2) - 1)
    (hp : upsampled_prior upsample prev pts ((ref_img.height : Int) / (T / 2) - 1)
      ((ref_img.width : Int) / (T / 2) - 1) =
        .ok (List.replicate ((ref_img.height : Int) / (T / 2) - 1).toNat
          (List.replicate ((ref_img.width : Int) / (T / 2) - 1).toNat (0, 0))))
    (hdim : alt_img.height = ref_img.height ∧ alt_img.width = ref_img.width)
    (i j : Nat) (hi : (i : Int) < (ref_img.height : Int) / (T / 2) - 1)
    (hj : (j : Int) < (ref_img.width : Int) / (T / 2) - 1)
    (sy sx : Int) (hsy : |sy| ≤ r) (hsx : |sx| ≤ r)
    (hrow : 0 ≤ i * (T / 2) + sy ∧ i * (T / 2) + sy + T ≤ alt_img.height)
    (hcol : 0 ≤ j * (T / 2) + sx ∧ j * (T / 2) + sx + T ≤ alt_img.width)
    (htrans : ∀ k l : Nat, (k : Int) < T → (l : Int) < T →
      alt_img.px (i * (T / 2) + k + sy) (j * (T / 2) + l + sx) =
        ref_img.px (i * (T / 2) + k) (j * (T / 2) + l))
    (hfirst : ∀ a' < (2 * r + 1).toNat, ∀ b' < (2 * r + 1).toNat,
      ((a' : Int) < r + sy ∨ ((a' : Int) = r + sy ∧ (b' : Int) < r + sx)) →
      (copyMakeBorder alt_img r r r r UINT_LEAST16_MAX >>= fun pad =>
        tile_distance (distance_func_ptr dt T) ref_img pad T r (0, 0) i j a' b') ≠ .ok 0) :
    ∃ out, align_image_level ref_img alt_img prev [] scale T pts r dt = .ok out ∧
      cell out i j = some (sy, sx) := by
  obtain ⟨out, pad, hout, hb, hent⟩ := zero_prior_entry hT hdt hr hu hH hW hp hdim
  refine ⟨out, hout, ?_⟩
  obtain ⟨st, hs, hcell⟩ := hent i j hi hj
  obtain ⟨_, _, _, _, hph, hpw, hpx⟩ := copyMakeBorder_ok hb
  have h1 := tile_origin_in_range i ref_img.height T hT hi
  have h2 := tile_origin_in_range j ref_img.width T hT hj
  have hT' : T.toNat ≤ 65536 ∧ (T.toNat : Int) = T := by rcases hT with rfl | rfl <;> decide
  rw [abs_le] at hsy hsx
  have hst := search_tile_first_zero hs (r + sy).toNat (r + sx).toNat (by omega) (by omega)
    (by
      rw [candidate_distance_in_range hT hdt ref_img pad _ _ _ _ _ _ h1 h2 (by omega) (by omega),
        kernel_sum_zero T.toNat hT'.1]
      intro k l hk hl
      rw [hpx, if_pos (by omega), ← htrans k l (by omega) (by omega)]
      congr 1 <;> omega)
    (by
      intro a' b' v hb2 hlex hv
      have hne := hfirst a' (by omega) b' (by omega) (by omega)
      rw [hb] at hne
      have hne' : tile_distance (distance_func_ptr dt T) ref_img pad T r (0, 0) i j a' b' ≠ .ok 0 :=
        hne
      rw [tile_distance_zero_prior hT _ hb hdim i j hi hj, hv] at hne'
      have : v ≠ 0 := fun h0 => hne' (by rw [h0])
      omega)
  rw [hcell, hst]
  simp only [Option.some.injEq, Prod.mk.injEq]
  omega

theorem translation_is_recovered_witness :
    ∃ out, align_image_level (ramp_plane 12 12) (translated (ramp_plane 12 12) 1 0) [] []
        (-1) 8 (-1) 1 1 = .ok out ∧
      cell out 0 0 = some (1, 0) :=
  translation_is_recovered (ramp_plane 12 12) (translated (ramp_plane 12 12) 1 0) []
    (-1) 8 (-1) 1 1 none (by decide) (by decide) (by decide) (by decide) (by decide) (by decide)
    (by decide) (by decide) 0 0 (by decide) (by decide) 1 0 (by decide) (by decide)
    (by decide) (by decide)
    (fun k l _ _ => by
      show (ramp_plane 12 12).px (((0 : Nat) : Int) * (8 / 2) + k + 1 - 1)
        (((0 : Nat) : Int) * (8 / 2) + l + 0 - 0) = _
      congr 1; omega)
    (by decide!)

/-! ## Burst aligner: when the level loop returns -/

/-- The upsampled prior is built, with the shape of the grid, from a non-empty
coarser grid of full shape whose replicated extent fits the grid; the cells
outside that extent hold (0, 0). -/
theorem upsampled_prior_total {p t : Int} (hrep : 0 ≤ cdiv p t) {prev : Alignment} {Hp Wp : Nat}
    (hshape : SameShape (List.replicate Hp (List.replicate Wp ((0, 0) : Int × Int))) prev)
    (hHp : 0 < Hp) {pts H W : Int} (hpts : pts ≠ -1)
    (hrows : (Hp : Int) * cdiv p t ≤ H) (hcols : (Wp : Int) * cdiv p t ≤ W) :
    ∃ up, upsampled_prior (some (p, t)) prev pts H W = .ok up ∧
      SameShape (List.replicate H.toNat (List.replicate W.toNat ((0, 0) : Int × Int))) up ∧
      ∀ i j : Nat, ¬ (i < Hp * (cdiv p t).toNat ∧ j < Wp * (cdiv p t).toNat) →
        cell up i j = cell (List.replicate H.toNat (List.replicate W.toNat ((0, 0) : Int × Int))) i j := by
  obtain ⟨hlen, hwid⟩ := hshape.replicate
  cases prev with
  | nil => simp at hlen; omega
  | cons row0 rest =>
    have h0 : row0.length = Wp := hwid row0 (List.mem_cons_self _ _)
    have hl : rest.length + 1 = Hp := by simpa using hlen
    have hrect : ∀ row ∈ rest, row.length = row0.length := fun row hrow => by
      rw [h0]; exact hwid row (List.mem_cons_of_mem _ hrow)
    obtain ⟨up, hup⟩ := build_upsampled_prev_aligement_total hrep row0 rest hrect
      (H := H) (W := W) (by rw [hl]; exact hrows) (by rw [h0]; exact hcols)
    obtain ⟨_, _, _, _, hinv⟩ := build_upsampled_prev_aligement_ok hup
    refine ⟨up, ?_, hinv.shape, ?_⟩
    · unfold upsampled_prior
      rw [if_neg hpts]
      exact hup
    · intro i j hS
      exact hinv.untouched i j (by rw [hl, h0]; exact hS)

/-- One level below the coarsest returns a grid of the shape
`(floor(h/(T/2)) - 1, floor(w/(T/2)) - 1)` when the two planes have the same size and
the coarser grid is non-empty, of full shape, and fits after replication. -/
theorem level_total {ref_img alt_img : Mat} {prev : Alignment} {Hp Wp : Nat}
    {scale T pts r dt p t : Int}
    (hdim : alt_img.height = ref_img.height ∧ alt_img.width = ref_img.width)
    (hshape : SameShape (List.replicate Hp (List.replicate Wp ((0, 0) : Int × Int))) prev)
    (hHp : 0 < Hp) (hT : T = 8 ∨ T = 16) (hdt : dt = 1 ∨ dt = 2) (hr : 0 ≤ r)
    (hu : upsample_alignment_func_ptr scale T pts = .ok (some (p, t))) (hpts : pts ≠ -1)
    (hrep : 0 ≤ cdiv p t)
    (hrows : (Hp : Int) * cdiv p t ≤ (ref_img.height : Int) / (T / 2) - 1)
    (hcols : (Wp : Int) * cdiv p t ≤ (ref_img.width : Int) / (T / 2) - 1) :
    ∃ out, align_image_level ref_img alt_img prev [] scale T pts r dt = .ok out ∧
      SameShape (List.replicate ((ref_img.height : Int) / (T / 2) - 1).toNat
        (List.replicate ((ref_img.width : Int) / (T / 2) - 1).toNat ((0, 0) : Int × Int))) out := by
  obtain ⟨up, hp, hsh, _⟩ := upsampled_prior_total hrep hshape hHp hpts hrows hcols
  have hH : 0 ≤ (ref_img.height : Int) / (T / 2) - 1 :=
    le_trans (mul_nonneg (by omega) hrep) hrows
  have hW : 0 ≤ (ref_img.width : Int) / (T / 2) - 1 :=
    le_trans (mul_nonneg (by omega) hrep) hcols
  obtain ⟨out, hout⟩ := @align_image_level_total ref_img alt_img prev up scale T pts r dt
    (some (p, t)) hT hdt hr hu hH hW hp
    (fun i j hi hj => (hsh.cell_ne_none i j).2 (by
      rw [cell_replicate, if_pos ⟨by omega, by omega⟩]; simp))
    (fun h1 h2 => by
      rw [hdim.1, hdim.2]
      rcases hT with rfl | rfl
      · norm_num at h1 h2 ⊢; omega
      · norm_num at h1 h2 ⊢; omega)
  refine ⟨out, hout, ?_⟩
  obtain ⟨_, _, _, _, _, _, _, _, _, hinv⟩ := align_image_level_ok hout
  have hs := hinv.shape
  rw [num_tiles_eq _ T hT, num_tiles_eq _ T hT] at hs
  exact hs

/-- The coarsest level returns a grid of the shape
`(floor(h/(T/2)) - 1, floor(w/(T/2)) - 1)` when the two planes have the same size and
that shape is not negative. -/
theorem level_total_coarsest {ref_img alt_img : Mat} {prev : Alignment} {scale T r dt : Int}
    (hdim : alt_img.height = ref_img.height ∧ alt_img.width = ref_img.width)
    (hT : T = 8 ∨ T = 16) (hdt : dt = 1 ∨ dt = 2) (hr : 0 ≤ r)
    (h2 : scale ≠ 2) (h4 : scale ≠ 4)
    (hH : 0 ≤ (ref_img.height : Int) / (T / 2) - 1)
    (hW : 0 ≤ (ref_img.width : Int) / (T / 2) - 1) :
    ∃ out, align_image_level ref_img alt_img prev [] scale T (-1) r dt = .ok out ∧
      SameShape (List.replicate ((ref_img.height : Int) / (T / 2) - 1).toNat
        (List.replicate ((ref_img.width : Int) / (T / 2) - 1).toNat ((0, 0) : Int × Int))) out := by
  have hp : upsampled_prior none prev (-1) ((ref_img.height : Int) / (T / 2) - 1)
      ((ref_img.width : Int) / (T / 2) - 1) =
      .ok (List.replicate ((ref_img.height : Int) / (T / 2) - 1).toNat
        (List.replicate ((ref_img.width : Int) / (T / 2) - 1).toNat (0, 0))) := by
    unfold upsampled_prior
    rw [if_pos rfl, resize_zero_nil_ok _ _ hH hW]
  obtain ⟨out, hout⟩ := @align_image_level_total ref_img alt_img prev _ scale T (-1) r dt
    none hT hdt hr (upsample_alignment_func_ptr_coarsest scale T h2 h4) hH hW hp
    (fun i j hi hj => by rw [cell_replicate, if_pos ⟨by omega, by omega⟩]; simp)
    (fun h1 h2 => by
      rw [hdim.1, hdim.2]
      rcases hT with rfl | rfl
      · norm_num at h1 h2 ⊢; omega
      · norm_num at h1 h2 ⊢; omega)
  refine ⟨out, hout, ?_⟩
  obtain ⟨_, _, _, _, _, _, _, _, _, hinv⟩ := align_image_level_ok hout
  have hs := hinv.shape
  rw [num_tiles_eq _ T hT, num_tiles_eq _ T hT] at hs
  exact hs

theorem level_step_eq {ref_pyr alt_pyr : List Mat} {s : Alignment × Alignment} {L : Nat}
    {ref_img alt_img : Mat} {g : Alignment}
    (hr : ref_pyr[L]? = some ref_img) (ha : alt_pyr[L]? = some alt_img)
    (hal : align_image_level ref_img alt_img s.1 [] (level_args L).scale_factor_prev_curr
      (level_args L).curr_tile_size (level_args L).prev_tile_size (level_args L).search_radiou
      (level_args L).distance_type = .ok g) :
    level_step ref_pyr alt_pyr s L = .ok (g, s.1) := by
  unfold level_step
  rw [hr, ha]
  simp only
  rw [hal]

/-- The states of the level loop, and its result, from the four steps. -/
theorem level_state_of_steps {ref_pyr alt_pyr : List Mat} {g3 g2 g1 g0 : Alignment}
    (e3 : level_step ref_pyr alt_pyr ([], []) 3 = .ok (g3, []))
    (e2 : level_step ref_pyr alt_pyr (g3, []) 2 = .ok (g2, g3))
    (e1 : level_step ref_pyr alt_pyr (g2, g3) 1 = .ok (g1, g2))
    (e0 : level_step ref_pyr alt_pyr (g1, g2) 0 = .ok (g0, g1)) :
    level_state ref_pyr alt_pyr 3 = .ok (g3, []) ∧
    level_state ref_pyr alt_pyr 2 = .ok (g2, g3) ∧
    level_state ref_pyr alt_pyr 1 = .ok (g1, g2) ∧
    level_state ref_pyr alt_pyr 0 = .ok (g0, g1) ∧
    align_levels ref_pyr alt_pyr = .ok g0 := by
  have l3 : levels_down_to 3 = [3] := by decide
  have l2 : levels_down_to 2 = [3, 2] := by decide
  have l1 : levels_down_to 1 = [3, 2, 1] := by decide
  have l0 : levels_down_to 0 = [3, 2, 1, 0] := by decide
  have hl : (List.range num_levels).reverse = [3, 2, 1, 0] := by decide
  have hb : ∀ (x : Alignment × Alignment)
      (f : Alignment × Alignment → Except Fault (Alignment × Alignment)),
      ((Except.ok x : Except Fault (Alignment × Alignment)) >>= f) = f x := fun _ _ => rfl
  unfold level_state align_levels
  rw [l3, l2, l1, l0, hl]
  simp only [List.foldlM_cons, List.foldlM_nil, e3, e2, e1, e0, hb]
  exact ⟨rfl, rfl, rfl, rfl, rfl⟩

/-- Arithmetic of the grid dimensions along a pyramid of the fixed configuration:
each grid is non-empty and the replicated coarser grid fits the finer one
with one row (column) to spare. -/
theorem pyramid_grid_arith (n0 n1 n2 n3 : Nat) (h1 : n1 = n0 / 2) (h2 : n2 = n1 / 4)
    (h3 : n3 = n2 / 4) (hmin : 8 ≤ n3) :
    (((n3 : Int) / 4 - 1).toNat = n3 / 4 - 1 ∧ ((n2 : Int) / 8 - 1).toNat = n2 / 8 - 1 ∧
      ((n1 : Int) / 8 - 1).toNat = n1 / 8 - 1 ∧ ((n0 : Int) / 8 - 1).toNat = n0 / 8 - 1) ∧
    (0 < n3 / 4 - 1 ∧ 0 < n2 / 8 - 1 ∧ 0 < n1 / 8 - 1 ∧ 0 < n0 / 8 - 1) ∧
    (0 ≤ (n3 : Int) / 4 - 1 ∧
      ((n3 / 4 - 1 : Nat) : Int) * 2 ≤ (n2 : Int) / 8 - 1 - 1 ∧
      ((n2 / 8 - 1 : Nat) : Int) * 4 ≤ (n1 : Int) / 8 - 1 - 1 ∧
      ((n1 / 8 - 1 : Nat) : Int) * 2 ≤ (n0 : Int) / 8 - 1 - 1) := by
  subst h1 h2 h3
  refine ⟨⟨?_, ?_, ?_, ?_⟩, ⟨?_, ?_, ?_, ?_⟩, ?_, ?_, ?_, ?_⟩ <;> omega

/-- The level loop of `align::process` returns for two pyramids of the fixed
configuration whose planes have, level by level, the same size, each level
being the level above integer-divided by its factor, with a coarsest level
of at least 8 x 8: every level returns a non-empty grid of the shape
`(floor(h/(T/2)) - 1, floor(w/(T/2)) - 1)`. -/
theorem level_loop_total (R0 R1 R2 R3 A0 A1 A2 A3 : Mat)
    (hd0 : A0.height = R0.height ∧ A0.width = R0.width)
    (hd1 : A1.height = R1.height ∧ A1.width = R1.width)
    (hd2 : A2.height = R2.height ∧ A2.width = R2.width)
    (hd3 : A3.height = R3.height ∧ A3.width = R3.width)
    (h1 : R1.height = R0.height / 2 ∧ R1.width = R0.width / 2)
    (h2 : R2.height = R1.height / 4 ∧ R2.width = R1.width / 4)
    (h3 : R3.height = R2.height / 4 ∧ R3.width = R2.width / 4)
    (hmin : 8 ≤ R3.height ∧ 8 ≤ R3.width) :
    ∃ g3 g2 g1 g0 : Alignment,
      level_state [R0, R1, R2, R3] [A0, A1, A2, A3] 3 = .ok (g3, []) ∧
      level_state [R0, R1, R2, R3] [A0, A1, A2, A3] 2 = .ok (g2, g3) ∧
      level_state [R0, R1, R2, R3] [A0, A1, A2, A3] 1 = .ok (g1, g2) ∧
      level_state [R0, R1, R2, R3] [A0, A1, A2, A3] 0 = .ok (g0, g1) ∧
      align_levels [R0, R1, R2, R3] [A0, A1, A2, A3] = .ok g0 ∧
      SameShape (List.replicate (R3.height / 4 - 1) (List.replicate (R3.width / 4 - 1) (0, 0))) g3 ∧
      SameShape (List.replicate (R2.height / 8 - 1) (List.replicate (R2.width / 8 - 1) (0, 0))) g2 ∧
      SameShape (List.replicate (R1.height / 8 - 1) (List.replicate (R1.width / 8 - 1) (0, 0))) g1 ∧
      SameShape (List.replicate (R0.height / 8 - 1) (List.replicate (R0.width / 8 - 1) (0, 0))) g0 ∧
      0 < R3.height / 4 - 1 ∧ 0 < R3.width / 4 - 1 ∧ 0 < R2.height / 8 - 1 ∧
      0 < R2.width / 8 - 1 ∧ 0 < R1.height / 8 - 1 ∧ 0 < R1.width / 8 - 1 ∧
      0 < R0.height / 8 - 1 ∧ 0 < R0.width / 8 - 1 := by
  have e8 : (8 : Int) / 2 = 4 := by decide
  have e16 : (16 : Int) / 2 = 8 := by decide
  have c42 : cdiv 4 2 = 2 := by decide
  have c41 : cdiv 4 1 = 4 := by decide
  have c21 : cdiv 2 1 = 2 := by decide
  obtain ⟨⟨n3h, n2h, n1h, n0h⟩, ⟨p3h, p2h, p1h, p0h⟩, z3h, f2h, f1h, f0h⟩ :=
    pyramid_grid_arith R0.height R1.height R2.height R3.height h1.1 h2.1 h3.1 hmin.1
  obtain ⟨⟨n3w, n2w, n1w, n0w⟩, ⟨p3w, p2w, p1w, p0w⟩, z3w, f2w, f1w, f0w⟩ :=
    pyramid_grid_arith R0.width R1.width R2.width R3.width h1.2 h2.2 h3.2 hmin.2
  clear h1 h2 h3 hmin
  -- level 3
  obtain ⟨g3, hg3, s3⟩ := @level_total_coarsest R3 A3 [] (-1) 8 1 1 hd3 (Or.inl rfl) (Or.inl rfl)
    (by decide) (by decide) (by decide) (by rw [e8]; exact z3h) (by rw [e8]; exact z3w)
  rw [e8, n3h, n3w] at s3
  -- level 2
  obtain ⟨g2, hg2, s2⟩ := @level_total R2 A2 g3 _ _ 4 16 8 4 2 4 2 hd2 s3 p3h
    (Or.inr rfl) (Or.inr rfl) (by decide) (by decide) (by decide) (by decide)
    (by rw [e16, c42]; exact le_trans f2h (by omega))
    (by rw [e16, c42]; exact le_trans f2w (by omega))
  rw [e16, n2h, n2w] at s2
  -- level 1
  obtain ⟨g1, hg1, s1⟩ := @level_total R1 A1 g2 _ _ 4 16 16 4 2 4 1 hd1 s2 p2h
    (Or.inr rfl) (Or.inr rfl) (by decide) (by decide) (by decide) (by decide)
    (by rw [e16, c41]; exact le_trans f1h (by omega))
    (by rw [e16, c41]; exact le_trans f1w (by omega))
  rw [e16, n1h, n1w] at s1
  -- level 0
  obtain ⟨g0, hg0, s0⟩ := @level_total R0 A0 g1 _ _ 2 16 16 1 2 2 1 hd0 s1 p1h
    (Or.inr rfl) (Or.inr rfl) (by decide) (by decide) (by decide) (by decide)
    (by rw [e16, c21]; exact le_trans f0h (by omega))
    (by rw [e16, c21]; exact le_trans f0w (by omega))
  rw [e16, n0h, n0w] at s0
  have a3 := level_args_values.1
  have a2 := level_args_values.2.1
  have a1 := level_args_values.2.2.1
  have a0 := level_args_values.2.2.2
  have st3 : level_step [R0, R1, R2, R3] [A0, A1, A2, A3] ([], []) 3 = .ok (g3, []) :=
    @level_step_eq _ _ _ 3 R3 A3 g3 rfl rfl (by rw [a3]; exact hg3)
  have st2 : level_step [R0, R1, R2, R3] [A0, A1, A2, A3] (g3, []) 2 = .ok (g2, g3) :=
    @level_step_eq _ _ _ 2 R2 A2 g2 rfl rfl (by rw [a2]; exact hg2)
  have st1 : level_step [R0, R1, R2, R3] [A0, A1, A2, A3] (g2, g3) 1 = .ok (g1, g2) :=
    @level_step_eq _ _ _ 1 R1 A1 g1 rfl rfl (by rw [a1]; exact hg1)
  have st0 : level_step [R0, R1, R2, R3] [A0, A1, A2, A3] (g1, g2) 0 = .ok (g0, g1) :=
    @level_step_eq _ _ _ 0 R0 A0 g0 rfl rfl (by rw [a0]; exact hg0)
  obtain ⟨q3, q2, q1, q0, qa⟩ := level_state_of_steps st3 st2 st1 st0
  exact ⟨g3, g2, g1, g0, q3, q2, q1, q0, qa, s3, s2, s1, s0, p3h, p3w, p2h, p2w, p1h, p1w,
    p0h, p0w⟩

/-! ## Burst aligner: when `align::process` returns -/

/-- The pyramid built for the fixed factors `[1, 2, 4, 4]`. -/
theorem pyramid_fixed (blur : Mat → Int → Mat) (down : Int → Mat → Mat) (src : Mat) :
    build_per_grayimg_pyramid blur down [] src inv_scale_factors =
      .ok [src, down 2 (blur src 2), down 4 (blur (down 2 (blur src 2)) 4),
        down 4 (blur (down 4 (blur (down 2 (blur src 2)) 4)) 4)] := by
  rfl

theorem build_pyramids_total (blur : Mat → Int → Mat) (down : Int → Mat → Mat)
    (imgs : List Mat) (N : Nat) (hN : N ≤ imgs.length) :
    ∃ pyrs, build_pyramids blur down imgs N = .ok pyrs := by
  unfold build_pyramids
  obtain ⟨pyrs, hp, _⟩ := foldlM_range_ok
    (fun (per_grayimg_pyramid : List (List Mat)) (img_idx : Nat) =>
      match imgs[img_idx]? with
      | none => Except.error Fault.out_of_range
      | some src_image =>
        match build_per_grayimg_pyramid blur down [] src_image inv_scale_factors with
        | .error e => .error e
        | .ok pyramid => .ok (per_grayimg_pyramid.set img_idx pyramid))
    (fun _ _ => True) N (List.replicate N []) trivial (by
      intro k x hk _
      have hlt : k < imgs.length := by omega
      simp only [List.getElem?_eq_getElem hlt, pyramid_fixed]
      exact ⟨_, rfl, trivial⟩)
  exact ⟨pyrs, hp⟩

theorem align_frames_total {pyrs : List (List Mat)} {N ref : Nat} {entry : List Alignment}
    {ref_pyr : List Mat} (hr : pyrs[ref]? = some ref_pyr) (hlen : pyrs.length = N)
    (hentry : entry.length = N)
    (hlev : ∀ (k : Nat) (alt_pyr : List Mat), k < N → k ≠ ref → pyrs[k]? = some alt_pyr →
      ∃ g, align_levels ref_pyr alt_pyr = .ok g) :
    ∃ out, align_frames pyrs N ref entry = .ok out := by
  unfold align_frames
  rw [hr]
  simp only
  obtain ⟨out, ho, _⟩ := foldlM_range_ok
    (fun (images_alignment : List Alignment) (img_idx : Nat) =>
      if img_idx = ref then Except.ok images_alignment
      else
        match pyrs[img_idx]? with
        | none => Except.error Fault.out_of_bounds
        | some alt_grayimg_pyramid =>
          match align_levels ref_pyr alt_grayimg_pyramid with
          | .error e => .error e
          | .ok curr_alignment =>
            if img_idx < images_alignment.length then
              .ok (images_alignment.set img_idx curr_alignment)
            else .error .out_of_range)
    (fun _ (s : List Alignment) => s.length = N) N entry hentry (by
      intro k x hk hx
      by_cases hkr : k = ref
      · exact ⟨x, by simp only [hkr, if_true], hx⟩
      · have hlt : k < pyrs.length := by omega
        obtain ⟨g, hg⟩ := hlev k pyrs[k] hk hkr (List.getElem?_eq_getElem hlt)
        refine ⟨x.set k g, ?_, by simpa using hx⟩
        simp only [hkr, if_false, List.getElem?_eq_getElem hlt, hg]
        rw [if_pos (by omega)])
  exact ⟨out, ho⟩

theorem nonempty_of_shape {g : Alignment} {H W : Nat}
    (hs : SameShape (List.replicate H (List.replicate W ((0, 0) : Int × Int))) g)
    (hH : 0 < H) (hW : 0 < W) : g ≠ [] ∧ ∀ row ∈ g, row ≠ [] := by
  obtain ⟨hl, hr⟩ := hs.replicate
  constructor
  · intro hg
    rw [hg] at hl
    simp at hl
    omega
  · intro row hrow hnil
    have := hr row hrow
    rw [hnil] at this
    simp at this
    omega

/-- The level loop on the pyramids that `build_per_grayimg_pyramid` builds for two
frames of the same size returns, with a non-empty grid at every level, when
the decimation divides the dimensions by the factor and the coarsest level
is at least 8 x 8. -/
theorem frame_pair_levels (blur : Mat → Int → Mat) (down : Int → Mat → Mat)
    (hdown2 : ∀ m : Mat, (down 2 (blur m 2)).height = m.height / 2 ∧
      (down 2 (blur m 2)).width = m.width / 2)
    (hdown4 : ∀ m : Mat, (down 4 (blur m 4)).height = m.height / 4 ∧
      (down 4 (blur m 4)).width = m.width / 4)
    (ref_img alt_img : Mat) (h0 w0 : Nat)
    (hr : ref_img.height = h0 ∧ ref_img.width = w0) (ha : alt_img.height = h0 ∧ alt_img.width = w0)
    (hmin : 8 ≤ h0 / 2 / 4 / 4 ∧ 8 ≤ w0 / 2 / 4 / 4) :
    ∃ ref_pyr alt_pyr g3 g2 g1 g0,
      build_per_grayimg_pyramid blur down [] ref_img inv_scale_factors = .ok ref_pyr ∧
      build_per_grayimg_pyramid blur down [] alt_img inv_scale_factors = .ok alt_pyr ∧
      level_state ref_pyr alt_pyr 3 = .ok (g3, []) ∧
      level_state ref_pyr alt_pyr 2 = .ok (g2, g3) ∧
      level_state ref_pyr alt_pyr 1 = .ok (g1, g2) ∧
      level_state ref_pyr alt_pyr 0 = .ok (g0, g1) ∧
      align_levels ref_pyr alt_pyr = .ok g0 ∧
      (g3 ≠ [] ∧ ∀ row ∈ g3, row ≠ []) ∧ (g2 ≠ [] ∧ ∀ row ∈ g2, row ≠ []) ∧
      (g1 ≠ [] ∧ ∀ row ∈ g1, row ≠ []) ∧ (g0 ≠ [] ∧ ∀ row ∈ g0, row ≠ []) := by
  have r1 := hdown2 ref_img
  have r2 := hdown4 (down 2 (blur ref_img 2))
  have r3 := hdown4 (down 4 (blur (down 2 (blur ref_img 2)) 4))
  have a1 := hdown2 alt_img
  have a2 := hdown4 (down 2 (blur alt_img 2))
  have a3 := hdown4 (down 4 (blur (down 2 (blur alt_img 2)) 4))
  obtain ⟨g3, g2, g1, g0, q3, q2, q1, q0, qa, s3, s2, s1, s0, p3h, p3w, p2h, p2w, p1h, p1w,
      p0h, p0w⟩ := level_loop_total ref_img (down 2 (blur ref_img 2))
    (down 4 (blur (down 2 (blur ref_img 2)) 4))
    (down 4 (blur (down 4 (blur (down 2 (blur ref_img 2)) 4)) 4))
    alt_img (down 2 (blur alt_img 2))
    (down 4 (blur (down 2 (blur alt_img 2)) 4))
    (down 4 (blur (down 4 (blur (down 2 (blur alt_img 2)) 4)) 4))
    ⟨by rw [ha.1, hr.1], by rw [ha.2, hr.2]⟩
    ⟨by rw [a1.1, r1.1, ha.1, hr.1], by rw [a1.2, r1.2, ha.2, hr.2]⟩
    ⟨by rw [a2.1, r2.1, a1.1, r1.1, ha.1, hr.1], by rw [a2.2, r2.2, a1.2, r1.2, ha.2, hr.2]⟩
    ⟨by rw [a3.1, r3.1, a2.1, r2.1, a1.1, r1.1, ha.1, hr.1],
      by rw [a3.2, r3.2, a2.2, r2.2, a1.2, r1.2, ha.2, hr.2]⟩
    r1 r2 r3
    ⟨by rw [r3.1, r2.1, r1.1, hr.1]; exact hmin.1, by rw [r3.2, r2.2, r1.2, hr.2]; exact hmin.2⟩
  exact ⟨_, _, g3, g2, g1, g0, pyramid_fixed blur down ref_img, pyramid_fixed blur down alt_img,
    q3, q2, q1, q0, qa, nonempty_of_shape s3 p3h p3w, nonempty_of_shape s2 p2h p2w,
    nonempty_of_shape s1 p1h p1w, nonempty_of_shape s0 p0h p0w⟩

/-- C26: for the fixed configuration, when all frames of the burst have the same
dimensions, each level of a pyramid has the dimensions of the level above
integer-divided by its factor, and the coarsest level is at least 8 x 8,
`align::process` returns (no error is raised: no upsampler overflow, no failed
range check).  For every non-reference frame the level loop returns at each
level a non-empty grid, and the entry of the frame in the output is the grid
of level 0. -/
theorem process_completes (GaussianBlur : Mat → Int → Mat)
    (downsample_nearest_neighbour : Int → Mat → Mat)
    (grayscale_images_pad : List Mat) (reference_image_idx : Nat)
    (images_alignment : List Alignment) (h0 w0 : Nat)
    (hdown2 : ∀ m : Mat, (downsample_nearest_neighbour 2 (GaussianBlur m 2)).height = m.height / 2 ∧
      (downsample_nearest_neighbour 2 (GaussianBlur m 2)).width = m.width / 2)
    (hdown4 : ∀ m : Mat, (downsample_nearest_neighbour 4 (GaussianBlur m 4)).height = m.height / 4 ∧
      (downsample_nearest_neighbour 4 (GaussianBlur m 4)).width = m.width / 4)
    (hframes : ∀ img ∈ grayscale_images_pad, img.height = h0 ∧ img.width = w0)
    (href : reference_image_idx < grayscale_images_pad.length)
    (hmin : 8 ≤ h0 / 2 / 4 / 4 ∧ 8 ≤ w0 / 2 / 4 / 4) :
    ∃ out, process GaussianBlur downsample_nearest_neighbour grayscale_images_pad
        grayscale_images_pad.length reference_image_idx images_alignment = .ok out ∧
      ∀ k : Nat, k < grayscale_images_pad.length → k ≠ reference_image_idx →
        ∃ ref_img alt_img ref_pyr alt_pyr g3 g2 g1 g0,
          grayscale_images_pad[reference_image_idx]? = some ref_img ∧
          grayscale_images_pad[k]? = some alt_img ∧
          build_per_grayimg_pyramid GaussianBlur downsample_nearest_neighbour [] ref_img
            inv_scale_factors = .ok ref_pyr ∧
          build_per_grayimg_pyramid GaussianBlur downsample_nearest_neighbour [] alt_img
            inv_scale_factors = .ok alt_pyr ∧
          level_state ref_pyr alt_pyr 3 = .ok (g3, []) ∧
          level_state ref_pyr alt_pyr 2 = .ok (g2, g3) ∧
          level_state ref_pyr alt_pyr 1 = .ok (g1, g2) ∧
          level_state ref_pyr alt_pyr 0 = .ok (g0, g1) ∧
          out[k]? = some g0 ∧
          (g3 ≠ [] ∧ ∀ row ∈ g3, row ≠ []) ∧ (g2 ≠ [] ∧ ∀ row ∈ g2, row ≠ []) ∧
          (g1 ≠ [] ∧ ∀ row ∈ g1, row ≠ []) ∧ (g0 ≠ [] ∧ ∀ row ∈ g0, row ≠ []) := by
  obtain ⟨pyrs, hp⟩ := build_pyramids_total GaussianBlur downsample_nearest_neighbour
    grayscale_images_pad grayscale_images_pad.length le_rfl
  obtain ⟨hplen, hpk⟩ := build_pyramids_ok hp
  have hres : vector_resize (vector_clear images_alignment) (grayscale_images_pad.length : Int)
      ([] : Alignment) = .ok (List.replicate grayscale_images_pad.length []) := by
    unfold vector_resize vector_clear
    rw [if_neg (by omega)]
    simp
  have hdims : ∀ (k : Nat) (img : Mat), grayscale_images_pad[k]? = some img →
      img.height = h0 ∧ img.width = w0 := fun k img hk =>
    hframes img (List.getElem?_mem hk)
  obtain ⟨ref_img, ref_pyr, hri, hrb, hrp⟩ := hpk reference_image_idx href
  have hpair : ∀ (k : Nat) (alt_img : Mat), grayscale_images_pad[k]? = some alt_img →
      _ := fun k alt_img hk =>
    frame_pair_levels GaussianBlur downsample_nearest_neighbour hdown2 hdown4 ref_img alt_img
      h0 w0 (hdims _ _ hri) (hdims k alt_img hk) hmin
  obtain ⟨out, hout⟩ := @align_frames_total pyrs grayscale_images_pad.length reference_image_idx
    (List.replicate grayscale_images_pad.length []) ref_pyr hrp hplen (by simp)
    (fun k alt_pyr hk hkr hka => by
      obtain ⟨alt_img, alt_pyr', hai, hab, hap⟩ := hpk k hk
      rw [hka] at hap
      cases hap
      obtain ⟨rp, ap, g3, g2, g1, g0, e1, e2, _, _, _, _, qa, _⟩ := hpair k alt_img hai
      rw [hrb] at e1
      rw [hab] at e2
      cases e1
      cases e2
      exact ⟨g0, qa⟩)
  obtain ⟨_, rp', hrp', _, hfr⟩ := align_frames_ok hout
  rw [hrp] at hrp'
  cases hrp'
  refine ⟨out, ?_, ?_⟩
  · unfold process
    rw [hres]
    simp only
    rw [hp]
    exact hout
  · intro k hk hkr
    obtain ⟨alt_img, alt_pyr, hai, hab, hap⟩ := hpk k hk
    obtain ⟨rp, ap, g3, g2, g1, g0, e1, e2, q3, q2, q1, q0, qa, n3, n2, n1, n0⟩ :=
      hpair k alt_img hai
    rw [hrb] at e1
    rw [hab] at e2
    cases e1
    cases e2
    obtain ⟨ap', g, hap', hg, hog⟩ := hfr k hk hkr
    rw [hap] at hap'
    cases hap'
    rw [qa] at hg
    cases hg
    exact ⟨ref_img, alt_img, ref_pyr, alt_pyr, g3, g2, g1, g0, hri, hai, hrb, hab, q3, q2, q1, q0,
      hog, n3, n2, n1, n0⟩

theorem process_completes_witness :
    ∃ out, process (fun m _ => m) decimate [const_plane 256 256 0, const_plane 256 256 9]
        ([const_plane 256 256 0, const_plane 256 256 9] : List Mat).length 0 [] = .ok out ∧
      ∀ k : Nat, k < ([const_plane 256 256 0, const_plane 256 256 9] : List Mat).length → k ≠ 0 →
        ∃ ref_img alt_img ref_pyr alt_pyr g3 g2 g1 g0,
          [const_plane 256 256 0, const_plane 256 256 9][0]? = some ref_img ∧
          [const_plane 256 256 0, const_plane 256 256 9][k]? = some alt_img ∧
          build_per_grayimg_pyramid (fun m _ => m) decimate [] ref_img
            inv_scale_factors = .ok ref_pyr ∧
          build_per_grayimg_pyramid (fun m _ => m) decimate [] alt_img
            inv_scale_factors = .ok alt_pyr ∧
          level_state ref_pyr alt_pyr 3 = .ok (g3, []) ∧
          level_state ref_pyr alt_pyr 2 = .ok (g2, g3) ∧
          level_state ref_pyr alt_pyr 1 = .ok (g1, g2) ∧
          level_state ref_pyr alt_pyr 0 = .ok (g0, g1) ∧
          out[k]? = some g0 ∧
          (g3 ≠ [] ∧ ∀ row ∈ g3, row ≠ []) ∧ (g2 ≠ [] ∧ ∀ row ∈ g2, row ≠ []) ∧
          (g1 ≠ [] ∧ ∀ row ∈ g1, row ≠ []) ∧ (g0 ≠ [] ∧ ∀ row ∈ g0, row ≠ []) :=
  process_completes (fun m _ => m) decimate [const_plane 256 256 0, const_plane 256 256 9] 0 []
    256 256 (fun _ => ⟨rfl, rfl⟩) (fun _ => ⟨rfl, rfl⟩) (by simp [const_plane]) (by decide)
    (by decide)

/-! ## Burst aligner: the last grid row and column keep the zero prior -/

/-- When the replicated coarser grid leaves one row and one column of the finer
grid uncovered, the upsampled prior is built and holds (0, 0) in the last row
and in the last column. -/
theorem prior_last_row_col {p t : Int} (hrep : 0 ≤ cdiv p t) {prev : Alignment} {Hp Wp : Nat}
    (hshape : SameShape (List.replicate Hp (List.replicate Wp ((0, 0) : Int × Int))) prev)
    (hHp : 0 < Hp) {pts H W : Int} (hpts : pts ≠ -1)
    (hrows : (Hp : Int) * cdiv p t ≤ H - 1) (hcols : (Wp : Int) * cdiv p t ≤ W - 1) :
    ∃ up, upsampled_prior (some (p, t)) prev pts H W = .ok up ∧
      (∀ j : Nat, (j : Int) < W → cell up (H - 1).toNat j = some (0, 0)) ∧
      (∀ i : Nat, (i : Int) < H → cell up i (W - 1).toNat = some (0, 0)) := by
  obtain ⟨up, hup, _, hz⟩ := upsampled_prior_total hrep hshape hHp (H := H) (W := W) hpts
    (by omega) (by omega)
  have e : (((cdiv p t).toNat : Nat) : Int) = cdiv p t := Int.toNat_of_nonneg hrep
  have hnn1 : (0 : Int) ≤ (Hp : Int) * cdiv p t := Int.mul_nonneg (by omega) hrep
  have hnn2 : (0 : Int) ≤ (Wp : Int) * cdiv p t := Int.mul_nonneg (by omega) hrep
  have h1 : Hp * (cdiv p t).toNat ≤ (H - 1).toNat := by
    have : ((Hp * (cdiv p t).toNat : Nat) : Int) ≤ H - 1 := by push_cast; rw [e]; exact hrows
    omega
  have h2 : Wp * (cdiv p t).toNat ≤ (W - 1).toNat := by
    have : ((Wp * (cdiv p t).toNat : Nat) : Int) ≤ W - 1 := by push_cast; rw [e]; exact hcols
    omega
  refine ⟨up, hup, ?_, ?_⟩
  · intro j hj
    rw [hz _ _ (by omega), cell_replicate, if_pos ⟨by omega, by omega⟩]
  · intro i hi
    rw [hz _ _ (by omega), cell_replicate, if_pos ⟨by omega, by omega⟩]

theorem coarse_fits_with_spare (n nc : Nat) :
    ((nc : Int) = (n : Int) / 4 → 0 < (nc : Int) / 4 - 1 →
      (((nc : Int) / 4 - 1).toNat : Int) * 2 ≤ (n : Int) / 8 - 1 - 1) ∧
    ((nc : Int) = (n : Int) / 4 → 0 < (nc : Int) / 8 - 1 →
      (((nc : Int) / 8 - 1).toNat : Int) * 4 ≤ (n : Int) / 8 - 1 - 1) ∧
    ((nc : Int) = (n : Int) / 2 → 0 < (nc : Int) / 8 - 1 →
      (((nc : Int) / 8 - 1).toNat : Int) * 2 ≤ (n : Int) / 8 - 1 - 1) := by
  refine ⟨?_, ?_, ?_⟩ <;> intro h1 h2 <;> omega

/-- C27: for the fixed configuration, at every level L in {2, 1, 0}, when the plane of
the coarser level L+1 has the dimensions of the plane of level L
integer-divided by its factor and the coarser grid is non-empty, the
replicated extent of the coarser grid is strictly smaller than the grid of
level L in both axes (`src_dim * repeat <= grid_dim - 1`); the upsampled prior is
built, and its last row and its last column hold the prior (0, 0), not a
propagated displacement. -/
theorem last_row_and_column_keep_zero_prior (L : Nat) (hL : L < 3) (h w hc wc : Nat)
    (prev : Alignment)
    (hdiv : (hc : Int) = (h : Int) / (level_args L).scale_factor_prev_curr ∧
      (wc : Int) = (w : Int) / (level_args L).scale_factor_prev_curr)
    (hne : 0 < (hc : Int) / ((level_args L).prev_tile_size / 2) - 1 ∧
      0 < (wc : Int) / ((level_args L).prev_tile_size / 2) - 1)
    (hshape : SameShape
      (List.replicate ((hc : Int) / ((level_args L).prev_tile_size / 2) - 1).toNat
        (List.replicate ((wc : Int) / ((level_args L).prev_tile_size / 2) - 1).toNat (0, 0)))
      prev) :
    ((hc : Int) / ((level_args L).prev_tile_size / 2) - 1) *
        cdiv (level_args L).scale_factor_prev_curr
          (cdiv (level_args L).curr_tile_size (level_args L).prev_tile_size) ≤
      ((h : Int) / ((level_args L).curr_tile_size / 2) - 1) - 1 ∧
    ((wc : Int) / ((level_args L).prev_tile_size / 2) - 1) *
        cdiv (level_args L).scale_factor_prev_curr
          (cdiv (level_args L).curr_tile_size (level_args L).prev_tile_size) ≤
      ((w : Int) / ((level_args L).curr_tile_size / 2) - 1) - 1 ∧
    ∃ upsample up,
      upsample_alignment_func_ptr (level_args L).scale_factor_prev_curr
        (level_args L).curr_tile_size (level_args L).prev_tile_size = .ok upsample ∧
      upsampled_prior upsample prev (level_args L).prev_tile_size
        ((h : Int) / ((level_args L).curr_tile_size / 2) - 1)
        ((w : Int) / ((level_args L).curr_tile_size / 2) - 1) = .ok up ∧
      (∀ j : Nat, (j : Int) < (w : Int) / ((level_args L).curr_tile_size / 2) - 1 →
        cell up ((h : Int) / ((level_args L).curr_tile_size / 2) - 1 - 1).toNat j = some (0, 0)) ∧
      (∀ i : Nat, (i : Int) < (h : Int) / ((level_args L).curr_tile_size / 2) - 1 →
        cell up i ((w : Int) / ((level_args L).curr_tile_size / 2) - 1 - 1).toNat = some (0, 0)) := by
  have e8 : (8 : Int) / 2 = 4 := by decide
  have e16 : (16 : Int) / 2 = 8 := by decide
  have c42 : cdiv 4 (cdiv 16 8) = 2 := by decide
  have c41 : cdiv 4 (cdiv 16 16) = 4 := by decide
  have c21 : cdiv 2 (cdiv 16 16) = 2 := by decide
  have d42 : cdiv 4 2 = 2 := by decide
  have d41 : cdiv 4 1 = 4 := by decide
  have d21 : cdiv 2 1 = 2 := by decide
  have u2 : upsample_alignment_func_ptr 4 16 8 = .ok (some (4, 2)) := by decide
  have u1 : upsample_alignment_func_ptr 4 16 16 = .ok (some (4, 1)) := by decide
  have u0 : upsample_alignment_func_ptr 2 16 16 = .ok (some (2, 1)) := by decide
  have fh := coarse_fits_with_spare h hc
  have fw := coarse_fits_with_spare w wc
  interval_cases L
  · rw [level_args_values.2.2.2] at hdiv hne hshape ⊢
    simp only [e16, c21] at hdiv hne hshape ⊢
    have gh := fh.2.2 hdiv.1 hne.1
    have gw := fw.2.2 hdiv.2 hne.2
    obtain ⟨up, hup, hrow, hcol⟩ := @prior_last_row_col 2 1 (by decide) prev _ _ hshape
      (by omega) 16 ((h : Int) / 8 - 1) ((w : Int) / 8 - 1) (by decide)
      (by rw [d21]; exact gh) (by rw [d21]; exact gw)
    exact ⟨by omega, by omega, some (2, 1), up, u0, hup, hrow, hcol⟩
  · rw [level_args_values.2.2.1] at hdiv hne hshape ⊢
    simp only [e16, c41] at hdiv hne hshape ⊢
    have gh := fh.2.1 hdiv.1 hne.1
    have gw := fw.2.1 hdiv.2 hne.2
    obtain ⟨up, hup, hrow, hcol⟩ := @prior_last_row_col 4 1 (by decide) prev _ _ hshape
      (by omega) 16 ((h : Int) / 8 - 1) ((w : Int) / 8 - 1) (by decide)
      (by rw [d41]; exact gh) (by rw [d41]; exact gw)
    exact ⟨by omega, by omega, some (4, 1), up, u1, hup, hrow, hcol⟩
  · rw [level_args_values.2.1] at hdiv hne hshape ⊢
    simp only [e16, e8, c42] at hdiv hne hshape ⊢
    have gh := fh.1 hdiv.1 hne.1
    have gw := fw.1 hdiv.2 hne.2
    obtain ⟨up, hup, hrow, hcol⟩ := @prior_last_row_col 4 2 (by decide) prev _ _ hshape
      (by omega) 8 ((h : Int) / 8 - 1) ((w : Int) / 8 - 1) (by decide)
      (by rw [d42]; exact gh) (by rw [d42]; exact gw)
    exact ⟨by omega, by omega, some (4, 2), up, u2, hup, hrow, hcol⟩

theorem sameShape_replicate (a b : Nat) (v v' : Int × Int) :
    SameShape (List.replicate a (List.replicate b v)) (List.replicate a (List.replicate b v')) := by
  refine ⟨by simp, fun r => ?_⟩
  rw [List.getElem?_replicate, List.getElem?_replicate]
  split <;> simp

theorem last_row_and_column_keep_zero_prior_witness :
    (((16 : Nat) : Int) / ((level_args 2).prev_tile_size / 2) - 1) *
        cdiv (level_args 2).scale_factor_prev_curr
          (cdiv (level_args 2).curr_tile_size (level_args 2).prev_tile_size) ≤
      (((64 : Nat) : Int) / ((level_args 2).curr_tile_size / 2) - 1) - 1 ∧
    (((16 : Nat) : Int) / ((level_args 2).prev_tile_size / 2) - 1) *
        cdiv (level_args 2).scale_factor_prev_curr
          (cdiv (level_args 2).curr_tile_size (level_args 2).prev_tile_size) ≤
      (((64 : Nat) : Int) / ((level_args 2).curr_tile_size / 2) - 1) - 1 ∧
    ∃ upsample up,
      upsample_alignment_func_ptr (level_args 2).scale_factor_prev_curr
        (level_args 2).curr_tile_size (level_args 2).prev_tile_size = .ok upsample ∧
      upsampled_prior upsample (List.replicate 3 (List.replicate 3 (1, -1))) (level_args 2).prev_tile_size
        (((64 : Nat) : Int) / ((level_args 2).curr_tile_size / 2) - 1)
        (((64 : Nat) : Int) / ((level_args 2).curr_tile_size / 2) - 1) = .ok up ∧
      (∀ j : Nat, (j : Int) < ((64 : Nat) : Int) / ((level_args 2).curr_tile_size / 2) - 1 →
        cell up (((64 : Nat) : Int) / ((level_args 2).curr_tile_size / 2) - 1 - 1).toNat j = some (0, 0)) ∧
      (∀ i : Nat, (i : Int) < ((64 : Nat) : Int) / ((level_args 2).curr_tile_size / 2) - 1 →
        cell up i (((64 : Nat) : Int) / ((level_args 2).curr_tile_size / 2) - 1 - 1).toNat = some (0, 0)) :=
  last_row_and_column_keep_zero_prior 2 (by decide) 64 64 16 16
    (List.replicate 3 (List.replicate 3 (1, -1))) (by decide) (by decide)
    (sameShape_replicate 3 3 (0, 0) (1, -1))

/-! ## Burst aligner: the tight bound on the displacements -/

/-- The search of a tile ends with its initial state when every candidate has the
distance `ULONG_LONG_MAX`. -/
theorem search_tile_all_max {dist : Option DistanceFn} {ref_img pad : Mat} {rr rc ar ac r : Int}
    (hd : ∀ a b : Nat, a < (r * 2 + 1).toNat → b < (r * 2 + 1).toNat →
      candidate_distance dist ref_img pad rr rc ar ac a b = .ok ULONG_LONG_MAX) :
    search_tile dist ref_img pad rr rc ar ac r = .ok ⟨ULONG_LONG_MAX, -1, -1⟩ := by
  unfold search_tile
  apply foldlM_range_const
  intro a ha
  unfold search_row
  apply foldlM_range_const
  intro b hb
  rw [search_step_eq, hd a b ha hb]
  simp

/-- The sum the L2 kernel accumulates depends on the second plane through the
samples of its window only. -/
theorem l2_sum_congr_right (T : Nat) (img1 img2 img2' : Mat) (r1 c1 r2 c2 r2' c2' : Int)
    (h : ∀ k l : Nat, k < T → l < T → img2.px (r2 + k) (c2 + l) = img2'.px (r2' + k) (c2' + l)) :
    l2_sum T img1 img2 r1 c1 r2 c2 = l2_sum T img1 img2' r1 c1 r2' c2' := by
  unfold l2_sum
  apply List.foldl_ext
  intro s k hk
  apply List.foldl_ext
  intro s' l hl
  simp only
  rw [h k l (List.mem_range.1 hk) (List.mem_range.1 hl)]

/-- A grid with `a` rows of `b` entries each has the shape of the `a x b` zero grid. -/
theorem sameShape_of_lengths {a b : Nat} {g : Alignment} (hl : g.length = a)
    (hr : ∀ row ∈ g, row.length = b) :
    SameShape (List.replicate a (List.replicate b ((0, 0) : Int × Int))) g := by
  refine ⟨by simpa using hl, fun r => ?_⟩
  rw [List.getElem?_replicate]
  by_cases h : r < a
  · rw [if_pos h, List.getElem?_eq_getElem (by omega)]
    simp only [Option.map_some', List.length_replicate]
    rw [hr _ (List.getElem_mem _)]
  · rw [if_neg h, List.getElem?_eq_none (by omega)]

/-- The search of a tile whose candidates all have the same distance ends with the
first candidate when that distance is below `ULONG_LONG_MAX`, and with the
initial indices otherwise. -/
theorem search_tile_all_equal {dist : Option DistanceFn} {ref_img pad : Mat} {rr rc ar ac r : Int}
    (hr : 0 ≤ r) (D : Nat)
    (hd : ∀ a b : Nat, a < (r * 2 + 1).toNat → b < (r * 2 + 1).toNat →
      candidate_distance dist ref_img pad rr rc ar ac a b = .ok D) :
    search_tile dist ref_img pad rr rc ar ac r =
      .ok (if D < ULONG_LONG_MAX then ⟨D, 0, 0⟩ else ⟨ULONG_LONG_MAX, -1, -1⟩) := by
  by_cases hD : D < ULONG_LONG_MAX
  · rw [if_pos hD]
    obtain ⟨st, hst⟩ := @search_tile_total dist ref_img pad rr rc ar ac r
      (fun a b ha hb => ⟨D, hd a b ha hb⟩)
    obtain ⟨a, b, ha, hb, hform, hda, _, hbest⟩ := search_tile_first_min hst
      ⟨0, 0, by omega, by omega, D, hd 0 0 (by omega) (by omega), hD⟩
    have hmin : st.min_distance_i = D := by
      have h := hd a b (by omega) (by omega)
      rw [hda] at h
      cases h
      rfl
    have hab : a = 0 ∧ b = 0 := by
      by_contra hne
      have hlex : 0 < a ∨ (0 = a ∧ 0 < b) := by omega
      have := hbest 0 0 D (by omega) hlex (hd 0 0 (by omega) (by omega))
      omega
    rw [hst, hform, hmin, hab.1, hab.2]
    rfl
  · rw [if_neg hD]
    unfold search_tile
    apply foldlM_range_const
    intro a ha
    unfold search_row
    apply foldlM_range_const
    intro b hb
    rw [search_step_eq, hd a b ha hb]
    simp only
    rw [if_neg hD]

/-- The sum the L1 kernel accumulates depends on the second plane through the
samples of its window only. -/
theorem l1_sum_congr_right (T : Nat) (img1 img2 img2' : Mat) (r1 c1 r2 c2 r2' c2' : Int)
    (h : ∀ k l : Nat, k < T → l < T → img2.px (r2 + k) (c2 + l) = img2'.px (r2' + k) (c2' + l)) :
    l1_sum T img1 img2 r1 c1 r2 c2 = l1_sum T img1 img2' r1 c1 r2' c2' := by
  unfold l1_sum
  apply List.foldl_ext
  intro s k hk
  apply List.foldl_ext
  intro s' l hl
  simp only
  rw [h k l (List.mem_range.1 hk) (List.mem_range.1 hl)]

/-- The distance of a candidate whose window lies inside an all-zero alternate
plane: the kernel sum of the reference tile against a tile of zeros. -/
theorem zero_window_distance {T dt r : Int} (hT : T = 8 ∨ T = 16) (hdt : dt = 1 ∨ dt = 2)
    {ref_img alt_img pad : Mat}
    (hb : copyMakeBorder alt_img r r r r UINT_LEAST16_MAX = .ok pad)
    (hzero : ZeroPlane alt_img) (rr rc ar ac : Int) (a b : Nat)
    (h1 : 0 ≤ rr ∧ rr ≤ (ref_img.height : Int) - T) (h2 : 0 ≤ rc ∧ rc ≤ (ref_img.width : Int) - T)
    (h3 : r ≤ ar + a ∧ ar + a + T ≤ r + alt_img.height)
    (h4 : r ≤ ac + b ∧ ac + b + T ≤ r + alt_img.width) :
    candidate_distance (distance_func_ptr dt T) ref_img pad rr rc ar ac a b =
      .ok (if dt = 1 then l1_sum T.toNat ref_img (const_plane T.toNat T.toNat 0) rr rc 0 0
        else l2_sum T.toNat ref_img (const_plane T.toNat T.toNat 0) rr rc 0 0) := by
  obtain ⟨hr, _, _, _, hph, hpw, hpx⟩ := copyMakeBorder_ok hb
  have hT' : (T.toNat : Int) = T := by rcases hT with rfl | rfl <;> rfl
  rw [candidate_distance_in_range hT hdt ref_img pad rr rc ar ac a b h1 h2 (by omega) (by omega)]
  have hwin : ∀ k l : Nat, k < T.toNat → l < T.toNat →
      pad.px (ar + a + k) (ac + b + l) =
        (const_plane T.toNat T.toNat 0).px ((0 : Int) + k) ((0 : Int) + l) := by
    intro k l hk hl
    rw [hpx, if_pos (by omega)]
    exact hzero _ _ (by omega) (by omega) (by omega) (by omega)
  rw [l1_sum_congr_right T.toNat ref_img pad (const_plane T.toNat T.toNat 0) rr rc
      (ar + a) (ac + b) 0 0 hwin,
    l2_sum_congr_right T.toNat ref_img pad (const_plane T.toNat T.toNat 0) rr rc
      (ar + a) (ac + b) 0 0 hwin]

/-- A tile whose prior is `(d, d)` with `lo <= d <= hi` and whose search window lies
inside an all-zero alternate plane: every candidate has the same distance, so
the search ends with the first candidate, or with the initial indices when
that distance is `ULONG_LONG_MAX`, and the entry is `(d - r, d - r)` or
`(d - r - 1, d - r - 1)`. -/
theorem zero_alt_level_entry {ref_img alt_img : Mat} {prev out : Alignment}
    {scale T pts r dt : Int} (hT : T = 8 ∨ T = 16) (hdt : dt = 1 ∨ dt = 2)
    (hal : align_image_level ref_img alt_img prev [] scale T pts r dt = .ok out)
    (hzero : ZeroPlane alt_img) (i j : Nat)
    (hi : (i : Int) < (ref_img.height : Int) / (T / 2) - 1)
    (hj : (j : Int) < (ref_img.width : Int) / (T / 2) - 1) (lo hi' : Int)
    (hprior : ∀ upsample up, upsample_alignment_func_ptr scale T pts = .ok upsample →
      upsampled_prior upsample prev pts (cdiv ref_img.height (cdiv T 2) - 1)
        (cdiv ref_img.width (cdiv T 2) - 1) = .ok up →
      ∃ d, cell up i j = some (d, d) ∧ lo ≤ d ∧ d ≤ hi')
    (hrow : r ≤ (i : Int) * (T / 2) + lo ∧ (i : Int) * (T / 2) + hi' + r + T ≤ alt_img.height)
    (hcol : r ≤ (j : Int) * (T / 2) + lo ∧ (j : Int) * (T / 2) + hi' + r + T ≤ alt_img.width) :
    ∃ d, cell out i j = some (d, d) ∧ lo - r - 1 ≤ d ∧ d ≤ hi' - r ∧
      (zero_tile_sum dt T ref_img i j = ULONG_LONG_MAX → d ≤ hi' - r - 1) := by
  obtain ⟨upsample, up, pad, prior, st, hu, hp, hb, hc, hs, hcell⟩ :=
    align_image_level_entry hal i j (by rw [num_tiles_eq _ T hT]; exact hi)
      (by rw [num_tiles_eq _ T hT]; exact hj)
  obtain ⟨d, hd, hlo, hhi⟩ := hprior upsample up hu hp
  rw [hc] at hd
  cases hd
  obtain ⟨hr, _, _, _, hph, hpw, _⟩ := copyMakeBorder_ok hb
  have h1 := tile_origin_in_range i ref_img.height T hT hi
  have h2 := tile_origin_in_range j ref_img.width T hT hj
  rw [tile_origin i T hT, tile_origin j T hT] at hs
  simp only at hs
  rw [clamp_start_id _ _ (by omega) (by omega), clamp_start_id _ _ (by omega) (by omega)] at hs
  have hall := @search_tile_all_equal (distance_func_ptr dt T) ref_img pad
    ((i : Int) * (T / 2)) ((j : Int) * (T / 2)) ((i : Int) * (T / 2) + d)
    ((j : Int) * (T / 2) + d) r hr (zero_tile_sum dt T ref_img i j)
    (fun a b ha hb' => zero_window_distance hT hdt hb hzero _ _ _ _ a b h1 h2
      (by omega) (by omega))
  rw [hs] at hall
  by_cases hD : zero_tile_sum dt T ref_img i j < ULONG_LONG_MAX
  · rw [if_pos hD] at hall
    cases hall
    refine ⟨d - r, ?_, by omega, by omega, fun hmax => by omega⟩
    rw [hcell]
    simp
  · rw [if_neg hD] at hall
    cases hall
    refine ⟨d - r - 1, ?_, by omega, by omega, fun _ => by omega⟩
    rw [hcell]
    simp only [Option.some.injEq, Prod.mk.injEq]
    constructor <;> omega

/-- A cell of the upsampled prior inside the replicated extent holds the entry of
its coarse cell, each component multiplied by the pyramid ratio in a 32-bit
`int`. -/
theorem upsampled_prior_cell {p t : Int} {prev up : Alignment} {Hp Wp : Nat} {pts H W : Int}
    (hshape : SameShape (List.replicate Hp (List.replicate Wp ((0, 0) : Int × Int))) prev)
    (hpts : pts ≠ -1) (hp : upsampled_prior (some (p, t)) prev pts H W = .ok up)
    (i j : Nat) (hi : i < Hp * (cdiv p t).toNat) (hj : j < Wp * (cdiv p t).toNat) :
    ∃ v, cell prev (i / (cdiv p t).toNat) (j / (cdiv p t).toNat) = some v ∧
      cell up i j = some (wrap_int32 (v.1 * p), wrap_int32 (v.2 * p)) := by
  obtain ⟨hlen, hwid⟩ := hshape.replicate
  unfold upsampled_prior at hp
  rw [if_neg hpts] at hp
  simp only at hp
  cases prev with
  | nil =>
    simp at hlen
    subst hlen
    omega
  | cons row0 rest =>
    have h0 : row0.length = Wp := hwid row0 (List.mem_cons_self _ _)
    have hl : rest.length + 1 = Hp := by simpa using hlen
    obtain ⟨_, _, _, _, hinv⟩ := build_upsampled_prev_aligement_ok hp
    obtain ⟨hw, hne⟩ := hinv.written i j ⟨by rw [hl]; exact hi, by rw [h0]; exact hj⟩
    unfold upsampled_value at hw hne
    cases hc : cell (row0 :: rest) (i / (cdiv p t).toNat) (j / (cdiv p t).toNat) with
    | none => rw [hc] at hne; exact absurd rfl hne
    | some v =>
      rw [hc] at hw
      exact ⟨v, rfl, hw⟩

/-- The steps of the level loop, from its states. -/
theorem level_steps_of_states {ref_pyr alt_pyr : List Mat} {g3 g2 g1 g0 : Alignment}
    (q3 : level_state ref_pyr alt_pyr 3 = .ok (g3, []))
    (q2 : level_state ref_pyr alt_pyr 2 = .ok (g2, g3))
    (q1 : level_state ref_pyr alt_pyr 1 = .ok (g1, g2))
    (q0 : level_state ref_pyr alt_pyr 0 = .ok (g0, g1)) :
    level_step ref_pyr alt_pyr ([], []) 3 = .ok (g3, []) ∧
    level_step ref_pyr alt_pyr (g3, []) 2 = .ok (g2, g3) ∧
    level_step ref_pyr alt_pyr (g2, g3) 1 = .ok (g1, g2) ∧
    level_step ref_pyr alt_pyr (g1, g2) 0 = .ok (g0, g1) := by
  have l3 : levels_down_to 3 = [3] := by decide
  have l2 : levels_down_to 2 = [3, 2] := by decide
  have l1 : levels_down_to 1 = [3, 2, 1] := by decide
  have l0 : levels_down_to 0 = [3, 2, 1, 0] := by decide
  unfold level_state at q3 q2 q1 q0
  rw [l3] at q3
  rw [l2] at q2
  rw [l1] at q1
  rw [l0] at q0
  simp only [List.foldlM_cons, List.foldlM_nil] at q3 q2 q1 q0
  obtain ⟨s3, h3, hf⟩ := bind_ok q3
  cases hf
  obtain ⟨s3', h3', q2⟩ := bind_ok q2
  rw [h3] at h3'
  cases h3'
  obtain ⟨s2, h2, hf⟩ := bind_ok q2
  cases hf
  obtain ⟨s3', h3', q1⟩ := bind_ok q1
  rw [h3] at h3'
  cases h3'
  obtain ⟨s2', h2', q1⟩ := bind_ok q1
  rw [h2] at h2'
  cases h2'
  obtain ⟨s1, h1, hf⟩ := bind_ok q1
  cases hf
  obtain ⟨s3', h3', q0⟩ := bind_ok q0
  rw [h3] at h3'
  cases h3'
  obtain ⟨s2', h2', q0⟩ := bind_ok q0
  rw [h2] at h2'
  cases h2'
  obtain ⟨s1', h1', q0⟩ := bind_ok q0
  rw [h1] at h1'
  cases h1'
  obtain ⟨s0, h0, hf⟩ := bind_ok q0
  cases hf
  exact ⟨h3, h2, h1, h0⟩

/-- The prior of a tile below the coarsest level, from the entry `(d, d)` of its
coarse cell, when `d * p` fits a 32-bit `int`. -/
theorem prior_of_coarse_entry {p t : Int} {prev : Alignment} {Hp Wp : Nat} {pts H W : Int}
    (hshape : SameShape (List.replicate Hp (List.replicate Wp ((0, 0) : Int × Int))) prev)
    (hpts : pts ≠ -1) (i j I J : Nat) (hi : i < Hp * (cdiv p t).toNat)
    (hj : j < Wp * (cdiv p t).toNat) (hI : i / (cdiv p t).toNat = I)
    (hJ : j / (cdiv p t).toNat = J) (d : Int) (hcell : cell prev I J = some (d, d))
    (hfit : -2 ^ 31 ≤ d * p ∧ d * p < 2 ^ 31) (up : Alignment)
    (hp : upsampled_prior (some (p, t)) prev pts H W = .ok up) :
    cell up i j = some (d * p, d * p) := by
  obtain ⟨v, hv, hup⟩ := upsampled_prior_cell hshape hpts hp i j hi hj
  rw [hI, hJ, hcell] at hv
  cases hv
  rw [hup]
  simp only
  rw [wrap_int32_of_range _ hfit.1 hfit.2]

/-- The level loop on a 512 x 512 pair of pyramids of the fixed configuration whose
alternate planes are all zero and whose level-0 reference tile of grid cell
(16, 16) has the L2 sum `ULONG_LONG_MAX` against zeros: the tiles (1, 1), (2, 2),
(8, 8) and (16, 16) of the levels 3, 2, 1 and 0 have their whole search window
inside the alternate plane, the first three get at most -1, -8 and -36, and
the level-0 search ends with the initial indices. -/
theorem zero_alt_level_loop (R0 R1 R2 R3 A0 A1 A2 A3 : Mat)
    (hR0 : R0.height = 512 ∧ R0.width = 512) (hR1 : R1.height = 256 ∧ R1.width = 256)
    (hR2 : R2.height = 64 ∧ R2.width = 64) (hR3 : R3.height = 16 ∧ R3.width = 16)
    (hA0 : A0.height = 512 ∧ A0.width = 512) (hA1 : A1.height = 256 ∧ A1.width = 256)
    (hA2 : A2.height = 64 ∧ A2.width = 64) (hA3 : A3.height = 16 ∧ A3.width = 16)
    (z0 : ZeroPlane A0) (z1 : ZeroPlane A1) (z2 : ZeroPlane A2) (z3 : ZeroPlane A3)
    (hsum : zero_tile_sum 2 16 R0 16 16 = ULONG_LONG_MAX) :
    ∃ (g3 g2 g1 g0 : Alignment) (d3 d2 d1 d0 : Int),
      level_state [R0, R1, R2, R3] [A0, A1, A2, A3] 3 = .ok (g3, []) ∧
      level_state [R0, R1, R2, R3] [A0, A1, A2, A3] 2 = .ok (g2, g3) ∧
      level_state [R0, R1, R2, R3] [A0, A1, A2, A3] 1 = .ok (g1, g2) ∧
      level_state [R0, R1, R2, R3] [A0, A1, A2, A3] 0 = .ok (g0, g1) ∧
      align_levels [R0, R1, R2, R3] [A0, A1, A2, A3] = .ok g0 ∧
      cell g3 1 1 = some (d3, d3) ∧ cell g2 2 2 = some (d2, d2) ∧
      cell g1 8 8 = some (d1, d1) ∧ cell g0 16 16 = some (d0, d0) ∧
      d3 ≤ -1 ∧ d2 ≤ -8 ∧ d1 ≤ -36 ∧ d0 ≤ -74 := by
  obtain ⟨g3, g2, g1, g0, q3, q2, q1, q0, qa, s3, s2, s1, s0, _⟩ :=
    level_loop_total R0 R1 R2 R3 A0 A1 A2 A3
      ⟨by rw [hA0.1, hR0.1], by rw [hA0.2, hR0.2]⟩ ⟨by rw [hA1.1, hR1.1], by rw [hA1.2, hR1.2]⟩
      ⟨by rw [hA2.1, hR2.1], by rw [hA2.2, hR2.2]⟩ ⟨by rw [hA3.1, hR3.1], by rw [hA3.2, hR3.2]⟩
      ⟨by rw [hR1.1, hR0.1], by rw [hR1.2, hR0.2]⟩ ⟨by rw [hR2.1, hR1.1], by rw [hR2.2, hR1.2]⟩
      ⟨by rw [hR3.1, hR2.1], by rw [hR3.2, hR2.2]⟩ ⟨by rw [hR3.1]; decide, by rw [hR3.2]; decide⟩
  obtain ⟨e3, e2, e1, e0⟩ := level_steps_of_states q3 q2 q1 q0
  obtain ⟨_, _, r3, a3, hal3, _⟩ := level_step_ok e3
  obtain ⟨_, _, r2, a2, hal2, _⟩ := level_step_ok e2
  obtain ⟨_, _, r1, a1, hal1, _⟩ := level_step_ok e1
  obtain ⟨_, _, r0, a0, hal0, _⟩ := level_step_ok e0
  cases r3
  cases a3
  cases r2
  cases a2
  cases r1
  cases a1
  cases r0
  cases a0
  rw [level_args_values.1] at hal3
  rw [level_args_values.2.1] at hal2
  rw [level_args_values.2.2.1] at hal1
  rw [level_args_values.2.2.2] at hal0
  have hal3 : align_image_level R3 A3 [] [] (-1) 8 (-1) 1 1 = .ok g3 := hal3
  have hal2 : align_image_level R2 A2 g3 [] 4 16 8 4 2 = .ok g2 := hal2
  have hal1 : align_image_level R1 A1 g2 [] 4 16 16 4 2 = .ok g1 := hal1
  have hal0 : align_image_level R0 A0 g1 [] 2 16 16 1 2 = .ok g0 := hal0
  rw [hR3.1, hR3.2] at s3
  rw [hR2.1, hR2.2] at s2
  rw [hR1.1, hR1.2] at s1
  have u2 : upsample_alignment_func_ptr 4 16 8 = .ok (some (4, 2)) := by decide
  have u1 : upsample_alignment_func_ptr 4 16 16 = .ok (some (4, 1)) := by decide
  have u0 : upsample_alignment_func_ptr 2 16 16 = .ok (some (2, 1)) := by decide
  -- level 3
  obtain ⟨d3, c3, l3, h3, _⟩ := zero_alt_level_entry (Or.inl rfl) (Or.inl rfl) hal3 z3 1 1
    (by rw [hR3.1]; decide) (by rw [hR3.2]; decide) 0 0
    (fun upsample up _ hp => by
      unfold upsampled_prior at hp
      rw [if_pos rfl] at hp
      obtain ⟨_, _, hup⟩ := resize_zero_nil _ _ _ hp
      refine ⟨0, ?_, le_refl _, le_refl _⟩
      rw [hup, cell_replicate, hR3.1, hR3.2]
      rfl)
    (by rw [hA3.1]; decide) (by rw [hA3.2]; decide)
  -- level 2
  obtain ⟨d2, c2, l2, h2, _⟩ := zero_alt_level_entry (Or.inr rfl) (Or.inr rfl) hal2 z2 2 2
    (by rw [hR2.1]; decide) (by rw [hR2.2]; decide) (-8) (-4)
    (fun upsample up hu hp => by
      rw [u2] at hu
      cases hu
      exact ⟨d3 * 4, prior_of_coarse_entry s3 (by decide) 2 2 1 1 (by decide) (by decide)
        (by decide) (by decide) d3 c3 (by omega) up hp, by omega, by omega⟩)
    (by rw [hA2.1]; decide) (by rw [hA2.2]; decide)
  -- level 1
  obtain ⟨d1, c1, l1, h1, _⟩ := zero_alt_level_entry (Or.inr rfl) (Or.inr rfl) hal1 z1 8 8
    (by rw [hR1.1]; decide) (by rw [hR1.2]; decide) (-52) (-32)
    (fun upsample up hu hp => by
      rw [u1] at hu
      cases hu
      exact ⟨d2 * 4, prior_of_coarse_entry s2 (by decide) 8 8 2 2 (by decide) (by decide)
        (by decide) (by decide) d2 c2 (by omega) up hp, by omega, by omega⟩)
    (by rw [hA1.1]; decide) (by rw [hA1.2]; decide)
  -- level 0
  obtain ⟨d0, c0, l0, _, h0⟩ := zero_alt_level_entry (Or.inr rfl) (Or.inr rfl) hal0 z0 16 16
    (by rw [hR0.1]; decide) (by rw [hR0.2]; decide) (-114) (-72)
    (fun upsample up hu hp => by
      rw [u0] at hu
      cases hu
      exact ⟨d1 * 2, prior_of_coarse_entry s1 (by decide) 16 16 8 8 (by decide) (by decide)
        (by decide) (by decide) d1 c1 (by omega) up hp, by omega, by omega⟩)
    (by rw [hA0.1]; decide) (by rw [hA0.2]; decide)
  exact ⟨g3, g2, g1, g0, d3, d2, d1, d0, q3, q2, q1, q0, qa, c3, c2, c1, c0, by omega, by omega,
    by omega, by have := h0 hsum; omega⟩

/-- The result of `align::process` on a burst of two frames with the reference first:
an empty grid for the reference and the grid of the level loop for the other
frame. -/
theorem process_two_frames (blur : Mat → Int → Mat) (down : Int → Mat → Mat) (ref alt : Mat)
    (entry : List Alignment) (g0 : Alignment)
    (qa : align_levels
      [ref, down 2 (blur ref 2), down 4 (blur (down 2 (blur ref 2)) 4),
        down 4 (blur (down 4 (blur (down 2 (blur ref 2)) 4)) 4)]
      [alt, down 2 (blur alt 2), down 4 (blur (down 2 (blur alt 2)) 4),
        down 4 (blur (down 4 (blur (down 2 (blur alt 2)) 4)) 4)] = .ok g0) :
    process blur down [ref, alt] 2 0 entry = .ok [[], g0] := by
  have hres : vector_resize (vector_clear entry) ((2 : Nat) : Int) ([] : Alignment) =
      .ok [[], []] := rfl
  have hb : build_pyramids blur down [ref, alt] 2 =
      .ok [[ref, down 2 (blur ref 2), down 4 (blur (down 2 (blur ref 2)) 4),
        down 4 (blur (down 4 (blur (down 2 (blur ref 2)) 4)) 4)],
      [alt, down 2 (blur alt 2), down 4 (blur (down 2 (blur alt 2)) 4),
        down 4 (blur (down 4 (blur (down 2 (blur alt 2)) 4)) 4)]] := rfl
  have hr : List.range 2 = [0, 1] := rfl
  have hbind : ∀ (x : List Alignment) (f : List Alignment → Except Fault (List Alignment)),
      ((Except.ok x : Except Fault (List Alignment)) >>= f) = f x := fun _ _ => rfl
  unfold process
  rw [hres]
  simp only
  rw [hb]
  simp only
  unfold align_frames
  simp only [List.getElem?_cons_zero, hr, List.foldlM_cons, List.foldlM_nil, if_true, hbind]
  rw [if_neg (by decide)]
  simp only [List.getElem?_cons_succ, List.getElem?_cons_zero, qa]
  rfl

/-- Decimation without blur keeps an all-zero plane all zero. -/
theorem decimate_zeroPlane (f : Int) (hf : 0 < f) (m : Mat) (hm : ZeroPlane m) :
    ZeroPlane (decimate f ((fun (m : Mat) (_ : Int) => m) m f)) := by
  intro y x hy0 hy hx0 hx
  have hfn : ((f.toNat : Nat) : Int) = f := Int.toNat_of_nonneg (by omega)
  have hpos : 0 < f.toNat := by omega
  have h1 : ((m.height / f.toNat : Nat) : Int) * f ≤ m.height := by
    rw [← hfn]; exact_mod_cast Nat.div_mul_le_self m.height f.toNat
  have h2 : ((m.width / f.toNat : Nat) : Int) * f ≤ m.width := by
    rw [← hfn]; exact_mod_cast Nat.div_mul_le_self m.width f.toNat
  have hy' : y + 1 ≤ ((m.height / f.toNat : Nat) : Int) := hy
  have hx' : x + 1 ≤ ((m.width / f.toNat : Nat) : Int) := hx
  have e1 : (y + 1) * f ≤ ((m.height / f.toNat : Nat) : Int) * f :=
    mul_le_mul_of_nonneg_right hy' (by omega)
  have e2 : (x + 1) * f ≤ ((m.width / f.toNat : Nat) : Int) * f :=
    mul_le_mul_of_nonneg_right hx' (by omega)
  rw [add_mul] at e1 e2
  exact hm (y * f) (x * f) (mul_nonneg hy0 (by omega)) (by omega) (mul_nonneg hx0 (by omega))
    (by omega)

/-- C28 (failing input): a burst of two 512 x 512 frames, reference first, the alternate
frame all zero and the reference frame zero except the samples 65535, 362, 5 and
1 in the level-0 tile of grid cell (16, 16).  The pyramids are those
`align::process` builds, for any blur and decimation that divide the dimensions
by the factor and keep an all-zero plane all zero.  The tiles of the grid cells
(1, 1), (2, 2), (8, 8) and (16, 16) of the levels 3, 2, 1 and 0 have their whole search
window inside the all-zero alternate plane, so all their candidates tie and the
first one is taken: the entries of the first three are at most -1, -8 and -36.
Level 0 is the frame itself: every candidate of the tile (16, 16) has L2 distance
`2^64 - 1` after the 32-bit wrap-around, the search ends with the initial indices
(-1, -1), and the entry recorded is at most `2 * (-36) + (-1) - 1 = -74`, beyond the
bound B0 = 73. -/
theorem level0_entry_exceeds_tight_bound_when_l2_wraps
    (GaussianBlur : Mat → Int → Mat) (downsample_nearest_neighbour : Int → Mat → Mat)
    (hdown2 : ∀ m : Mat, (downsample_nearest_neighbour 2 (GaussianBlur m 2)).height = m.height / 2 ∧
      (downsample_nearest_neighbour 2 (GaussianBlur m 2)).width = m.width / 2)
    (hdown4 : ∀ m : Mat, (downsample_nearest_neighbour 4 (GaussianBlur m 4)).height = m.height / 4 ∧
      (downsample_nearest_neighbour 4 (GaussianBlur m 4)).width = m.width / 4)
    (hzero2 : ∀ m : Mat, ZeroPlane m →
      ZeroPlane (downsample_nearest_neighbour 2 (GaussianBlur m 2)))
    (hzero4 : ∀ m : Mat, ZeroPlane m →
      ZeroPlane (downsample_nearest_neighbour 4 (GaussianBlur m 4))) :
    ∃ (ref_pyr alt_pyr : List Mat) (g3 g2 g1 g0 : Alignment) (d3 d2 d1 d0 : Int),
      build_per_grayimg_pyramid GaussianBlur downsample_nearest_neighbour [] wrap_frame
        inv_scale_factors = .ok ref_pyr ∧
      build_per_grayimg_pyramid GaussianBlur downsample_nearest_neighbour []
        (const_plane 512 512 0) inv_scale_factors = .ok alt_pyr ∧
      level_state ref_pyr alt_pyr 3 = .ok (g3, []) ∧
      level_state ref_pyr alt_pyr 2 = .ok (g2, g3) ∧
      level_state ref_pyr alt_pyr 1 = .ok (g1, g2) ∧
      level_state ref_pyr alt_pyr 0 = .ok (g0, g1) ∧
      process GaussianBlur downsample_nearest_neighbour [wrap_frame, const_plane 512 512 0] 2 0
        [] = .ok [[], g0] ∧
      l2_sum 16 wrap_frame (const_plane 16 16 0) 128 128 0 0 = ULONG_LONG_MAX ∧
      cell g3 1 1 = some (d3, d3) ∧ cell g2 2 2 = some (d2, d2) ∧
      cell g1 8 8 = some (d1, d1) ∧ cell g0 16 16 = some (d0, d0) ∧
      d3 ≤ -1 ∧ d2 ≤ -8 ∧ d1 ≤ -36 ∧ d0 ≤ -74 ∧ ¬ (|d0| ≤ 73) := by
  have hsum : l2_sum 16 wrap_frame (const_plane 16 16 0) 128 128 0 0 = ULONG_LONG_MAX := by
    decide!
  have r1 := hdown2 wrap_frame
  have r2 := hdown4 (downsample_nearest_neighbour 2 (GaussianBlur wrap_frame 2))
  have r3 := hdown4 (downsample_nearest_neighbour 4
    (GaussianBlur (downsample_nearest_neighbour 2 (GaussianBlur wrap_frame 2)) 4))
  have a1 := hdown2 (const_plane 512 512 0)
  have a2 := hdown4 (downsample_nearest_neighbour 2 (GaussianBlur (const_plane 512 512 0) 2))
  have a3 := hdown4 (downsample_nearest_neighbour 4
    (GaussianBlur (downsample_nearest_neighbour 2 (GaussianBlur (const_plane 512 512 0) 2)) 4))
  have hw : wrap_frame.height = 512 ∧ wrap_frame.width = 512 := ⟨rfl, rfl⟩
  have hc : (const_plane 512 512 0).height = 512 ∧ (const_plane 512 512 0).width = 512 :=
    ⟨rfl, rfl⟩
  rw [hw.1, hw.2] at r1
  rw [r1.1, r1.2] at r2
  rw [r2.1, r2.2] at r3
  rw [hc.1, hc.2] at a1
  rw [a1.1, a1.2] at a2
  rw [a2.1, a2.2] at a3
  have z0 : ZeroPlane (const_plane 512 512 0) := fun _ _ _ _ _ _ => rfl
  have z1 := hzero2 _ z0
  have z2 := hzero4 _ z1
  have z3 := hzero4 _ z2
  obtain ⟨g3, g2, g1, g0, d3, d2, d1, d0, q3, q2, q1, q0, qa, c3, c2, c1, c0, b3, b2, b1, b0⟩ :=
    zero_alt_level_loop wrap_frame _ _ _ (const_plane 512 512 0) _ _ _ hw r1 r2 r3 hc a1 a2 a3
      z0 z1 z2 z3 hsum
  refine ⟨_, _, g3, g2, g1, g0, d3, d2, d1, d0,
    pyramid_fixed GaussianBlur downsample_nearest_neighbour wrap_frame,
    pyramid_fixed GaussianBlur downsample_nearest_neighbour (const_plane 512 512 0),
    q3, q2, q1, q0, process_two_frames _ _ _ _ _ _ qa, hsum, c3, c2, c1, c0, b3, b2, b1, b0, ?_⟩
  rw [abs_le]
  omega

theorem level0_entry_exceeds_tight_bound_when_l2_wraps_witness :
    ∃ (ref_pyr alt_pyr : List Mat) (g3 g2 g1 g0 : Alignment) (d3 d2 d1 d0 : Int),
      build_per_grayimg_pyramid (fun m _ => m) decimate [] wrap_frame
        inv_scale_factors = .ok ref_pyr ∧
      build_per_grayimg_pyramid (fun m _ => m) decimate []
        (const_plane 512 512 0) inv_scale_factors = .ok alt_pyr ∧
      level_state ref_pyr alt_pyr 3 = .ok (g3, []) ∧
      level_state ref_pyr alt_pyr 2 = .ok (g2, g3) ∧
      level_state ref_pyr alt_pyr 1 = .ok (g1, g2) ∧
      level_state ref_pyr alt_pyr 0 = .ok (g0, g1) ∧
      process (fun m _ => m) decimate [wrap_frame, const_plane 512 512 0] 2 0
        [] = .ok [[], g0] ∧
      l2_sum 16 wrap_frame (const_plane 16 16 0) 128 128 0 0 = ULONG_LONG_MAX ∧
      cell g3 1 1 = some (d3, d3) ∧ cell g2 2 2 = some (d2, d2) ∧
      cell g1 8 8 = some (d1, d1) ∧ cell g0 16 16 = some (d0, d0) ∧
      d3 ≤ -1 ∧ d2 ≤ -8 ∧ d1 ≤ -36 ∧ d0 ≤ -74 ∧ ¬ (|d0| ≤ 73) :=
  level0_entry_exceeds_tight_bound_when_l2_wraps (fun m _ => m) decimate
    (fun _ => ⟨rfl, rfl⟩) (fun _ => ⟨rfl, rfl⟩) (decimate_zeroPlane 2 (by decide))
    (decimate_zeroPlane 4 (by decide))

/-! ## Reference tile-start table -/

theorem reftiles_row_inv {g0 g g' : Alignment} {T W : Int} {S : Nat → Nat → Prop} {i : Nat}
    (h : GridInv g0 g (fun r c => some ((r : Int) * T, (c : Int) * T)) S)
    (hrun : reftiles_row T W i g = .ok g') :
    GridInv g0 g' (fun r c => some ((r : Int) * T, (c : Int) * T))
      (fun r' c' => S r' c' ∨ (r' = i ∧ c' < W.toNat)) := by
  unfold reftiles_row at hrun
  refine foldlM_range_inv _
    (fun j g => GridInv g0 g (fun r c => some ((r : Int) * T, (c : Int) * T))
      (fun r' c' => S r' c' ∨ (r' = i ∧ c' < j)))
    W.toNat g g' ?_ ?_ hrun
  · exact h.congr (fun r' c' => by
      constructor
      · rintro (hh | hh)
        · exact hh
        · omega
      · intro hh; exact Or.inl hh)
  · intro j x y _ hx hstep
    exact (hx.write hstep rfl).congr (fun r' c' => by
      constructor
      · rintro (hh | hh)
        · exact Or.inl (Or.inl hh)
        · by_cases hc : c' = j
          · exact Or.inr ⟨hh.1, hc⟩
          · exact Or.inl (Or.inr ⟨hh.1, by omega⟩)
      · rintro ((hh | hh) | hh)
        · exact Or.inl hh
        · exact Or.inr ⟨hh.1, by omega⟩
        · exact Or.inr ⟨hh.1, by omega⟩)

/-- What the grid built for one level holds when `reftiles_level` returns: the shape
`(h/(T/2) - 1, w/(T/2) - 1)` and, at every cell (i, j), the pair `(i * T, j * T)`. -/
theorem reftiles_level_ok {h w : Nat} {T : Int} {g : Alignment}
    (hrun : reftiles_level h w T [] = .ok g) :
    GridInv
      (List.replicate (cdiv h (cdiv T 2) - 1).toNat
        (List.replicate (cdiv w (cdiv T 2) - 1).toNat (0, 0)))
      g (fun r c => some ((r : Int) * T, (c : Int) * T))
      (fun r c => r < (cdiv h (cdiv T 2) - 1).toNat ∧ c < (cdiv w (cdiv T 2) - 1).toNat) := by
  unfold reftiles_level at hrun
  split at hrun
  · cases hrun
  · simp only at hrun
    cases hz : resize_zero [] (cdiv h (cdiv T 2) - 1) (cdiv w (cdiv T 2) - 1) with
    | error e => rw [hz] at hrun; cases hrun
    | ok g0 =>
      rw [hz] at hrun
      simp only at hrun
      obtain ⟨_, _, hg0⟩ := resize_zero_nil _ _ g0 hz
      subst hg0
      refine foldlM_range_inv _
        (fun i g => GridInv _ g (fun r c => some ((r : Int) * T, (c : Int) * T))
          (fun r' c' => r' < i ∧ c' < (cdiv w (cdiv T 2) - 1).toNat))
        _ _ g ?_ ?_ hrun
      · exact ⟨SameShape.refl _, fun r c hh => by omega, fun _ _ _ => rfl⟩
      · intro i x y _ hx hstep
        exact (reftiles_row_inv hx hstep).congr (fun r' c' => by
          constructor
          · rintro ⟨h1, h2⟩
            by_cases hr : r' < i
            · exact Or.inl ⟨hr, h2⟩
            · exact Or.inr ⟨by omega, h2⟩
          · rintro (hh | hh)
            · exact ⟨by omega, hh.2⟩
            · exact ⟨by omega, hh.2⟩)

/-- C32 (failing input): the table built for a four-level pyramid with the tile sizes
`[16, 16, 16, 8]`.  The entry of grid cell (i, j) is `(i * T, j * T)`, with the full tile
size as stride: at level 0 (a 32 x 32 plane, T = 16) cell (1, 1) holds (16, 16)
while the level aligner uses the origin `(1 * 16 / 2, 1 * 16 / 2) = (8, 8)`, and cell
(2, 2) holds (32, 32), where no tile of the plane can start (the range check
of the kernels rejects it). -/
theorem reftiles_start_uses_full_tile_stride :
    build_per_pyramid_reftiles_start []
        [[const_plane 32 32 0, const_plane 16 16 0, const_plane 16 16 0, const_plane 8 8 0]]
        grayimg_tile_sizes =
      .ok [[[(0, 0), (0, 16), (0, 32)], [(16, 0), (16, 16), (16, 32)],
          [(32, 0), (32, 16), (32, 32)]],
        [[(0, 0)]], [[(0, 0)]], [[(0, 0)]]] ∧
    (cdiv (((1 : Nat) : Int) * 16) 2, cdiv (((1 : Nat) : Int) * 16) 2) = ((8 : Int), (8 : Int)) ∧
    ((16 : Int), (16 : Int)) ≠ (cdiv (((1 : Nat) : Int) * 16) 2, cdiv (((1 : Nat) : Int) * 16) 2) ∧
    ((32 : Int), (32 : Int)) ≠ (cdiv (((2 : Nat) : Int) * 16) 2, cdiv (((2 : Nat) : Int) * 16) 2) ∧
    range_check 16 (const_plane 32 32 0) (const_plane 32 32 0) 32 32 0 0 =
      .error (.runtime_error "l1 distance img1_tile_row_start_idx out of valid range") := by
  decide

/-! ## Finish: scaling of the channels -/

/-- Whatever the pixel, `applyScaling_` takes the scale from the first element of the
two gray images. -/
theorem applyScaling_uses_first_element (mergedImage : List Vec3w)
    (shortGray fusedGray : List (Fin 65536)) (sg fg : Fin 65536)
    (hs : shortGray[0]? = some sg) (hf : fusedGray[0]? = some fg) :
    applyScaling_ mergedImage shortGray fusedGray =
      .ok (mergedImage.map (fun px =>
        (scale_channel px.1 (if sg ≠ 0 then (fg.val : ℚ) / (sg.val : ℚ) else 1),
         scale_channel px.2.1 (if sg ≠ 0 then (fg.val : ℚ) / (sg.val : ℚ) else 1),
         scale_channel px.2.2 (if sg ≠ 0 then (fg.val : ℚ) / (sg.val : ℚ) else 1)))) := by
  unfold applyScaling_
  simp only [hs, hf]
  induction mergedImage with
  | nil => rfl
  | cons px rest ih =>
    rw [List.mapM_cons, ih]
    by_cases h0 : sg = 0
    · simp [h0]
      rfl
    · simp [h0]
      rfl

/-- C31 (failing input): two pixels (100, 100, 100) with `shortGray = [0, 1]` and
`fusedGray = [5, 2]`.  The index `count` stays 0, so pixel 1 is scaled with the gray
values of pixel 0 (`shortGray[0] = 0`, scale 1) and keeps 100, not
`100 * 2 / 1 = 200`.  With `shortGray = [1, 1]` and `fusedGray = [3, 2]`, which differ from
the first input at pixel 0 only, pixel 1 becomes 300: its value depends on the
gray values of another pixel. -/
theorem scaling_uses_gray_values_of_pixel_zero :
    applyScaling_ [(100, 100, 100), (100, 100, 100)] [0, 1] [5, 2] =
      .ok [(100, 100, 100), (100, 100, 100)] ∧
    applyScaling_ [(100, 100, 100), (100, 100, 100)] [1, 1] [3, 2] =
      .ok [(300, 300, 300), (300, 300, 300)] ∧
    scale_channel 100 ((2 : ℚ) / 1) = 200 ∧
    (200 : Fin 65536) ≠ 100 ∧ (200 : Fin 65536) ≠ 300 := by
  decide!

end hdrplus
